import Mathlib

/-!
# Pod watcher of the Cilium agent (`pkg/k8s/watchers/pod.go`)

A shallow embedding of the pod reconciler: the handlers `addK8sPodV1`,
`updateK8sPodV1`, `deleteK8sPodV1`, the ipcache helpers `updatePodHostData` and
`deletePodHostData`, the host-port helpers `genServiceMappings`,
`upsertHostPortMapping`, `deleteHostPortMapping`, and the change loop of
`podsInit`.

The collaborators the watcher holds through interfaces (ipcache, service
manager, endpoint manager, redirect-policy manager, cgroup manager, policy
updater) are not part of the embedded file.  The ipcache and the service manager
are fields of the watcher acting on abstract states `C` and `S`; every call made
to a collaborator is recorded, in program order, in the list of calls a function
returns next to its result and the new state.  Logging and metrics
are not modelled.
-/

set_option linter.dupNamespace false

namespace Cilium

/-! ## Go values -/

/-- A Go `map[string]string`, as an association list; the first binding of a key is
the one that counts. -/
abbrev GoMap := List (String × String)

/-- Indexing a Go map, `m[key]`: the zero value when the key is absent. -/
def GoMap.get (m : GoMap) (key : String) : String := (m.lookup key).getD ""

/-- The function `maps.Equal` of the Go library: same keys, same values. -/
def mapsEqual (a b : GoMap) : Bool :=
  (a.map Prod.fst ++ b.map Prod.fst).all (fun key => a.lookup key == b.lookup key)

/-- A Go `[]string` whose nil-ness matters (`k8sTypes.IPSlice`): `none` is the nil
slice, `some []` an empty slice that is not nil. -/
abbrev IPSlice := Option (List String)

/-- The elements a `range` over the slice visits. -/
def IPSlice.elems (s : IPSlice) : List String := s.getD []

/-- Go `len`. -/
def IPSlice.len (s : IPSlice) : Nat := s.elems.length

/-- Generated `(*IPSlice).DeepEqual`: both nil, or both not nil with the same elements
in the same order. -/
def IPSlice.DeepEqual (a b : IPSlice) : Bool := a == b

/-- Conversion `uint16(x)` of an `int32`. -/
def uint16 (x : Int) : Nat := (x % 65536).toNat

/-- Formatting a string slice with the verb `%s`. -/
def fmtSlice (s : IPSlice) : String := "[" ++ " ".intercalate s.elems ++ "]"

/-- A Go `error`: its `Error()` text and, when it is (or wraps) an
`*ipcache.ErrOverwrite`, that error's `ExistingSrc` and `NewSrc`. -/
structure GoError (Src : Type) where
  Error : String
  asOverwrite : Option (Src × Src)
deriving DecidableEq, Repr

/-! ## Sources and identities -/

/-- Modelled from the spec: the type `source.Source` (package `pkg/source`, not among
the embedded files), the tag naming the subsystem behind an ipcache write. -/
inductive Source
  | KVStore
  | Local
  | CustomResource
  | Kubernetes
  | KubeAPIServer
  | ClusterMesh
  | Directory
  | LocalAPI
  | Generated
  | Restored
  | Unspec
deriving DecidableEq, Repr

/-- Modelled from the spec: numeric identities (package `pkg/identity`); the watcher
only ever writes the well-known placeholder for unmanaged endpoints. -/
inductive NumericIdentity
  | ReservedIdentityUnmanaged
  | id (n : Nat)
deriving DecidableEq, Repr

/-- The struct `ipcache.Identity`. -/
structure Identity where
  ID : NumericIdentity
  Source : Source
deriving DecidableEq, Repr

/-- The struct `types.PortProto`. -/
structure PortProto where
  Port : Nat
  Proto : Nat
deriving DecidableEq, Repr

/-- The struct `ipcache.K8sMetadata`; an empty `NamedPorts` stands for the nil map (the
code creates the map only when it stores a port in it). -/
structure K8sMetadata where
  Namespace : String
  PodName : String
  NamedPorts : List (String × PortProto)
deriving DecidableEq, Repr

/-- Assignment `m[key] = v` on a map kept as an association list. -/
def mapSet {κ β : Type} [DecidableEq κ] (m : List (κ × β)) (key : κ) (v : β) : List (κ × β) :=
  match m with
  | [] => [(key, v)]
  | (k, x) :: rest => if k = key then (k, v) :: rest else (k, x) :: mapSet rest key v

/-- The error check `errors.Is(err, &ipcache.ErrOverwrite{ExistingSrc: e, NewSrc: n})`
for a target with both sources set: the error is an overwrite error with exactly these
two sources. -/
def errorsIsOverwrite (err : GoError Source) (e n : Source) : Bool :=
  err.asOverwrite == some (e, n)

/-! ## Pods -/

/-- The struct `slim_corev1.ContainerPort`; the two ports are `int32`. -/
structure ContainerPort where
  Name : String
  HostPort : Int
  ContainerPort : Int
  Protocol : String
  HostIP : String
deriving DecidableEq, Repr

/-- The struct `slim_corev1.Container`. -/
structure Container where
  Name : String
  Image : String
  Ports : List ContainerPort
deriving DecidableEq, Repr

/-- The struct `slim_corev1.PodSpec`; its generated `DeepEqual` is equality of the
fields. -/
structure PodSpec where
  InitContainers : List Container
  Containers : List Container
  ServiceAccountName : String
  NodeName : String
  HostNetwork : Bool
deriving DecidableEq, Repr

/-- The struct `slim_corev1.PodStatus`; `Conditions` lists (type, status) pairs. -/
structure PodStatus where
  Phase : String
  HostIP : String
  PodIP : String
  PodIPs : List String
  Conditions : List (String × String)
deriving DecidableEq, Repr

/-- The struct `slim_metav1.ObjectMeta`, the fields the watcher reads. -/
structure ObjectMeta where
  Name : String
  Namespace : String
  UID : String
  Labels : GoMap
  Annotations : GoMap
deriving DecidableEq, Repr

/-- The struct `slim_corev1.Pod`. -/
structure Pod where
  ObjectMeta : ObjectMeta
  Spec : PodSpec
  Status : PodStatus
deriving DecidableEq, Repr

/-- Modelled from the spec: `k8sUtils.IsPodRunning` (package `pkg/k8s/utils`, not among
the embedded files): a pod is no longer running once its phase is terminal, failed or
succeeded. -/
def IsPodRunning (status : PodStatus) : Bool :=
  !(status.Phase == "Failed" || status.Phase == "Succeeded")

/-! ## Addresses and services -/

/-- A `netip.Addr`: the zero value, an IPv4 address by its four bytes, or an IPv6
address by its two 64-bit halves and zone. -/
inductive Addr
  | zero
  | v4 (a b c d : Nat)
  | v6 (hi lo : Nat) (zone : String)
deriving DecidableEq, Repr

namespace Addr

/-- The address `netip.IPv4Unspecified()`, 0.0.0.0. -/
def IPv4Unspecified : Addr := .v4 0 0 0 0

/-- The address `netip.IPv6Unspecified()`, `::`. -/
def IPv6Unspecified : Addr := .v6 0 0 ""

def IsValid : Addr → Bool
  | .zero => false
  | _ => true

def Is4 : Addr → Bool
  | .v4 _ _ _ _ => true
  | _ => false

/-- True for 0.0.0.0 and for `::` without a zone. -/
def IsUnspecified (ip : Addr) : Bool := ip == IPv4Unspecified || ip == IPv6Unspecified

/-- True for 127.0.0.0/8, for `::1` and for an IPv4-mapped IPv6 address of
127.0.0.0/8. -/
def IsLoopback : Addr → Bool
  | .zero => false
  | .v4 a _ _ _ => a == 127
  | .v6 hi lo _ =>
    if hi == 0 && lo / 4294967296 == 65535 then lo % 4294967296 / 16777216 == 127
    else hi == 0 && lo == 1

end Addr

/-- The struct `cmtypes.AddrCluster`. -/
structure AddrCluster where
  addr : Addr
  clusterID : Nat
deriving DecidableEq, Repr

/-- The constructor `cmtypes.AddrClusterFrom`. -/
def AddrClusterFrom (addr : Addr) (clusterID : Nat) : AddrCluster := ⟨addr, clusterID⟩

def AddrCluster.Is4 (a : AddrCluster) : Bool := a.addr.Is4

/-- The struct `loadbalancer.L4Addr`. -/
structure L4Addr where
  Protocol : String
  Port : Nat
deriving DecidableEq, Repr

/-- The struct `loadbalancer.L3n4Addr`; its generated `DeepEqual` is equality of the
fields. -/
structure L3n4Addr where
  AddrCluster : AddrCluster
  L4Addr : L4Addr
  Scope : Nat
deriving DecidableEq, Repr

/-- The constant `loadbalancer.ScopeExternal`. -/
def ScopeExternal : Nat := 0

/-- The struct `loadbalancer.L3n4AddrID`. -/
structure L3n4AddrID where
  L3n4Addr : L3n4Addr
  ID : Nat
deriving DecidableEq, Repr

/-- The struct `loadbalancer.LegacyBackend`, of which the watcher sets the address
only. -/
structure LegacyBackend where
  L3n4Addr : L3n4Addr
deriving DecidableEq, Repr

/-- The struct `loadbalancer.ServiceName`; `Equal` is equality of the fields. -/
structure ServiceName where
  Name : String
  Namespace : String
  Cluster : String
deriving DecidableEq, Repr

/-- Service types and traffic policies, by the names of the constants the watcher
uses. -/
inductive SVCType
  | unset
  | SVCTypeHostPort
  | other (s : String)
deriving DecidableEq, Repr

inductive SVCTrafficPolicy
  | unset
  | SVCTrafficPolicyCluster
  | SVCTrafficPolicyLocal
deriving DecidableEq, Repr

/-- The struct `loadbalancer.LegacySVC`. -/
structure LegacySVC where
  Frontend : L3n4AddrID
  Backends : List LegacyBackend
  Typ : SVCType
  ExtTrafficPolicy : SVCTrafficPolicy
  IntTrafficPolicy : SVCTrafficPolicy
  HealthCheckNodePort : Nat
  Name : ServiceName
  LoopbackHostport : Bool
deriving DecidableEq, Repr

/-! ## Calls to the collaborators -/

/-- One call made to a collaborator of the watcher, with the results the watcher
reads: the `namedPortsChanged` flag and the error of an ipcache write, the entry or
service a lookup found, the error of a service write. -/
inductive Effect
  | ipcacheUpsert (ip : String) (hostIP : List Nat) (hostKey : Nat) (k8sMeta : K8sMetadata)
      (newIdentity : Identity) (namedPortsChanged : Bool) (err : Option (GoError Source))
  | ipcacheDelete (ip : String) (src : Source) (namedPortsChanged : Bool)
  | ipcacheDeleteOnMetadataMatch (ip : String) (src : Source) (ns name : String)
  | ipcacheLookupByIP (ip : String) (found : Option Identity)
  | UpsertService (svc : LegacySVC) (err : Option (GoError Source))
  | DeleteService (fe : L3n4Addr) (err : Option (GoError Source))
  | GetDeepCopyServiceByFrontend (fe : L3n4Addr) (found : Option LegacySVC)
  | TriggerPolicyUpdates (reason : String)
  | lrpOnAddPod (pod : Pod)
  | lrpOnUpdatePod (pod : Pod) (needsReassign ready : Bool)
  | lrpOnDeletePod (pod : Pod)
  | cgroupOnAddPod (pod : Pod)
  | cgroupOnUpdatePod (oldPod newPod : Pod)
  | cgroupOnDeletePod (pod : Pod)
  | UpdateLabelsFrom (ep : Nat) (oldLbls newLbls : GoMap) (err : Option (GoError Source))
  | updateCiliumEndpointLabels (ep : Nat) (lbls : GoMap)
  | UpdateBandwidthPolicy (ep : Nat) (egress ingress priority : String)
  | UpdateNoTrackRules (ep : Nat) (value : String)
  | realizePodAnnotationUpdate (ep : Nat)
  | SetEventTimestamp
deriving DecidableEq, Repr

namespace Effect

/-- A write to the ipcache: `Upsert`, `Delete` or `DeleteOnMetadataMatch`. -/
def isCacheWrite : Effect → Bool
  | .ipcacheUpsert .. => true
  | .ipcacheDelete .. => true
  | .ipcacheDeleteOnMetadataMatch .. => true
  | _ => false

/-- The IP address an ipcache write is for. -/
def cacheWriteIP : Effect → Option String
  | .ipcacheUpsert ip .. => some ip
  | .ipcacheDelete ip .. => some ip
  | .ipcacheDeleteOnMetadataMatch ip .. => some ip
  | _ => none

def isIpcacheUpsert : Effect → Bool
  | .ipcacheUpsert .. => true
  | _ => false

/-- A write to the service table: `UpsertService` or `DeleteService`. -/
def isServiceWrite : Effect → Bool
  | .UpsertService .. => true
  | .DeleteService .. => true
  | _ => false

def isUpsertService : Effect → Bool
  | .UpsertService .. => true
  | _ => false

def isDeleteService : Effect → Bool
  | .DeleteService .. => true
  | _ => false

def isTriggerPolicyUpdates : Effect → Bool
  | .TriggerPolicyUpdates .. => true
  | _ => false

end Effect

/-- The global configuration the watcher reads: `option.Config`, the load-balancer
configuration and the name of the local node (`nodeTypes.GetName()`). -/
structure Config where
  EnableLocalRedirectPolicy : Bool
  EnableSocketLBTracing : Bool
  EnableHostPort : Bool
  EnableIPv4 : Bool
  EnableIPv6 : Bool
  DisableCiliumEndpointCRD : Bool
  NodePortMin : Nat
  NodePortMax : Nat
  NodeName : String

/-- The watcher with what it depends on.  `C` is the state of the ipcache and `S` the
state of the service manager; the other fields are the helper functions, tables and
constants of packages that are not among the embedded files. -/
structure K8sPodWatcher (C S : Type) where
  cfg : Config
  /-- The addresses `nodeAddrs.List` yields for `NodeAddressNodePortIndex.Query(true)`. -/
  nodeAddrs : List Addr
  /-- The value of `node.GetEndpointEncryptKeyIndex`. -/
  hostKey : Nat
  ValidIPs : PodStatus → IPSlice
  GetLatestPodReadiness : PodStatus → String
  GetObjNamespaceName : ObjectMeta → String
  StripPodSpecialLabels : GoMap → GoMap
  /-- The composition `labelsfilter.Filter(labels.Map2Labels(m, k8s)).K8sStringMap()`. -/
  filterLabels : GoMap → GoMap
  AnnotationsEqual : List String → GoMap → GoMap → Bool
  annotationGet : Pod → List String → String
  EgressBandwidth : String
  IngressBandwidth : String
  Priority : String
  NoTrack : String
  NoTrackAlias : String
  /-- The function `net.ParseIP`, `none` for a nil result. -/
  ParseIP : String → Option (List Nat)
  /-- The function `netip.ParseAddr`, the zero address when parsing fails. -/
  ParseAddr : String → Addr
  /-- The function `cmtypes.MustParseAddrCluster`, applied to validated pod IPs only. -/
  MustParseAddrCluster : String → AddrCluster
  NewL4Type : String → Option String
  ParseProtocol : String → Option Nat
  DeepEqualBackends : List LegacyBackend → List LegacyBackend → Bool
  ipcUpsert : C → String → List Nat → Nat → K8sMetadata → Identity →
    C × Bool × Option (GoError Source)
  ipcDelete : C → String → Source → C × Bool
  ipcDeleteOnMetadataMatch : C → String → Source → String → String → C × Bool
  ipcLookupByIP : C → String → Option Identity
  svcUpsertService : S → LegacySVC → S × Option (GoError Source)
  svcDeleteService : S → L3n4Addr → S × Option (GoError Source)
  svcGetDeepCopyServiceByFrontend : S → L3n4Addr → Option LegacySVC
  GetEndpointsByPodName : String → List Nat
  epUpdateLabelsFrom : Nat → GoMap → GoMap → Option (GoError Source)

/-- What the handlers act on: the ipcache and the service table. -/
structure World (C S : Type) where
  cache : C
  svcs : S
deriving DecidableEq

/-- What a function returns: its Go result, the state it leaves, and the calls it made
to the collaborators, in order. -/
structure Ret (α σ : Type) where
  val : α
  st : σ
  evs : List Effect

/-- The constructor `errors.New` (and `fmt.Errorf` without wrapping). -/
def errorsNew (text : String) : GoError Source := ⟨text, none⟩

/-! ## Host-port services -/

def hostPortServiceName (pod : Pod) (port : Nat) (cluster : String) : ServiceName :=
  { Name := pod.ObjectMeta.Name ++ "/pod-id/" ++ pod.ObjectMeta.UID ++ "/host-port/" ++ toString port
    Namespace := pod.ObjectMeta.Namespace
    Cluster := cluster }

/-- The backend `genServiceMappings` builds for one pod IP. -/
def hostPortBackend {C S : Type} (k : K8sPodWatcher C S) (proto : String) (p : ContainerPort)
    (podIP : String) : LegacyBackend :=
  { L3n4Addr :=
      { AddrCluster := k.MustParseAddrCluster podIP
        L4Addr := { Protocol := proto, Port := uint16 p.ContainerPort }
        Scope := 0 } }

/-- The frontend addresses of one container port, with the `loopbackHostport` flag. -/
def hostPortFrontendAddrs {C S : Type} (k : K8sPodWatcher C S) (p : ContainerPort) :
    List Addr × Bool :=
  let feIP := k.ParseAddr p.HostIP
  if feIP.IsValid && !feIP.IsUnspecified then
    if feIP.IsLoopback then
      ([if feIP.Is4 then Addr.IPv4Unspecified else Addr.IPv6Unspecified], true)
    else ([feIP], false)
  else (k.nodeAddrs ++ [Addr.IPv4Unspecified] ++ [Addr.IPv6Unspecified], false)

/-- The service `genServiceMappings` appends for one frontend address, if any. -/
def hostPortService {C S : Type} (k : K8sPodWatcher C S) (proto : String) (p : ContainerPort)
    (bes4 bes6 : List LegacyBackend) (loopbackHostport : Bool) (addr : Addr) :
    Option LegacySVC :=
  let fe : L3n4AddrID :=
    { L3n4Addr :=
        { AddrCluster := AddrClusterFrom addr 0
          L4Addr := { Protocol := proto, Port := uint16 p.HostPort }
          Scope := ScopeExternal }
      ID := 0 }
  let svc (bes : List LegacyBackend) : LegacySVC :=
    { Frontend := fe
      Backends := bes
      Typ := .SVCTypeHostPort
      ExtTrafficPolicy := .SVCTrafficPolicyCluster
      IntTrafficPolicy := .SVCTrafficPolicyCluster
      HealthCheckNodePort := 0
      Name := { Name := "", Namespace := "", Cluster := "" }
      LoopbackHostport := loopbackHostport }
  if addr.Is4 then
    if k.cfg.EnableIPv4 && bes4.length > 0 then some (svc bes4) else none
  else
    if k.cfg.EnableIPv6 && bes6.length > 0 then some (svc bes6) else none

/-- The body of the loop of `genServiceMappings` over container ports: the services
of one port. -/
def portServiceMappings {C S : Type} (k : K8sPodWatcher C S) (podIPs : List String)
    (p : ContainerPort) : List LegacySVC :=
  if p.HostPort ≤ 0 then []
  else if k.cfg.NodePortMin ≤ uint16 p.HostPort ∧ uint16 p.HostPort ≤ k.cfg.NodePortMax then []
  else
    match k.NewL4Type p.Protocol with
    | none => []
    | some proto =>
      let bes := podIPs.map (hostPortBackend k proto p)
      let bes4 := bes.filter (fun be => be.L3n4Addr.AddrCluster.Is4)
      let bes6 := bes.filter (fun be => !be.L3n4Addr.AddrCluster.Is4)
      let fes := hostPortFrontendAddrs k p
      fes.1.filterMap (hostPortService k proto p bes4 bes6 fes.2)

def genServiceMappings {C S : Type} (k : K8sPodWatcher C S) (pod : Pod) (podIPs : List String) :
    List LegacySVC :=
  let containers := pod.Spec.InitContainers ++ pod.Spec.Containers
  containers.flatMap (fun c => c.Ports.flatMap (portServiceMappings k podIPs))

/-- The guard of `deleteHostPortMapping` that skips a frontend: a service is stored
there, and it does not have the pod's service name and the computed backends. -/
def hostPortNotOwned {C S : Type} (k : K8sPodWatcher C S) (pod : Pod) (svc : Option LegacySVC)
    (dpSvc : LegacySVC) : Bool :=
  match svc with
  | none => false
  | some s =>
    !(s.Name == hostPortServiceName pod dpSvc.Frontend.L3n4Addr.L4Addr.Port "" &&
      k.DeepEqualBackends s.Backends dpSvc.Backends)

/-- The loop of `deleteHostPortMapping` over the computed services; it returns at the
first error of `DeleteService`. -/
def deleteHostPortLoop {C S : Type} (k : K8sPodWatcher C S) (pod : Pod) :
    List LegacySVC → S → Ret (Option (GoError Source)) S
  | [], s => ⟨none, s, []⟩
  | dpSvc :: rest, s =>
    let fe := dpSvc.Frontend.L3n4Addr
    let svc := k.svcGetDeepCopyServiceByFrontend s fe
    if hostPortNotOwned k pod svc dpSvc then
      let r := deleteHostPortLoop k pod rest s
      ⟨r.val, r.st, .GetDeepCopyServiceByFrontend fe svc :: r.evs⟩
    else
      let d := k.svcDeleteService s fe
      match d.2 with
      | some err =>
        ⟨some err, d.1, [.GetDeepCopyServiceByFrontend fe svc, .DeleteService fe (some err)]⟩
      | none =>
        let r := deleteHostPortLoop k pod rest d.1
        ⟨r.val, r.st, .GetDeepCopyServiceByFrontend fe svc :: .DeleteService fe none :: r.evs⟩

def deleteHostPortMapping {C S : Type} (k : K8sPodWatcher C S) (pod : Pod) (podIPs : List String)
    (s : S) : Ret (Option (GoError Source)) S :=
  if !k.cfg.EnableHostPort then ⟨none, s, []⟩
  else
    let svcs := genServiceMappings k pod podIPs
    if svcs.length == 0 then ⟨none, s, []⟩
    else deleteHostPortLoop k pod svcs s

/-- The service `upsertHostPortMapping` hands to `UpsertService`. -/
def hostPortUpsertArg (newPod : Pod) (dpSvc : LegacySVC) : LegacySVC :=
  { Frontend := dpSvc.Frontend
    Backends := dpSvc.Backends
    Typ := dpSvc.Typ
    ExtTrafficPolicy := dpSvc.ExtTrafficPolicy
    IntTrafficPolicy := dpSvc.IntTrafficPolicy
    HealthCheckNodePort := dpSvc.HealthCheckNodePort
    Name := hostPortServiceName newPod dpSvc.Frontend.L3n4Addr.L4Addr.Port ""
    LoopbackHostport := dpSvc.LoopbackHostport }

/-- The loop of `upsertHostPortMapping` that upserts the new services; it returns at
the first error. -/
def upsertHostPortLoop {C S : Type} (k : K8sPodWatcher C S) (newPod : Pod) :
    List LegacySVC → S → Ret (Option (GoError Source)) S
  | [], s => ⟨none, s, []⟩
  | dpSvc :: rest, s =>
    let p := hostPortUpsertArg newPod dpSvc
    let u := k.svcUpsertService s p
    match u.2 with
    | some err => ⟨some err, u.1, [.UpsertService p (some err)]⟩
    | none =>
      let r := upsertHostPortLoop k newPod rest u.1
      ⟨r.val, r.st, .UpsertService p none :: r.evs⟩

/-- The deferred function of `upsertHostPortMapping`, as a loop over the services of
the old pod: a frontend that is not among `svcsAdded` is deleted, errors are logged. -/
def deleteOldHostPorts {C S : Type} (k : K8sPodWatcher C S) (svcsAdded : List L3n4Addr) :
    List LegacySVC → S → Ret Unit S
  | [], s => ⟨(), s, []⟩
  | dpSvc :: rest, s =>
    if svcsAdded.any (fun a => dpSvc.Frontend.L3n4Addr == a) then
      deleteOldHostPorts k svcsAdded rest s
    else
      let d := k.svcDeleteService s dpSvc.Frontend.L3n4Addr
      let r := deleteOldHostPorts k svcsAdded rest d.1
      ⟨(), r.st, .DeleteService dpSvc.Frontend.L3n4Addr d.2 :: r.evs⟩

def upsertHostPortMapping {C S : Type} (k : K8sPodWatcher C S) (oldPod : Option Pod) (newPod : Pod)
    (oldPodIPs newPodIPs : List String) (s : S) : Ret (Option (GoError Source)) S :=
  if !k.cfg.EnableHostPort then ⟨none, s, []⟩
  else
    let svcs := genServiceMappings k newPod newPodIPs
    let r : Ret (Option (GoError Source)) S :=
      if svcs.length == 0 then ⟨none, s, []⟩ else upsertHostPortLoop k newPod svcs s
    match oldPod with
    | none => r
    | some old =>
      let svcsAdded := svcs.map (fun dpSvc => dpSvc.Frontend.L3n4Addr)
      let d := deleteOldHostPorts k svcsAdded (genServiceMappings k old oldPodIPs) r.st
      ⟨r.val, d.st, r.evs ++ d.evs⟩

/-! ## The ipcache entries of a pod -/

/-- The loop of `updatePodHostData` that stores the named ports of the containers,
over the ports in the order the nested loops visit them. -/
def storeNamedPorts {C S : Type} (k : K8sPodWatcher C S) :
    List ContainerPort → List (String × PortProto) →
      Except (GoError Source) (List (String × PortProto))
  | [], m => .ok m
  | port :: rest, m =>
    if port.Name == "" then storeNamedPorts k rest m
    else
      match k.ParseProtocol port.Protocol with
      | none => .error (errorsNew ("ContainerPort: invalid protocol: " ++ port.Protocol))
      | some p => storeNamedPorts k rest (mapSet m port.Name ⟨uint16 port.ContainerPort, p⟩)

/-- Whether `updatePodHostData` keeps the error of an `Upsert` out of `errs`: it is one
of the three expected overwrite errors. -/
def expectedOverwrite (err : GoError Source) : Bool :=
  errorsIsOverwrite err .KVStore .Kubernetes ||
  errorsIsOverwrite err .Local .Kubernetes ||
  errorsIsOverwrite err .CustomResource .Kubernetes

/-- What one `Upsert` adds to `errs`. -/
def upsertErrs (podIP : String) (err : Option (GoError Source)) : List String :=
  match err with
  | none => []
  | some e =>
    if !expectedOverwrite e then ["ipcache entry for podIP " ++ podIP ++ ": " ++ e.Error] else []

/-- The identity `updatePodHostData` writes. -/
def unmanagedIdentity : Identity := { ID := .ReservedIdentityUnmanaged, Source := .Kubernetes }

/-- The loop of `updatePodHostData` over the new pod IPs; its value is `errs` and
whether an `Upsert` reported changed named ports. -/
def upsertPodIPs {C S : Type} (k : K8sPodWatcher C S) (hostIP : List Nat) (k8sMeta : K8sMetadata) :
    List String → C → Ret (List String × Bool) C
  | [], c => ⟨([], false), c, []⟩
  | podIP :: rest, c =>
    let u := k.ipcUpsert c podIP hostIP k.hostKey k8sMeta unmanagedIdentity
    let r := upsertPodIPs k hostIP k8sMeta rest u.1
    ⟨(upsertErrs podIP u.2.2 ++ r.val.1, u.2.1 || r.val.2), r.st,
      .ipcacheUpsert podIP hostIP k.hostKey k8sMeta unmanagedIdentity u.2.1 u.2.2 :: r.evs⟩

/-- The loop of the deferred function of `updatePodHostData` over the old pod IPs; its
value is whether a `Delete` reported changed named ports. -/
def deleteStalePodIPs {C S : Type} (k : K8sPodWatcher C S) (newPodIPs : IPSlice) :
    List String → C → Ret Bool C
  | [], c => ⟨false, c, []⟩
  | oldPodIP :: rest, c =>
    if newPodIPs.elems.contains oldPodIP then deleteStalePodIPs k newPodIPs rest c
    else
      let d := k.ipcDelete c oldPodIP .Kubernetes
      let r := deleteStalePodIPs k newPodIPs rest d.1
      ⟨d.2 || r.val, r.st, .ipcacheDelete oldPodIP .Kubernetes d.2 :: r.evs⟩

/-- The local `specEqual` of `updatePodHostData`. -/
def specEqual (oldPod : Option Pod) (newPod : Pod) : Bool :=
  match oldPod with
  | none => false
  | some old => newPod.Spec == old.Spec

/-- The local `hostIPEqual` of `updatePodHostData`. -/
def hostIPEqual (oldPod : Option Pod) (newPod : Pod) : Bool :=
  match oldPod with
  | none => false
  | some old => newPod.Status.HostIP == old.Status.HostIP

/-- The local `ipSliceEqual` of `updatePodHostData`. -/
def ipSliceEqual (oldPodIPs newPodIPs : IPSlice) : Bool :=
  oldPodIPs.isSome && oldPodIPs.DeepEqual newPodIPs

/-- The body of `updatePodHostData` after the deferred function is set up; its value is
the error and what `namedPortsChanged` holds at the return. -/
def updatePodHostDataBody {C S : Type} (k : K8sPodWatcher C S) (oldPod : Option Pod) (newPod : Pod)
    (oldPodIPs newPodIPs : IPSlice) (w : World C S) :
    Ret (Option (GoError Source) × Bool) (World C S) :=
  if specEqual oldPod newPod && hostIPEqual oldPod newPod && ipSliceEqual oldPodIPs newPodIPs then
    ⟨(none, false), w, []⟩
  else
    match k.ParseIP newPod.Status.HostIP with
    | none => ⟨(some (errorsNew ("no/invalid HostIP: " ++ newPod.Status.HostIP)), false), w, []⟩
    | some hostIP =>
      match storeNamedPorts k (newPod.Spec.Containers.flatMap (fun c => c.Ports)) [] with
      | .error err => ⟨(some err, false), w, []⟩
      | .ok namedPorts =>
        let k8sMeta : K8sMetadata :=
          { Namespace := newPod.ObjectMeta.Namespace
            PodName := newPod.ObjectMeta.Name
            NamedPorts := namedPorts }
        let up := upsertPodIPs k hostIP k8sMeta newPodIPs.elems w.cache
        if up.val.1.length != 0 then
          ⟨(some (errorsNew (", ".intercalate up.val.1)), up.val.2), ⟨up.st, w.svcs⟩, up.evs⟩
        else
          let nodeNameEqual := newPod.Spec.NodeName == k.cfg.NodeName
          if nodeNameEqual &&
              (!specEqual oldPod newPod || !ipSliceEqual oldPodIPs newPodIPs) then
            let r := upsertHostPortMapping k oldPod newPod oldPodIPs.elems newPodIPs.elems w.svcs
            match r.val with
            | some _ =>
              ⟨(some (errorsNew ("cannot upsert hostPort for PodIPs: " ++ fmtSlice newPodIPs)),
                up.val.2), ⟨up.st, r.st⟩, up.evs ++ r.evs⟩
            | none => ⟨(none, up.val.2), ⟨up.st, r.st⟩, up.evs ++ r.evs⟩
          else ⟨(none, up.val.2), ⟨up.st, w.svcs⟩, up.evs⟩

def updatePodHostData {C S : Type} (k : K8sPodWatcher C S) (oldPod : Option Pod) (newPod : Pod)
    (oldPodIPs newPodIPs : IPSlice) (w : World C S) : Ret (Option (GoError Source)) (World C S) :=
  if newPod.Spec.HostNetwork then ⟨none, w, []⟩
  else
    let r := updatePodHostDataBody k oldPod newPod oldPodIPs newPodIPs w
    let d : Ret Bool C :=
      if !ipSliceEqual oldPodIPs newPodIPs then
        deleteStalePodIPs k newPodIPs oldPodIPs.elems r.st.cache
      else ⟨false, r.st.cache, []⟩
    let namedPortsChanged := r.val.2 || d.val
    ⟨r.val.1, ⟨d.st, r.st.svcs⟩, r.evs ++ d.evs ++
      (if namedPortsChanged then [.TriggerPolicyUpdates "Named ports added or updated"] else [])⟩

/-- The loop of `deletePodHostData` over the pod IPs; its value is `errs` and
`skipped`. -/
def deletePodIPs {C S : Type} (k : K8sPodWatcher C S) (pod : Pod) :
    List String → C → Ret (List String × Bool) C
  | [], c => ⟨([], false), c, []⟩
  | podIP :: rest, c =>
    match k.ipcLookupByIP c podIP with
    | none =>
      let r := deletePodIPs k pod rest c
      ⟨(("identity for IP " ++ podIP ++ " does not exist in case") :: r.val.1, true), r.st,
        .ipcacheLookupByIP podIP none :: r.evs⟩
    | some id =>
      if id.Source != .Kubernetes then
        let r := deletePodIPs k pod rest c
        ⟨(("ipcache entry for IP " ++ podIP ++ " not owned by kubernetes source") :: r.val.1, true),
          r.st, .ipcacheLookupByIP podIP (some id) :: r.evs⟩
      else
        let d := k.ipcDeleteOnMetadataMatch c podIP .Kubernetes pod.ObjectMeta.Namespace
          pod.ObjectMeta.Name
        let r := deletePodIPs k pod rest d.1
        ⟨r.val, r.st, .ipcacheLookupByIP podIP (some id) ::
          .ipcacheDeleteOnMetadataMatch podIP .Kubernetes pod.ObjectMeta.Namespace
            pod.ObjectMeta.Name :: r.evs⟩

/-- The value of `deletePodHostData` is the pair (skipped, error). -/
def deletePodHostData {C S : Type} (k : K8sPodWatcher C S) (pod : Pod) (w : World C S) :
    Ret (Bool × Option (GoError Source)) (World C S) :=
  if pod.Spec.HostNetwork then ⟨(true, some (errorsNew "pod is using host networking")), w, []⟩
  else
    let podIPs := k.ValidIPs pod.Status
    if podIPs.len == 0 then ⟨(true, none), w, []⟩
    else
      let h := deleteHostPortMapping k pod podIPs.elems w.svcs
      let r := deletePodIPs k pod podIPs.elems w.cache
      if r.val.1.length != 0 then
        ⟨(r.val.2, some (errorsNew (", ".intercalate r.val.1))), ⟨r.st, h.st⟩, h.evs ++ r.evs⟩
      else ⟨(r.val.2, none), ⟨r.st, h.st⟩, h.evs ++ r.evs⟩

/-! ## The handlers -/

def deleteK8sPodV1 {C S : Type} (k : K8sPodWatcher C S) (pod : Pod) (w : World C S) :
    Ret (Option (GoError Source)) (World C S) :=
  let r := deletePodHostData k pod w
  ⟨r.val.2, r.st,
    (if k.cfg.EnableLocalRedirectPolicy then [.lrpOnDeletePod pod] else []) ++
      [.cgroupOnDeletePod pod] ++ r.evs⟩

/-- The handler of a pod that is not in the map `pods`; the lag metric it sets first is
not modelled. -/
def addK8sPodV1 {C S : Type} (k : K8sPodWatcher C S) (pod : Pod) (w : World C S) :
    Ret (Option (GoError Source)) (World C S) :=
  if !IsPodRunning pod.Status then deleteK8sPodV1 k pod w
  else if pod.Spec.HostNetwork && !k.cfg.EnableLocalRedirectPolicy then ⟨none, w, []⟩
  else
    let podIPs := k.ValidIPs pod.Status
    let r : Ret (Option (GoError Source)) (World C S) :=
      if podIPs.len > 0 then
        let u := updatePodHostData k none pod none podIPs w
        ⟨u.val, u.st,
          u.evs ++ (if k.cfg.EnableLocalRedirectPolicy then [.lrpOnAddPod pod] else [])⟩
      else ⟨none, w, []⟩
    ⟨r.val, r.st, r.evs ++ [.cgroupOnAddPod pod]⟩

/-- The body of the loop of `updateK8sPodV1` over the endpoints of the pod; its value
is the error of an early return. -/
def updatePodEndpoint {C S : Type} (k : K8sPodWatcher C S) (newK8sPod : Pod)
    (oldPodLabels newPodLabels : GoMap)
    (labelsChanged uidChanged annotationsChanged annoChangedBandwidth annoChangedNoTrack : Bool)
    (podEP : Nat) : Option (GoError Source) × List Effect :=
  let r : Option (GoError Source) × List Effect :=
    if labelsChanged || uidChanged then
      let e := k.epUpdateLabelsFrom podEP oldPodLabels newPodLabels
      match e with
      | some err => (some err, [.UpdateLabelsFrom podEP oldPodLabels newPodLabels (some err)])
      | none =>
        (none, .UpdateLabelsFrom podEP oldPodLabels newPodLabels none ::
          (if !k.cfg.DisableCiliumEndpointCRD then
            [.updateCiliumEndpointLabels podEP newK8sPod.ObjectMeta.Labels] else []))
    else (none, [])
  match r.1 with
  | some err => (some err, r.2)
  | none =>
    if annotationsChanged then
      (none, r.2 ++
        (if annoChangedBandwidth then
          [.UpdateBandwidthPolicy podEP
            (newK8sPod.ObjectMeta.Annotations.get k.EgressBandwidth)
            (newK8sPod.ObjectMeta.Annotations.get k.IngressBandwidth)
            (newK8sPod.ObjectMeta.Annotations.get k.Priority)] else []) ++
        (if annoChangedNoTrack then
          [.UpdateNoTrackRules podEP (k.annotationGet newK8sPod [k.NoTrack, k.NoTrackAlias])]
          else []) ++
        [.realizePodAnnotationUpdate podEP])
    else (none, r.2)

/-- The loop of `updateK8sPodV1` over the endpoints of the pod; `err` is the error the
function returns when the loop runs to its end. -/
def updatePodEndpoints {C S : Type} (k : K8sPodWatcher C S) (newK8sPod : Pod)
    (oldPodLabels newPodLabels : GoMap)
    (labelsChanged uidChanged annotationsChanged annoChangedBandwidth annoChangedNoTrack : Bool)
    (err : Option (GoError Source)) : List Nat → Option (GoError Source) × List Effect
  | [] => (err, [])
  | podEP :: rest =>
    let r := updatePodEndpoint k newK8sPod oldPodLabels newPodLabels labelsChanged uidChanged
      annotationsChanged annoChangedBandwidth annoChangedNoTrack podEP
    match r.1 with
    | some e => (some e, r.2)
    | none =>
      let out := updatePodEndpoints k newK8sPod oldPodLabels newPodLabels labelsChanged
        uidChanged annotationsChanged annoChangedBandwidth annoChangedNoTrack err rest
      (out.1, r.2 ++ out.2)

def updateK8sPodV1 {C S : Type} (k : K8sPodWatcher C S) (oldK8sPod newK8sPod : Option Pod)
    (w : World C S) : Ret (Option (GoError Source)) (World C S) :=
  match oldK8sPod, newK8sPod with
  | none, _ => ⟨none, w, []⟩
  | _, none => ⟨none, w, []⟩
  | some oldK8sPod, some newK8sPod =>
    if !IsPodRunning newK8sPod.Status then deleteK8sPodV1 k newK8sPod w
    else if newK8sPod.Spec.HostNetwork && !k.cfg.EnableLocalRedirectPolicy &&
        !k.cfg.EnableSocketLBTracing then ⟨none, w, []⟩
    else
      let oldPodIPs := k.ValidIPs oldK8sPod.Status
      let newPodIPs := k.ValidIPs newK8sPod.Status
      let r : Ret (Option (GoError Source)) (World C S) :=
        if oldPodIPs.len != 0 || newPodIPs.len != 0 then
          updatePodHostData k (some oldK8sPod) newK8sPod oldPodIPs newPodIPs w
        else ⟨none, w, []⟩
      let err := r.val
      let oldAnno := oldK8sPod.ObjectMeta.Annotations
      let newAnno := newK8sPod.ObjectMeta.Annotations
      let annoChangedBandwidth := !k.AnnotationsEqual [k.EgressBandwidth] oldAnno newAnno ||
        !k.AnnotationsEqual [k.IngressBandwidth] oldAnno newAnno
      let annoChangedPriority := !k.AnnotationsEqual [k.Priority] oldAnno newAnno
      let annoChangedNoTrack := !k.AnnotationsEqual [k.NoTrack, k.NoTrackAlias] oldAnno newAnno
      let annotationsChanged := annoChangedBandwidth || annoChangedPriority || annoChangedNoTrack
      let oldPodLabels := k.StripPodSpecialLabels (k.filterLabels oldK8sPod.ObjectMeta.Labels)
      let strippedNewLabels := k.StripPodSpecialLabels newK8sPod.ObjectMeta.Labels
      let newPodLabels := k.filterLabels strippedNewLabels
      let labelsChanged := !mapsEqual oldPodLabels newPodLabels
      let uidChanged := oldK8sPod.ObjectMeta.UID != newK8sPod.ObjectMeta.UID
      let lrpNeedsReassign := !mapsEqual oldPodLabels newPodLabels ||
        !oldPodIPs.DeepEqual newPodIPs || uidChanged
      let oldPodReady := k.GetLatestPodReadiness oldK8sPod.Status
      let newPodReady := k.GetLatestPodReadiness newK8sPod.Status
      let evs := [Effect.cgroupOnUpdatePod oldK8sPod newK8sPod] ++ r.evs ++
        (if k.cfg.EnableLocalRedirectPolicy && (lrpNeedsReassign || oldPodReady != newPodReady)
          then [.lrpOnUpdatePod newK8sPod lrpNeedsReassign (newPodReady == "True")] else [])
      if !annotationsChanged && !labelsChanged then ⟨err, r.st, evs⟩
      else
        let podEPs := k.GetEndpointsByPodName (k.GetObjNamespaceName newK8sPod.ObjectMeta)
        if podEPs.length == 0 then ⟨err, r.st, evs⟩
        else
          let out := updatePodEndpoints k newK8sPod oldPodLabels newPodLabels labelsChanged
            uidChanged annotationsChanged annoChangedBandwidth annoChangedNoTrack err podEPs
          ⟨out.1, r.st, evs ++ out.2⟩

/-! ## The change loop of `podsInit` -/

/-- One change of the pod table: the pod and whether it was deleted. -/
structure Change where
  Object : Pod
  Deleted : Bool

/-- The state of the change loop: the map `pods` of the last pod seen under each
(namespace, name), the world, and the calls made so far. -/
structure LoopState (C S : Type) where
  pods : String × String → Option Pod
  world : World C S
  trace : List Effect

/-- The body of the loop over the changes. -/
def processChange {C S : Type} (k : K8sPodWatcher C S) (change : Change) (st : LoopState C S) :
    LoopState C S :=
  let pod := change.Object
  let name := (pod.ObjectMeta.Namespace, pod.ObjectMeta.Name)
  if !change.Deleted then
    let r := match st.pods name with
      | none => addK8sPodV1 k pod st.world
      | some oldPod => updateK8sPodV1 k (some oldPod) (some pod) st.world
    { pods := fun n => if n = name then some pod else st.pods n
      world := r.st
      trace := st.trace ++ r.evs ++ [.SetEventTimestamp] }
  else
    let r := deleteK8sPodV1 k pod st.world
    { pods := fun n => if n = name then none else st.pods n
      world := r.st
      trace := st.trace ++ r.evs ++ [.SetEventTimestamp] }

/-- The changes of one or more batches, processed in order. -/
def processChanges {C S : Type} (k : K8sPodWatcher C S) (changes : List Change)
    (st : LoopState C S) : LoopState C S :=
  changes.foldl (fun st change => processChange k change st) st

/-! ## Reference collaborators

The keyed stores of the specification, as plain association lists, and a watcher
built on them.  They give the theorems concrete instances to run on. -/

/-- Modelled from the spec: an entry of the keyed conflict-resolving store (`pkg/ipcache`
is not among the embedded files): identity with its source tag, host IP, encryption
key index and the owner metadata. -/
structure CacheEntry where
  identity : Identity
  hostIP : List Nat
  hostKey : Nat
  k8sMeta : Option K8sMetadata
deriving DecidableEq, Repr

/-- The owner (namespace, pod name) an entry records, if any. -/
def CacheEntry.owner (e : CacheEntry) : Option (String × String) :=
  e.k8sMeta.map (fun m => (m.Namespace, m.PodName))

/-- The named ports an entry records. -/
def CacheEntry.namedPorts (e : Option CacheEntry) : List (String × PortProto) :=
  match e with
  | some { k8sMeta := some m, .. } => m.NamedPorts
  | _ => []

/-- Modelled from the spec: the store maps an IP address to at most one entry. -/
abbrev Cache := List (String × CacheEntry)

/-- Modelled from the spec: the authority order of the sources, highest first:
distributed store, local configuration, custom resource, orchestrator.  The sources
the specification does not rank are put below these. -/
def Source.authority : Source → Nat
  | .KVStore => 4
  | .Local => 3
  | .CustomResource => 2
  | .Kubernetes => 1
  | _ => 0

namespace Cache

/-- Modelled from the spec: `LookupByIP` of the ipcache. -/
def LookupByIP (c : Cache) (ip : String) : Option Identity :=
  (c.lookup ip).map (fun e => e.identity)

/-- Modelled from the spec: `Upsert` of the ipcache.  A write from a source of strictly
lower authority than the holder of the entry is rejected with an overwrite error and
changes nothing; any other write replaces the entry.  The flag tells whether the
named ports of the write differ from those recorded before. -/
def Upsert (c : Cache) (ip : String) (hostIP : List Nat) (hostKey : Nat) (k8sMeta : K8sMetadata)
    (newIdentity : Identity) : Cache × Bool × Option (GoError Source) :=
  let npc : Bool := CacheEntry.namedPorts (c.lookup ip) != k8sMeta.NamedPorts
  match c.lookup ip with
  | some e =>
    if newIdentity.Source.authority < e.identity.Source.authority then
      (c, npc, some ⟨"overwrite rejected", some (e.identity.Source, newIdentity.Source)⟩)
    else (mapSet c ip ⟨newIdentity, hostIP, hostKey, some k8sMeta⟩, npc, none)
  | none => (mapSet c ip ⟨newIdentity, hostIP, hostKey, some k8sMeta⟩, npc, none)

/-- Removal of the entry of an IP address. -/
def erase (c : Cache) (ip : String) : Cache := c.filter (fun kv => kv.1 != ip)

/-- Modelled from the spec: `Delete` of the ipcache removes the entry when its source
is the expected one. -/
def Delete (c : Cache) (ip : String) (src : Source) : Cache × Bool :=
  match c.lookup ip with
  | some e =>
    if e.identity.Source == src then (c.erase ip, CacheEntry.namedPorts (some e) != []) else (c, false)
  | none => (c, false)

/-- Modelled from the spec: the owner-match delete of the ipcache
(`DeleteOnMetadataMatch`) removes the entry only if its source is the expected one
and its owner metadata has the given namespace and name; otherwise it does nothing
and returns false. -/
def DeleteOnMetadataMatch (c : Cache) (ip : String) (src : Source) (ns name : String) :
    Cache × Bool :=
  match c.lookup ip with
  | some e =>
    if e.identity.Source == src && e.owner == some (ns, name) then
      (c.erase ip, CacheEntry.namedPorts (some e) != [])
    else (c, false)
  | none => (c, false)

end Cache

/-- Modelled from the spec: the service table (`pkg/loadbalancer/legacy/service` is not
among the embedded files), a map from frontend to service record.  `rejected` lists
the frontends whose writes the datapath refuses: a write to one of them returns an
error and changes nothing. -/
structure SvcTable where
  svcs : List (L3n4Addr × LegacySVC)
  rejected : List L3n4Addr
deriving DecidableEq, Repr

namespace SvcTable

/-- Modelled from the spec: `GetDeepCopyServiceByFrontend`. -/
def GetDeepCopyServiceByFrontend (t : SvcTable) (fe : L3n4Addr) : Option LegacySVC :=
  t.svcs.lookup fe

/-- Modelled from the spec: `UpsertService` stores the record under its frontend. -/
def UpsertService (t : SvcTable) (p : LegacySVC) : SvcTable × Option (GoError Source) :=
  if t.rejected.contains p.Frontend.L3n4Addr then (t, some (errorsNew "service upsert failed"))
  else ({ t with svcs := mapSet t.svcs p.Frontend.L3n4Addr p }, none)

/-- Modelled from the spec: `DeleteService` removes the record under the frontend, if
there is one. -/
def DeleteService (t : SvcTable) (fe : L3n4Addr) : SvcTable × Option (GoError Source) :=
  if t.rejected.contains fe then (t, some (errorsNew "service delete failed"))
  else ({ t with svcs := t.svcs.filter (fun kv => kv.1 != fe) }, none)

end SvcTable

/-- The addresses the reference watcher can parse. -/
def refAddrTable : List (String × Addr) :=
  [ ("10.0.0.5", .v4 10 0 0 5), ("10.0.0.6", .v4 10 0 0 6), ("10.0.0.7", .v4 10 0 0 7),
    ("192.168.1.1", .v4 192 168 1 1), ("192.168.1.10", .v4 192 168 1 10),
    ("192.168.1.11", .v4 192 168 1 11), ("127.0.0.1", .v4 127 0 0 1),
    ("0.0.0.0", .v4 0 0 0 0), ("::", .v6 0 0 ""), ("::1", .v6 0 1 ""),
    ("fd00::5", .v6 18230571291595767808 5 "") ]

/-- The bytes of an address, as `net.ParseIP` returns them for the reference watcher. -/
def refAddrBytes : Addr → Option (List Nat)
  | .zero => none
  | .v4 a b c d => some [a, b, c, d]
  | .v6 hi lo _ => some [hi, lo]

/-- A watcher on the reference stores: its helper functions are simple stand-ins for
those of the agent, its configuration, node addresses and endpoints are given. -/
def refWatcher (cfg : Config) (nodeAddrs : List Addr) (endpoints : String → List Nat) :
    K8sPodWatcher Cache SvcTable :=
  { cfg := cfg
    nodeAddrs := nodeAddrs
    hostKey := 0
    ValidIPs := fun st =>
      if st.PodIPs.isEmpty then (if st.PodIP == "" then none else some [st.PodIP])
      else some st.PodIPs
    GetLatestPodReadiness := fun st => (st.Conditions.lookup "Ready").getD "Unknown"
    GetObjNamespaceName := fun m => m.Namespace ++ "/" ++ m.Name
    StripPodSpecialLabels := fun m => m.filter (fun kv => !"io.cilium.k8s.".isPrefixOf kv.1)
    filterLabels := fun m => m
    AnnotationsEqual := fun keys a b => keys.all (fun key => a.get key == b.get key)
    annotationGet := fun pod keys =>
      (keys.filterMap (fun key => pod.ObjectMeta.Annotations.lookup key)).headD ""
    EgressBandwidth := "kubernetes.io/egress-bandwidth"
    IngressBandwidth := "kubernetes.io/ingress-bandwidth"
    Priority := "bandwidth.cilium.io/priority"
    NoTrack := "policy.cilium.io/no-track-port"
    NoTrackAlias := "io.cilium.no-track-port"
    ParseIP := fun s => (refAddrTable.lookup s).bind refAddrBytes
    ParseAddr := fun s => (refAddrTable.lookup s).getD .zero
    MustParseAddrCluster := fun s => ⟨(refAddrTable.lookup s).getD .zero, 0⟩
    NewL4Type := fun s => if s == "TCP" || s == "UDP" || s == "SCTP" then some s else none
    ParseProtocol := fun s =>
      if s == "TCP" then some 6 else if s == "UDP" then some 17 else if s == "SCTP" then some 132
      else none
    DeepEqualBackends := fun a b => a == b
    ipcUpsert := Cache.Upsert
    ipcDelete := Cache.Delete
    ipcDeleteOnMetadataMatch := Cache.DeleteOnMetadataMatch
    ipcLookupByIP := Cache.LookupByIP
    svcUpsertService := SvcTable.UpsertService
    svcDeleteService := SvcTable.DeleteService
    svcGetDeepCopyServiceByFrontend := SvcTable.GetDeepCopyServiceByFrontend
    GetEndpointsByPodName := endpoints
    epUpdateLabelsFrom := fun _ _ _ => none }

/-- A configuration with IPv4, IPv6 and host ports enabled, the node-port range
30000-32767 and the local node `node1`. -/
def refConfig : Config :=
  { EnableLocalRedirectPolicy := false
    EnableSocketLBTracing := false
    EnableHostPort := true
    EnableIPv4 := true
    EnableIPv6 := true
    DisableCiliumEndpointCRD := false
    NodePortMin := 30000
    NodePortMax := 32767
    NodeName := "node1" }

/-- A running pod on `node1` with the given namespace, name, UID, pod IPs and container
ports. -/
def refPod (ns name uid : String) (podIPs : List String) (ports : List ContainerPort) : Pod :=
  { ObjectMeta := { Name := name, Namespace := ns, UID := uid, Labels := [], Annotations := [] }
    Spec :=
      { InitContainers := []
        Containers := [{ Name := "app", Image := "app:1", Ports := ports }]
        ServiceAccountName := "default"
        NodeName := "node1"
        HostNetwork := false }
    Status :=
      { Phase := "Running"
        HostIP := "192.168.1.1"
        PodIP := podIPs.headD ""
        PodIPs := podIPs
        Conditions := [("Ready", "True")] } }

/-- An ipcache entry written by the orchestrator for a pod of the given owner. -/
def refEntry (src : Source) (ns name : String) : CacheEntry :=
  { identity := { ID := .ReservedIdentityUnmanaged, Source := src }
    hostIP := [192, 168, 1, 1]
    hostKey := 0
    k8sMeta := some { Namespace := ns, PodName := name, NamedPorts := [] } }

/-- The reference watcher with the reference configuration, no node address, and the
endpoint 7 for every pod. -/
def refK : K8sPodWatcher Cache SvcTable := refWatcher refConfig [] (fun _ => [7])

/-- Pod `ns/podA` with the pod IP 10.0.0.5 and no container port. -/
def refPodA : Pod := refPod "ns" "podA" "uid-a" ["10.0.0.5"] []

/-- A world whose ipcache holds 10.0.0.5 for the owner `ns/podB`, written by the
orchestrator, and whose service table is empty. -/
def refWorldB : World Cache SvcTable :=
  { cache := [("10.0.0.5", refEntry .Kubernetes "ns" "podB")], svcs := ⟨[], []⟩ }

/-- Pod `ns/podA` after its UID was rotated: same labels, annotations, spec and
status. -/
def refPodA2 : Pod := refPod "ns" "podA" "uid-a2" ["10.0.0.5"] []

/-- Pod `ns/podA` in the terminal phase `Succeeded`. -/
def refPodADone : Pod := { refPodA with Status := { refPodA.Status with Phase := "Succeeded" } }

/-- Pod `ns/podA` with the label `app=web` added and the UID kept. -/
def refPodALabelled : Pod :=
  { refPodA with ObjectMeta := { refPodA.ObjectMeta with Labels := [("app", "web")] } }

/-- Pod `ns/podA` with the pod IPs 10.0.0.5 and 10.0.0.6 and the named port
`http` 80/TCP. -/
def refPodNamed : Pod :=
  refPod "ns" "podA" "uid-a" ["10.0.0.5", "10.0.0.6"]
    [{ Name := "http", HostPort := 0, ContainerPort := 80, Protocol := "TCP", HostIP := "" }]

/-- Pod `ns/podA` with the pod IP 10.0.0.5 and the host port 8080/TCP for the container
port 80. -/
def refPodHostPort : Pod :=
  refPod "ns" "podA" "uid-a" ["10.0.0.5"]
    [{ Name := "", HostPort := 8080, ContainerPort := 80, Protocol := "TCP", HostIP := "" }]

/-- The frontend `addr:8080/TCP`. -/
def refFrontend (addr : Addr) : L3n4Addr :=
  { AddrCluster := ⟨addr, 0⟩, L4Addr := { Protocol := "TCP", Port := 8080 }, Scope := ScopeExternal }

/-- A world with an empty ipcache and an empty service table whose datapath refuses
writes to the frontend 0.0.0.0:8080/TCP. -/
def refWorldRejecting : World Cache SvcTable :=
  { cache := [], svcs := ⟨[], [refFrontend (.v4 0 0 0 0)]⟩ }

/-- A world whose ipcache holds 10.0.0.5 for the source Local. -/
def refWorldHeld : World Cache SvcTable :=
  { cache := [("10.0.0.5", refEntry .Local "ns" "podA")], svcs := ⟨[], []⟩ }

/-- The reference watcher with an ipcache whose `Upsert` fails for the address 10.0.0.6
with an error that is no overwrite error. -/
def refKFailing : K8sPodWatcher Cache SvcTable :=
  { refK with
    ipcUpsert := fun c ip hostIP hostKey k8sMeta newIdentity =>
      if ip == "10.0.0.6" then (c, false, some ⟨"datapath error", none⟩)
      else Cache.Upsert c ip hostIP hostKey k8sMeta newIdentity }

/-- The reference watcher on a node with the node-port address 192.168.1.10. -/
def refKNode : K8sPodWatcher Cache SvcTable :=
  refWatcher refConfig [.v4 192 168 1 10] (fun _ => [])

/-- The service `genServiceMappings` computes for `refPodHostPort` at the frontend
`addr:8080/TCP`: one backend 10.0.0.5:80/TCP. -/
def refHostPortSvc (addr : Addr) : LegacySVC :=
  { Frontend := ⟨refFrontend addr, 0⟩
    Backends := [⟨⟨⟨.v4 10 0 0 5, 0⟩, ⟨"TCP", 80⟩, 0⟩⟩]
    Typ := .SVCTypeHostPort
    ExtTrafficPolicy := .SVCTrafficPolicyCluster
    IntTrafficPolicy := .SVCTrafficPolicyCluster
    HealthCheckNodePort := 0
    Name := ⟨"", "", ""⟩
    LoopbackHostport := false }

/-- A service table that holds, at 192.168.1.10:8080/TCP, a host-port service of another
pod (`ns/podB`), and nothing at 0.0.0.0:8080/TCP. -/
def refTableOther : SvcTable :=
  { svcs := [(refFrontend (.v4 192 168 1 10),
      { refHostPortSvc (.v4 192 168 1 10) with
        Name := ⟨"podB/pod-id/uid-b/host-port/8080", "ns", ""⟩ })]
    rejected := [] }

/-- The service `upsertHostPortMapping` stores for `refPodHostPort` at the frontend
`addr:8080/TCP`. -/
def refOwnedSvc (addr : Addr) : LegacySVC := hostPortUpsertArg refPodHostPort (refHostPortSvc addr)

/-- A service table that holds the services of `refPodHostPort` at 192.168.1.10:8080/TCP
and at 0.0.0.0:8080/TCP, and whose datapath refuses writes to the first frontend. -/
def refTableOwned : SvcTable :=
  { svcs := [(refFrontend (.v4 192 168 1 10), refOwnedSvc (.v4 192 168 1 10)),
      (refFrontend (.v4 0 0 0 0), refOwnedSvc (.v4 0 0 0 0))]
    rejected := [refFrontend (.v4 192 168 1 10)] }

/-- Pod `ns/podA` with the pod IP 10.0.0.5 and the host port 9090/TCP for the container
port 80. -/
def refPodHostPort2 : Pod :=
  refPod "ns" "podA" "uid-a" ["10.0.0.5"]
    [{ Name := "", HostPort := 9090, ContainerPort := 80, Protocol := "TCP", HostIP := "" }]

/-- Pod `ns/podA` with a status host IP that does not parse. -/
def refPodBadHost : Pod := { refPodA with Status := { refPodA.Status with HostIP := "bogus" } }

/-- A service table that holds, at 0.0.0.0:8080/TCP, the host-port service of another
pod, `ns/podB` with the backend 10.0.0.6:80/TCP. -/
def refTablePodB : SvcTable :=
  { svcs := [(refFrontend (.v4 0 0 0 0),
      { refHostPortSvc (.v4 0 0 0 0) with
        Backends := [⟨⟨⟨.v4 10 0 0 6, 0⟩, ⟨"TCP", 80⟩, 0⟩⟩]
        Name := ⟨"podB/pod-id/uid-b/host-port/8080", "ns", ""⟩ })]
    rejected := [] }

/-- The reference watcher of the specification's example: IPv4 only, on a node with the
node-port addresses 192.168.1.10 and 192.168.1.11. -/
def refKTwoAddrs : K8sPodWatcher Cache SvcTable :=
  refWatcher { refConfig with EnableIPv6 := false } [.v4 192 168 1 10, .v4 192 168 1 11]
    (fun _ => [])

/-- The container port 80/TCP with the host port 8080 and no host IP. -/
def refPort8080 : ContainerPort :=
  { Name := "", HostPort := 8080, ContainerPort := 80, Protocol := "TCP", HostIP := "" }

/-- The container port 80/TCP with the host port 8080 on the loopback address
127.0.0.1. -/
def refPortLoopback : ContainerPort :=
  { Name := "", HostPort := 8080, ContainerPort := 80, Protocol := "TCP", HostIP := "127.0.0.1" }

/-- Pod `ns/podA` with host port 8080 after it was deleted and created again: a new UID,
the same name, pod IP and ports. -/
def refPodHostPortNew : Pod :=
  refPod "ns" "podA" "uid-a2" ["10.0.0.5"]
    [{ Name := "", HostPort := 8080, ContainerPort := 80, Protocol := "TCP", HostIP := "" }]

/-- A service table that holds, at 0.0.0.0:8080/TCP, the service `upsertHostPortMapping`
stores for `refPodHostPortNew`. -/
def refTableNew : SvcTable :=
  { svcs := [(refFrontend (.v4 0 0 0 0),
      hostPortUpsertArg refPodHostPortNew (refHostPortSvc (.v4 0 0 0 0)))]
    rejected := [] }

/-! ## Predicates on traces -/

/-- Every `DeleteOnMetadataMatch` call in the trace directly follows a `LookupByIP` of
the same address that found an entry whose source is Kubernetes. -/
def LookupGuarded (evs : List Effect) : Prop :=
  ∀ pre post ip src ns name,
    evs = pre ++ Effect.ipcacheDeleteOnMetadataMatch ip src ns name :: post →
    ∃ pre0 id, pre = pre0 ++ [Effect.ipcacheLookupByIP ip (some id)] ∧ id.Source = .Kubernetes

/-- The arguments of an ipcache `Upsert` call: address, host IP, key index, metadata
and identity. -/
def Effect.upsertCall : Effect → Option (String × List Nat × Nat × K8sMetadata × Identity)
  | .ipcacheUpsert ip hostIP hostKey k8sMeta newIdentity _ _ =>
    some (ip, hostIP, hostKey, k8sMeta, newIdentity)
  | _ => none

/-- The frontend of a `DeleteService` call. -/
def Effect.deletedFrontend : Effect → Option L3n4Addr
  | .DeleteService fe _ => some fe
  | _ => none

/-- The expected overwrite errors in the words of the specification: an overwrite
error whose attempted source is Kubernetes and whose existing source is KVStore, Local
or CustomResource. -/
def IsExpectedOverwritePair (err : GoError Source) : Prop :=
  ∃ existing, (existing = Source.KVStore ∨ existing = Source.Local ∨
    existing = Source.CustomResource) ∧ err.asOverwrite = some (existing, Source.Kubernetes)

/-- The messages for the `Upsert` calls of a trace that returned an error other than an
expected overwrite error, in the order of the calls. -/
def surfacedUpsertErrors (evs : List Effect) : List String :=
  evs.flatMap (fun ev =>
    match ev with
    | .ipcacheUpsert ip _ _ _ _ _ (some err) =>
      match err.asOverwrite with
      | some (.KVStore, .Kubernetes) => []
      | some (.Local, .Kubernetes) => []
      | some (.CustomResource, .Kubernetes) => []
      | _ => ["ipcache entry for podIP " ++ ip ++ ": " ++ err.Error]
    | _ => [])

/-- The contract of the ipcache the specification gives for lookups and the
owner-match delete, for a store whose entries are observed through `entry`:
`LookupByIP` returns the identity of the entry; the owner-match delete removes the
entry of its address when the source and the owner of the entry both match, leaving
the other entries as they are; otherwise it does nothing. -/
def OwnerMatchDeleteContract {C S : Type} (k : K8sPodWatcher C S)
    (entry : C → String → Option CacheEntry) : Prop :=
  (∀ c ip, k.ipcLookupByIP c ip = (entry c ip).map (fun e => e.identity)) ∧
  (∀ c ip src ns name e, entry c ip = some e → e.identity.Source = src →
    e.owner = some (ns, name) →
    entry (k.ipcDeleteOnMetadataMatch c ip src ns name).1 ip = none ∧
    ∀ y, y ≠ ip → entry (k.ipcDeleteOnMetadataMatch c ip src ns name).1 y = entry c y) ∧
  (∀ c ip src ns name,
    (¬ ∃ e, entry c ip = some e ∧ e.identity.Source = src ∧ e.owner = some (ns, name)) →
    (k.ipcDeleteOnMetadataMatch c ip src ns name).1 = c)

/-- The contract of `DeleteService`: a call that fails changes nothing; a call that
succeeds leaves no service at the frontend and the services of the other frontends as
they are, and changes nothing when there was no service at the frontend. -/
def DeleteServiceContract {C S : Type} (k : K8sPodWatcher C S) : Prop :=
  ∀ s fe,
    ((k.svcDeleteService s fe).2 ≠ none → (k.svcDeleteService s fe).1 = s) ∧
    ((k.svcDeleteService s fe).2 = none →
      k.svcGetDeepCopyServiceByFrontend (k.svcDeleteService s fe).1 fe = none ∧
      ∀ fe1, fe1 ≠ fe → k.svcGetDeepCopyServiceByFrontend (k.svcDeleteService s fe).1 fe1 =
        k.svcGetDeepCopyServiceByFrontend s fe1) ∧
    ((k.svcDeleteService s fe).2 = none → k.svcGetDeepCopyServiceByFrontend s fe = none →
      (k.svcDeleteService s fe).1 = s)

/-- A call to the ipcache: a lookup or a write. -/
def Effect.isIpcacheCall : Effect → Bool
  | .ipcacheLookupByIP .. => true
  | .ipcacheUpsert .. => true
  | .ipcacheDelete .. => true
  | .ipcacheDeleteOnMetadataMatch .. => true
  | _ => false

/-- The key of a change in the map `pods`: namespace and name of its pod. -/
def Change.key (change : Change) : String × String :=
  (change.Object.ObjectMeta.Namespace, change.Object.ObjectMeta.Name)

/-- The most recent change of a sequence for a key, if there is one. -/
def lastChange (changes : List Change) (key : String × String) : Option Change :=
  changes.reverse.find? (fun change => decide (change.key = key))

/-- The severity of a log line. -/
inductive LogLevel
  | Debug
  | Warn
deriving DecidableEq, Repr

/-- The severity of the line that `deleteK8sPodV1` logs for the result of
`deletePodHostData`: the `switch` on `skipped` and `err`. -/
def deleteK8sPodV1LogLevel (skipped : Bool) (err : Option (GoError Source)) : LogLevel :=
  if skipped then .Debug
  else if err.isSome then .Warn
  else .Debug

/-- A world whose ipcache holds 10.0.0.5 for the source Kubernetes and the pod
`ns/podB`. -/
def refWorldOtherOwner : World Cache SvcTable :=
  { cache := [("10.0.0.5", refEntry .Kubernetes "ns" "podB")], svcs := ⟨[], []⟩ }

/-- The state of the change loop before the first change: no snapshot, no call yet. -/
def initLoopState {C S : Type} (w : World C S) : LoopState C S :=
  { pods := fun _ => none, world := w, trace := [] }

/-- Pod `ns/podA` after its pod IP changed from 10.0.0.5 to 10.0.0.6. -/
def refPodAMoved : Pod := refPod "ns" "podA" "uid-a" ["10.0.0.6"] []

/-- A deletion from the ipcache, by `Delete` or by `DeleteOnMetadataMatch`: the IP
address and the source of the call. -/
def Effect.cacheDeletion : Effect → Option (String × Source)
  | .ipcacheDelete ip src _ => some (ip, src)
  | .ipcacheDeleteOnMetadataMatch ip src _ _ => some (ip, src)
  | _ => none

/-- Whether `updatePodHostData` gets through its loop over the new pod IPs with no error
to return: the pod does not use host networking, the function does not return for an
unchanged pod, for a host IP that does not parse or for a named port with an invalid
protocol, and no `Upsert` returned an error that is not suppressed. -/
def cacheUpsertsCompleted {C S : Type} (k : K8sPodWatcher C S) (oldPod : Option Pod) (newPod : Pod)
    (oldPodIPs newPodIPs : IPSlice) (w : World C S) : Bool :=
  if newPod.Spec.HostNetwork then false
  else if specEqual oldPod newPod && hostIPEqual oldPod newPod && ipSliceEqual oldPodIPs newPodIPs
  then false
  else
    match k.ParseIP newPod.Status.HostIP with
    | none => false
    | some hostIP =>
      match storeNamedPorts k (newPod.Spec.Containers.flatMap (fun c => c.Ports)) [] with
      | .error _ => false
      | .ok namedPorts =>
        (upsertPodIPs k hostIP
          ⟨newPod.ObjectMeta.Namespace, newPod.ObjectMeta.Name, namedPorts⟩
          newPodIPs.elems w.cache).val.1.length == 0

/-- The condition of `updatePodHostData` for the host-port services: the pod is on the
local node, and its spec or its IP list differs from that of the old pod. -/
def hostPortMappingDue {C S : Type} (k : K8sPodWatcher C S) (oldPod : Option Pod) (newPod : Pod)
    (oldPodIPs newPodIPs : IPSlice) : Bool :=
  (newPod.Spec.NodeName == k.cfg.NodeName) &&
    (!specEqual oldPod newPod || !ipSliceEqual oldPodIPs newPodIPs)

/-- Pod `ns/podA` with host port 8080 after its host IP changed. -/
def refPodHostPortRehosted : Pod :=
  { refPodHostPort with Status := { refPodHostPort.Status with HostIP := "192.168.1.10" } }

/-! ## The valid IPs of a pod status -/

/-- The order of `sort.Strings` on the character codes of two strings. -/
def lexLe : List Nat → List Nat → Bool
  | [], _ => true
  | _ :: _, [] => false
  | a :: as, b :: bs => decide (a < b) || (a == b && lexLe as bs)

/-- The character codes of a string. -/
def stringKey (s : String) : List Nat := s.data.map Char.toNat

/-- The order of `sort.Strings`. -/
def stringLe (a b : String) : Prop := lexLe (stringKey a) (stringKey b) = true

instance stringLeDecidable : DecidableRel stringLe :=
  fun a b => decEq (lexLe (stringKey a) (stringKey b)) true

/-- The addresses a pod status lists: its pod IP and its pod IPs, the empty ones left
out. -/
def podIPAddrs (status : PodStatus) : List String :=
  (status.PodIP :: status.PodIPs).filter (fun ip => ip != "")

/-- Modelled from the spec: `k8sUtils.ValidIPs` (package `pkg/k8s/utils`, not among the
embedded files).  The pod IP addresses of a snapshot are a set, order-insignificant: the
addresses the status lists, each once, in sorted order; nil when there is none. -/
def ValidIPs (status : PodStatus) : IPSlice :=
  let ips := ((podIPAddrs status).dedup).insertionSort stringLe
  if ips.isEmpty then none else some ips

/-- The reference watcher with the modelled `ValidIPs`. -/
def refKValid : K8sPodWatcher Cache SvcTable := { refK with ValidIPs := ValidIPs }

/-- Pod `ns/podA` with the pod IPs 10.0.0.5 and 10.0.0.6, in this order. -/
def refPodTwo : Pod := refPod "ns" "podA" "uid-a" ["10.0.0.5", "10.0.0.6"] []

/-- Pod `ns/podA` with the pod IPs 10.0.0.6 and 10.0.0.5, in this order. -/
def refPodTwoSwapped : Pod := refPod "ns" "podA" "uid-a" ["10.0.0.6", "10.0.0.5"] []

/-! ## The locals of `updateK8sPodV1` -/

/-- The local `annoChangedBandwidth` of `updateK8sPodV1`. -/
def annoChangedBandwidth {C S : Type} (k : K8sPodWatcher C S) (oldK8sPod newK8sPod : Pod) : Bool :=
  !k.AnnotationsEqual [k.EgressBandwidth] oldK8sPod.ObjectMeta.Annotations
      newK8sPod.ObjectMeta.Annotations ||
    !k.AnnotationsEqual [k.IngressBandwidth] oldK8sPod.ObjectMeta.Annotations
      newK8sPod.ObjectMeta.Annotations

/-- The local `annoChangedPriority` of `updateK8sPodV1`. -/
def annoChangedPriority {C S : Type} (k : K8sPodWatcher C S) (oldK8sPod newK8sPod : Pod) : Bool :=
  !k.AnnotationsEqual [k.Priority] oldK8sPod.ObjectMeta.Annotations
    newK8sPod.ObjectMeta.Annotations

/-- The local `annoChangedNoTrack` of `updateK8sPodV1`. -/
def annoChangedNoTrack {C S : Type} (k : K8sPodWatcher C S) (oldK8sPod newK8sPod : Pod) : Bool :=
  !k.AnnotationsEqual [k.NoTrack, k.NoTrackAlias] oldK8sPod.ObjectMeta.Annotations
    newK8sPod.ObjectMeta.Annotations

/-- The local `annotationsChanged` of `updateK8sPodV1`. -/
def annotationsChanged {C S : Type} (k : K8sPodWatcher C S) (oldK8sPod newK8sPod : Pod) : Bool :=
  annoChangedBandwidth k oldK8sPod newK8sPod || annoChangedPriority k oldK8sPod newK8sPod ||
    annoChangedNoTrack k oldK8sPod newK8sPod

/-- The local `oldPodLabels` of `updateK8sPodV1`. -/
def oldPodLabels {C S : Type} (k : K8sPodWatcher C S) (oldK8sPod : Pod) : GoMap :=
  k.StripPodSpecialLabels (k.filterLabels oldK8sPod.ObjectMeta.Labels)

/-- The local `newPodLabels` of `updateK8sPodV1`. -/
def newPodLabels {C S : Type} (k : K8sPodWatcher C S) (newK8sPod : Pod) : GoMap :=
  k.filterLabels (k.StripPodSpecialLabels newK8sPod.ObjectMeta.Labels)

/-- The local `labelsChanged` of `updateK8sPodV1`. -/
def labelsChanged {C S : Type} (k : K8sPodWatcher C S) (oldK8sPod newK8sPod : Pod) : Bool :=
  !mapsEqual (oldPodLabels k oldK8sPod) (newPodLabels k newK8sPod)

/-- The local `uidChanged` of `updateK8sPodV1`. -/
def uidChanged (oldK8sPod newK8sPod : Pod) : Bool :=
  oldK8sPod.ObjectMeta.UID != newK8sPod.ObjectMeta.UID

/-- The endpoints for which the loop of `updateK8sPodV1` gets to the annotation updates:
those before the first endpoint whose `UpdateLabelsFrom`, called when the labels or the
UID changed, returns an error. -/
def endpointsUpdated {C S : Type} (k : K8sPodWatcher C S) (oldK8sPod newK8sPod : Pod)
    (podEPs : List Nat) : List Nat :=
  podEPs.takeWhile (fun podEP =>
    !((labelsChanged k oldK8sPod newK8sPod || uidChanged oldK8sPod newK8sPod) &&
      (k.epUpdateLabelsFrom podEP (oldPodLabels k oldK8sPod) (newPodLabels k newK8sPod)).isSome))

/-- The endpoint of an `UpdateBandwidthPolicy` call. -/
def Effect.bandwidthEndpoint : Effect → Option Nat
  | .UpdateBandwidthPolicy ep _ _ _ => some ep
  | _ => none

/-- The endpoint of an `UpdateNoTrackRules` call. -/
def Effect.noTrackEndpoint : Effect → Option Nat
  | .UpdateNoTrackRules ep _ => some ep
  | _ => none

/-- A call on an endpoint of the pod. -/
def Effect.isEndpointCall : Effect → Bool
  | .UpdateLabelsFrom .. => true
  | .updateCiliumEndpointLabels .. => true
  | .UpdateBandwidthPolicy .. => true
  | .UpdateNoTrackRules .. => true
  | .realizePodAnnotationUpdate .. => true
  | _ => false

/-- The reference watcher with endpoints whose `UpdateLabelsFrom` fails. -/
def refKLabelFail : K8sPodWatcher Cache SvcTable :=
  { refK with epUpdateLabelsFrom := fun _ _ _ => some (errorsNew "endpoint is being deleted") }

/-- Pod `ns/podA` with the egress bandwidth annotation set. -/
def refPodABandwidth : Pod :=
  { refPodA with ObjectMeta := { refPodA.ObjectMeta with
      Annotations := [("kubernetes.io/egress-bandwidth", "10M")] } }

/-- Pod `ns/podA` with the label `app=web` and the egress bandwidth annotation set. -/
def refPodALabelledBandwidth : Pod :=
  { refPodA with ObjectMeta := { refPodA.ObjectMeta with
      Labels := [("app", "web")]
      Annotations := [("kubernetes.io/egress-bandwidth", "10M")] } }

/-- Pod `ns/podA` with the priority annotation set. -/
def refPodAPriority : Pod :=
  { refPodA with ObjectMeta := { refPodA.ObjectMeta with
      Annotations := [("bandwidth.cilium.io/priority", "5")] } }

/-! # Package `pkg/ipam/metadata`: the IP pool of a pod -/

namespace Metadata

/-- The constants and helpers of packages that are not among the embedded files:
`ipam.IPv4`, `ipam.IPv6`, `ipam.PoolDefault().String()`, the annotation keys of package
`annotation`, and `validation.IsDNS1123Subdomain`, whose result is nil (`none`) for a
valid name. -/
structure Env where
  IPv4 : String
  IPv6 : String
  PoolDefault : String
  IPAMPoolKey : String
  IPAMIPv4PoolKey : String
  IPAMIPv6PoolKey : String
  IsDNS1123Subdomain : String → Option (List String)

/-- The struct `manager`: the tables of the local pods and of the namespaces, as the
annotations `Get` finds for a pod by namespace and name and for a namespace by name. -/
structure manager where
  env : Env
  pods : String → String → Option GoMap
  namespaces : String → Option GoMap

/-- The errors `GetIPPoolForPod` returns: that of `fmt.Errorf` for the family, and the
struct `ResourceNotFound`. -/
inductive PoolError
  | invalidFamily (text : String)
  | ResourceNotFound (Resource Name Namespace : String)
deriving DecidableEq, Repr

/-- A read of a table by `GetIPPoolForPod`. -/
inductive TableRead
  | podsGet (ns name : String)
  | namespacesGet (ns : String)
deriving DecidableEq, Repr

/-- The call `strings.Cut(s, "/")`: the text before and after the first `/`, and whether
there is one; without one, the whole string and the empty string. -/
def cutSlash (s : String) : String × String × Bool :=
  match s.data.span (fun c => c != '/') with
  | (_, []) => (s, "", false)
  | (before, _ :: after) => (⟨before⟩, ⟨after⟩, true)

def splitK8sPodName (env : Env) (owner : String) : String × String × Bool :=
  let cut := cutSlash owner
  if !cut.2.2 then ("", "", false)
  else if (env.IsDNS1123Subdomain cut.1).isSome || (env.IsDNS1123Subdomain cut.2.1).isSome then
    ("", "", false)
  else (cut.1, cut.2.1, true)

def determinePoolByAnnotations (env : Env) (annotations : GoMap) (family : String) :
    String × Bool :=
  if family == env.IPv4 then
    if annotations.get env.IPAMIPv4PoolKey != "" then (annotations.get env.IPAMIPv4PoolKey, true)
    else if annotations.get env.IPAMPoolKey != "" then (annotations.get env.IPAMPoolKey, true)
    else ("", false)
  else if family == env.IPv6 then
    if annotations.get env.IPAMIPv6PoolKey != "" then (annotations.get env.IPAMIPv6PoolKey, true)
    else if annotations.get env.IPAMPoolKey != "" then (annotations.get env.IPAMPoolKey, true)
    else ("", false)
  else ("", false)

/-- The method `GetIPPoolForPod`; its value is the pool, the error, and the reads of the
tables it made. -/
def GetIPPoolForPod (m : manager) (owner : String) (family : String) :
    String × Option PoolError × List TableRead :=
  if family != m.env.IPv6 && family != m.env.IPv4 then
    ("", some (.invalidFamily ("invalid IP family: " ++ family)), [])
  else
    let split := splitK8sPodName m.env owner
    if !split.2.2 then (m.env.PoolDefault, none, [])
    else
      let ns := split.1
      let name := split.2.1
      match m.pods ns name with
      | none => ("", some (.ResourceNotFound "Pod" name ns), [.podsGet ns name])
      | some podAnnotations =>
        let p := determinePoolByAnnotations m.env podAnnotations family
        if p.2 then (p.1, none, [.podsGet ns name])
        else
          match m.namespaces ns with
          | none =>
            ("", some (.ResourceNotFound "Namespace" ns ""), [.podsGet ns name, .namespacesGet ns])
          | some nsAnnotations =>
            let q := determinePoolByAnnotations m.env nsAnnotations family
            if q.2 then (q.1, none, [.podsGet ns name, .namespacesGet ns])
            else (m.env.PoolDefault, none, [.podsGet ns name, .namespacesGet ns])

/-- The annotation key of a family: that of IPv4 for IPv4, that of IPv6 otherwise. -/
def familyPoolKey (env : Env) (family : String) : String :=
  if family == env.IPv4 then env.IPAMIPv4PoolKey else env.IPAMIPv6PoolKey

/-- The pool the annotations of an object name for a family, by precedence: the
annotation of the family if it is not empty, else the generic one if it is not empty. -/
def annotatedPool (env : Env) (annotations : GoMap) (family : String) : Option String :=
  if annotations.get (familyPoolKey env family) ≠ "" then
    some (annotations.get (familyPoolKey env family))
  else if annotations.get env.IPAMPoolKey ≠ "" then some (annotations.get env.IPAMPoolKey)
  else none

/-- The constants of the agent, and a check of names that accepts the non-empty strings
of lower-case letters, digits, `-` and `.`. -/
def refEnv : Env :=
  { IPv4 := "ipv4"
    IPv6 := "ipv6"
    PoolDefault := "default"
    IPAMPoolKey := "ipam.cilium.io/ip-pool"
    IPAMIPv4PoolKey := "ipam.cilium.io/ipv4-pool"
    IPAMIPv6PoolKey := "ipam.cilium.io/ipv6-pool"
    IsDNS1123Subdomain := fun s =>
      if !s.data.isEmpty &&
          s.data.all (fun c => c.isLower || c.isDigit || c == '-' || c == '.') then none
      else some ["a lowercase RFC 1123 subdomain must consist of lower case alphanumeric characters"] }

/-- A manager that knows the pod `ns/podA`, with the generic pool annotation `blue`, the
pod `ns/podB` without annotations, and the namespace `ns` with the IPv4 pool annotation
`green`. -/
def refManager : manager :=
  { env := refEnv
    pods := fun ns name =>
      if ns == "ns" && name == "poda" then some [("ipam.cilium.io/ip-pool", "blue")]
      else if ns == "ns" && name == "podb" then some []
      else none
    namespaces := fun ns =>
      if ns == "ns" then some [("ipam.cilium.io/ipv4-pool", "green")] else none }

end Metadata

/-! # Package `pkg/datapath/tunnel`: the tunnel configuration -/

namespace Tunnel

/-- The type `EncapProtocol`, a string. -/
abbrev EncapProtocol := String

/-- The type `UnderlayProtocol`, a string. -/
abbrev UnderlayProtocol := String

def VXLAN : EncapProtocol := "vxlan"

def Geneve : EncapProtocol := "geneve"

def Disabled : EncapProtocol := ""

def IPv4 : UnderlayProtocol := "ipv4"

def IPv6 : UnderlayProtocol := "ipv6"

/-- The struct `Config`; the ports are `uint16`. -/
structure Config where
  underlay : UnderlayProtocol
  protocol : EncapProtocol
  port : Nat
  srcPortLow : Nat
  srcPortHigh : Nat
  deviceName : String
  shouldAdaptMTU : Bool
deriving DecidableEq, Repr

/-- The struct `enabler`; a validator returns nil (`none`) or an error. -/
structure enabler where
  enable : Bool
  needsMTUAdaptation : Bool
  validators : List (EncapProtocol → Option String)

/-- The struct `userCfg`. -/
structure userCfg where
  TunnelProtocol : String
  TunnelSourcePortRange : String
  TunnelPort : Nat
  UnderlayProtocol : String

/-- The struct `newConfigIn`. -/
structure newConfigIn where
  Cfg : userCfg
  Enablers : List enabler

/-- The constants of package `defaults`, which is not among the embedded files, and the
call `fmt.Sscanf(s, "%d-%d", &low, &high)` into two `uint16`: the two numbers, or `none`
for an error. -/
structure Defaults where
  VxlanDevice : String
  GeneveDevice : String
  TunnelPortVXLAN : Nat
  TunnelPortGeneve : Nat
  Sscanf : String → Option (Nat × Nat)

def configDisabled : Config :=
  { underlay := IPv4
    protocol := Disabled
    port := 0
    srcPortLow := 0
    srcPortHigh := 0
    deviceName := ""
    shouldAdaptMTU := false }

/-- The loop of `newConfig` over the validators of one enabler: the first error, and
the protocols the validators were called with. -/
def runValidators (protocol : EncapProtocol) :
    List (EncapProtocol → Option String) → Option String × List EncapProtocol
  | [] => (none, [])
  | validator :: rest =>
    match validator protocol with
    | some err => (some err, [protocol])
    | none =>
      let r := runValidators protocol rest
      (r.1, protocol :: r.2)

/-- The loop of `newConfig` over the enablers: the error of a validator or the values of
`enabled` and `cfg.shouldAdaptMTU`, and the calls of the validators. -/
def runEnablers (protocol : EncapProtocol) :
    List enabler → Bool → Bool → Except String (Bool × Bool) × List EncapProtocol
  | [], enabled, shouldAdaptMTU => (.ok (enabled, shouldAdaptMTU), [])
  | e :: rest, enabled, shouldAdaptMTU =>
    if e.enable then
      let v := runValidators protocol e.validators
      match v.1 with
      | some err => (.error err, v.2)
      | none =>
        let r := runEnablers protocol rest true (shouldAdaptMTU || e.needsMTUAdaptation)
        (r.1, v.2 ++ r.2)
    else runEnablers protocol rest enabled shouldAdaptMTU

/-- The function `newConfig`; its value is the configuration, the error, and the calls
of the validators. -/
def newConfig (d : Defaults) (input : newConfigIn) : Config × Option String × List EncapProtocol :=
  if !(input.Cfg.TunnelProtocol == VXLAN || input.Cfg.TunnelProtocol == Geneve) then
    (configDisabled, some ("invalid tunnel protocol \"" ++ input.Cfg.TunnelProtocol ++ "\""), [])
  else if !(input.Cfg.UnderlayProtocol == IPv4 || input.Cfg.UnderlayProtocol == IPv6) then
    (configDisabled,
      some ("invalid IP family for underlay \"" ++ input.Cfg.UnderlayProtocol ++ "\""), [])
  else
    match d.Sscanf input.Cfg.TunnelSourcePortRange with
    | none =>
      (configDisabled,
        some ("invalid tunnel source port range \"" ++ input.Cfg.TunnelSourcePortRange ++ "\""), [])
    | some (low, high) =>
      let cfg : Config :=
        { underlay := input.Cfg.UnderlayProtocol
          protocol := input.Cfg.TunnelProtocol
          port := input.Cfg.TunnelPort
          srcPortLow := low
          srcPortHigh := high
          deviceName := ""
          shouldAdaptMTU := false }
      let r := runEnablers cfg.protocol input.Enablers false cfg.shouldAdaptMTU
      match r.1 with
      | .error err => (configDisabled, some err, r.2)
      | .ok (enabled, shouldAdaptMTU) =>
        if !enabled then (configDisabled, none, r.2)
        else
          let cfg := { cfg with shouldAdaptMTU := shouldAdaptMTU }
          if cfg.protocol == VXLAN then
            ({ cfg with
                deviceName := d.VxlanDevice
                port := if cfg.port == 0 then d.TunnelPortVXLAN else cfg.port }, none, r.2)
          else if cfg.protocol == Geneve then
            ({ cfg with
                deviceName := d.GeneveDevice
                port := if cfg.port == 0 then d.TunnelPortGeneve else cfg.port }, none, r.2)
          else (cfg, none, r.2)

/-- The method `EncapProtocol` of `Config`. -/
def Config.EncapProtocol (cfg : Config) : String := cfg.protocol

/-- The method `Port` of `Config`. -/
def Config.Port (cfg : Config) : Nat := cfg.port

/-- The method `SrcPortLow` of `Config`. -/
def Config.SrcPortLow (cfg : Config) : Nat := cfg.srcPortLow

/-- The method `SrcPortHigh` of `Config`. -/
def Config.SrcPortHigh (cfg : Config) : Nat := cfg.srcPortHigh

/-- The method `DeviceName` of `Config`. -/
def Config.DeviceName (cfg : Config) : String := cfg.deviceName

/-- The method `ShouldAdaptMTU` of `Config`. -/
def Config.ShouldAdaptMTU (cfg : Config) : Bool := cfg.shouldAdaptMTU

/-- The defaults of the agent, with a scan that knows the ranges `0-0` and
`1000-2000`. -/
def refDefaults : Defaults :=
  { VxlanDevice := "cilium_vxlan"
    GeneveDevice := "cilium_geneve"
    TunnelPortVXLAN := 8472
    TunnelPortGeneve := 6081
    Sscanf := fun s =>
      if s == "0-0" then some (0, 0) else if s == "1000-2000" then some (1000, 2000) else none }

/-- A user configuration for VXLAN over IPv4 on port 4789 with the source port range
1000-2000. -/
def refUserCfg : userCfg :=
  { TunnelProtocol := "vxlan"
    TunnelSourcePortRange := "1000-2000"
    TunnelPort := 4789
    UnderlayProtocol := "ipv4" }

/-- An enabler with a validator that rejects every protocol and with MTU adaptation. -/
def refEnabler ( enable : Bool) : enabler :=
  { enable := enable
    needsMTUAdaptation := true
    validators := [fun _ => some "unsupported tunnel protocol"] }

end Tunnel

/-! # Package `pkg/ipam/service/allocator`: counting bits -/

namespace Allocator

/-- The number of one bits among the `i` low bits of `w`. -/
def onesCount : Nat → Nat → Nat
  | 0, _ => 0
  | i + 1, w => w % 2 + onesCount i (w / 2)

/-- The function `bits.OnesCount64` on a word of 64 bits. -/
def OnesCount64 (w : Nat) : Nat := onesCount 64 (w % 2 ^ 64)

/-- The words of 64 bits of a natural number, the least significant first, none for 0;
`fuel` bounds the number of words. -/
def bigWordsAux : Nat → Nat → List Nat
  | 0, _ => []
  | fuel + 1, n => if n = 0 then [] else (n % 2 ^ 64) :: bigWordsAux fuel (n / 2 ^ 64)

/-- The method `Bits` of `big.Int`: the words of the absolute value, the least
significant first. -/
def Bits (n : Int) : List Nat := bigWordsAux n.natAbs n.natAbs

/-- Modelled from the spec: `countBits` (file `utils.go` of the package, not among the
embedded files; its test `TestCountBits` is, with an integer "that occupies more than one
big.Word"): the number of bits set in a big integer, counted over its words. -/
def countBits (n : Int) : Nat := ((Bits n).map OnesCount64).sum

/-- The number of digits 1 in the binary representation of a natural number. -/
def popCount (n : Nat) : Nat := (Nat.digits 2 n).count 1

end Allocator

/-! # Theorems -/

/-! ## Traces of the loops -/

theorem lookupGuarded_nil : LookupGuarded [] := by
  intro pre post ip src ns name h
  cases pre <;> simp at h

theorem lookupGuarded_cons (a : Effect) (evs : List Effect)
    (ha : ∀ ip src ns name, a ≠ Effect.ipcacheDeleteOnMetadataMatch ip src ns name)
    (h : LookupGuarded evs) : LookupGuarded (a :: evs) := by
  intro pre post ip src ns name heq
  cases pre with
  | nil =>
    simp only [List.nil_append, List.cons.injEq] at heq
    exact absurd heq.1 (ha ip src ns name)
  | cons b pre1 =>
    simp only [List.cons_append, List.cons.injEq] at heq
    obtain ⟨pre0, id, hp, hs⟩ := h pre1 post ip src ns name heq.2
    exact ⟨b :: pre0, id, by simp [hp], hs⟩

theorem lookupGuarded_append (evs1 evs2 : List Effect)
    (h1 : ∀ e ∈ evs1, ∀ ip src ns name, e ≠ Effect.ipcacheDeleteOnMetadataMatch ip src ns name)
    (h2 : LookupGuarded evs2) : LookupGuarded (evs1 ++ evs2) := by
  induction evs1 with
  | nil => simpa using h2
  | cons a rest ih =>
    rw [List.cons_append]
    exact lookupGuarded_cons a _ (h1 a (List.mem_cons_self _ _))
      (ih (fun e he => h1 e (List.mem_cons_of_mem _ he)))

theorem lookupGuarded_lookup_delete (ip : String) (id : Identity) (ns name : String)
    (evs : List Effect) (hid : id.Source = .Kubernetes) (h : LookupGuarded evs) :
    LookupGuarded (Effect.ipcacheLookupByIP ip (some id) ::
      Effect.ipcacheDeleteOnMetadataMatch ip .Kubernetes ns name :: evs) := by
  intro pre post ip1 src1 ns1 name1 heq
  cases pre with
  | nil => simp at heq
  | cons b pre1 =>
    simp only [List.cons_append, List.cons.injEq] at heq
    obtain ⟨hb, heq⟩ := heq
    cases pre1 with
    | nil =>
      simp only [List.nil_append, List.cons.injEq, Effect.ipcacheDeleteOnMetadataMatch.injEq] at heq
      obtain ⟨⟨hip, -, -, -⟩, -⟩ := heq
      exact ⟨[], id, by simp [← hb, hip], hid⟩
    | cons c pre2 =>
      simp only [List.cons_append, List.cons.injEq] at heq
      obtain ⟨pre0, id0, hp, hs⟩ := h pre2 post ip1 src1 ns1 name1 heq.2
      exact ⟨b :: c :: pre0, id0, by simp [hp], hs⟩

/-- The host-port deletion loop only looks services up and deletes them. -/
theorem deleteHostPortLoop_evs {C S : Type} (k : K8sPodWatcher C S) (pod : Pod)
    (l : List LegacySVC) (s : S) :
    ∀ e ∈ (deleteHostPortLoop k pod l s).evs,
      (∃ fe r, e = .GetDeepCopyServiceByFrontend fe r) ∨ ∃ fe err, e = .DeleteService fe err := by
  induction l generalizing s with
  | nil => simp [deleteHostPortLoop]
  | cons d rest ih =>
    intro e he
    simp only [deleteHostPortLoop] at he
    split at he
    · rcases List.mem_cons.1 he with rfl | he
      · exact Or.inl ⟨_, _, rfl⟩
      · exact ih _ e he
    · split at he
      · simp only [List.mem_cons, List.mem_singleton, List.not_mem_nil, or_false] at he
        rcases he with rfl | rfl
        · exact Or.inl ⟨_, _, rfl⟩
        · exact Or.inr ⟨_, _, rfl⟩
      · simp only [List.mem_cons] at he
        rcases he with rfl | rfl | he
        · exact Or.inl ⟨_, _, rfl⟩
        · exact Or.inr ⟨_, _, rfl⟩
        · exact ih _ e he

theorem deleteHostPortMapping_evs {C S : Type} (k : K8sPodWatcher C S) (pod : Pod)
    (podIPs : List String) (s : S) :
    ∀ e ∈ (deleteHostPortMapping k pod podIPs s).evs,
      (∃ fe r, e = .GetDeepCopyServiceByFrontend fe r) ∨ ∃ fe err, e = .DeleteService fe err := by
  simp only [deleteHostPortMapping]
  split
  · simp
  · split
    · simp
    · exact deleteHostPortLoop_evs k pod _ s

/-- The calls of the ipcache deletion loop: lookups, and owner-match deletes for the
pod with source Kubernetes. -/
theorem deletePodIPs_evs {C S : Type} (k : K8sPodWatcher C S) (pod : Pod)
    (l : List String) (c : C) :
    ∀ e ∈ (deletePodIPs k pod l c).evs,
      (∃ ip r, e = .ipcacheLookupByIP ip r) ∨
      ∃ ip, e = .ipcacheDeleteOnMetadataMatch ip .Kubernetes pod.ObjectMeta.Namespace
        pod.ObjectMeta.Name := by
  induction l generalizing c with
  | nil => simp [deletePodIPs]
  | cons ip rest ih =>
    intro e he
    simp only [deletePodIPs] at he
    split at he
    · rcases List.mem_cons.1 he with rfl | he
      · exact Or.inl ⟨_, _, rfl⟩
      · exact ih _ e he
    · split at he
      · rcases List.mem_cons.1 he with rfl | he
        · exact Or.inl ⟨_, _, rfl⟩
        · exact ih _ e he
      · simp only [List.mem_cons] at he
        rcases he with rfl | rfl | he
        · exact Or.inl ⟨_, _, rfl⟩
        · exact Or.inr ⟨_, rfl⟩
        · exact ih _ e he

theorem deletePodIPs_guarded {C S : Type} (k : K8sPodWatcher C S) (pod : Pod)
    (l : List String) (c : C) : LookupGuarded (deletePodIPs k pod l c).evs := by
  induction l generalizing c with
  | nil => simpa [deletePodIPs] using lookupGuarded_nil
  | cons ip rest ih =>
    simp only [deletePodIPs]
    split
    · exact lookupGuarded_cons _ _ (by intros; simp) (ih _)
    · split
      · exact lookupGuarded_cons _ _ (by intros; simp) (ih _)
      · rename_i id _ hsrc
        exact lookupGuarded_lookup_delete ip id _ _ _ (by simpa using hsrc) (ih _)

/-- An entry whose owner is not the pod survives the ipcache deletion loop, when the
owner-match delete of the store changes an entry only on a match. -/
theorem deletePodIPs_entry {C S : Type} (k : K8sPodWatcher C S) (pod : Pod)
    (entry : C → String → Option CacheEntry)
    (hstore : ∀ c ip src ns name y,
      entry (k.ipcDeleteOnMetadataMatch c ip src ns name).1 y ≠ entry c y →
        y = ip ∧ ∃ e, entry c ip = some e ∧ e.identity.Source = src ∧ e.owner = some (ns, name))
    (x : String) (e : CacheEntry)
    (howner : e.owner ≠ some (pod.ObjectMeta.Namespace, pod.ObjectMeta.Name))
    (l : List String) (c : C) (hx : entry c x = some e) :
    entry (deletePodIPs k pod l c).st x = some e := by
  induction l generalizing c with
  | nil => simpa [deletePodIPs] using hx
  | cons ip rest ih =>
    simp only [deletePodIPs]
    split
    · exact ih c hx
    · split
      · exact ih c hx
      · apply ih
        by_contra hne
        have hch : entry (k.ipcDeleteOnMetadataMatch c ip Source.Kubernetes
            pod.ObjectMeta.Namespace pod.ObjectMeta.Name).1 x ≠ entry c x := by
          rw [hx]; exact hne
        obtain ⟨hxi, e0, he0, -, ho⟩ := hstore _ _ _ _ _ _ hch
        subst hxi
        rw [hx] at he0
        cases he0
        exact howner ho

/-- C1. Ownership-verified cache delete.  Among the calls the delete handler makes for
pod A, every ipcache write for an address x is the owner-match delete
`DeleteOnMetadataMatch(x, Kubernetes, A.namespace, A.name)`, and every such delete
directly follows a `LookupByIP` of the same address that found an entry whose source is
Kubernetes.  Consequently, on a store whose owner-match delete changes an entry only
at its own key and only when source and owner both match, an entry for x whose owner
is not (A.namespace, A.name) is unchanged after A's delete is processed. -/
theorem deleteK8sPodV1_ownership_verified {C S : Type} (k : K8sPodWatcher C S) (A : Pod)
    (w : World C S) (x : String) (entry : C → String → Option CacheEntry)
    (hstore : ∀ c ip src ns name y,
      entry (k.ipcDeleteOnMetadataMatch c ip src ns name).1 y ≠ entry c y →
        y = ip ∧ ∃ e, entry c ip = some e ∧ e.identity.Source = src ∧ e.owner = some (ns, name)) :
    (∀ ev ∈ (deleteK8sPodV1 k A w).evs, ev.isCacheWrite = true → ev.cacheWriteIP = some x →
      ev = .ipcacheDeleteOnMetadataMatch x .Kubernetes A.ObjectMeta.Namespace A.ObjectMeta.Name) ∧
    LookupGuarded (deleteK8sPodV1 k A w).evs ∧
    (∀ e, entry w.cache x = some e →
      e.owner ≠ some (A.ObjectMeta.Namespace, A.ObjectMeta.Name) →
      entry (deleteK8sPodV1 k A w).st.cache x = some e) := by
  have hpre : ∀ ev ∈ (if k.cfg.EnableLocalRedirectPolicy then [Effect.lrpOnDeletePod A] else []) ++
      [Effect.cgroupOnDeletePod A],
      ev.isCacheWrite = false ∧
        ∀ ip src ns name, ev ≠ Effect.ipcacheDeleteOnMetadataMatch ip src ns name := by
    intro ev hev
    split at hev <;> simp at hev <;> (try rcases hev with rfl | rfl) <;>
      simp [Effect.isCacheWrite]
  refine ⟨?_, ?_, ?_⟩
  · intro ev hev hw hip
    simp only [deleteK8sPodV1, List.mem_append] at hev
    rcases hev with hev | hev
    · have := (hpre ev (List.mem_append.2 hev)).1
      rw [this] at hw; cases hw
    · simp only [deletePodHostData] at hev
      split at hev
      · simp at hev
      · split at hev
        · simp at hev
        · have hmem : ev ∈ (deleteHostPortMapping k A (k.ValidIPs A.Status).elems w.svcs).evs ++
              (deletePodIPs k A (k.ValidIPs A.Status).elems w.cache).evs := by
            split at hev <;> exact hev
          rcases List.mem_append.1 hmem with h1 | h1
          · rcases deleteHostPortMapping_evs k A _ _ ev h1 with ⟨fe, r, rfl⟩ | ⟨fe, err, rfl⟩ <;>
              simp [Effect.isCacheWrite] at hw
          · rcases deletePodIPs_evs k A _ _ ev h1 with ⟨ip, r, rfl⟩ | ⟨ip, rfl⟩
            · simp [Effect.isCacheWrite] at hw
            · simp only [Effect.cacheWriteIP, Option.some.injEq] at hip
              rw [hip]
  · simp only [deleteK8sPodV1]
    apply lookupGuarded_append _ _ (fun ev hev => (hpre ev hev).2)
    simp only [deletePodHostData]
    split
    · exact lookupGuarded_nil
    · split
      · exact lookupGuarded_nil
      · have hg : LookupGuarded
            ((deleteHostPortMapping k A (k.ValidIPs A.Status).elems w.svcs).evs ++
              (deletePodIPs k A (k.ValidIPs A.Status).elems w.cache).evs) := by
          apply lookupGuarded_append _ _ _ (deletePodIPs_guarded k A _ _)
          intro ev hev ip src ns name
          rcases deleteHostPortMapping_evs k A _ _ ev hev with ⟨fe, r, rfl⟩ | ⟨fe, err, rfl⟩ <;>
            simp
        split <;> exact hg
  · intro e hx howner
    simp only [deleteK8sPodV1, deletePodHostData]
    split
    · exact hx
    · split
      · exact hx
      · have := deletePodIPs_entry k A entry hstore x e howner (k.ValidIPs A.Status).elems
          w.cache hx
        split <;> exact this

theorem Cache.lookup_erase_ne (c : Cache) (ip y : String) (h : y ≠ ip) :
    (Cache.erase c ip).lookup y = c.lookup y := by
  induction c with
  | nil => rfl
  | cons kv rest ih =>
    obtain ⟨key, v⟩ := kv
    unfold Cache.erase at ih ⊢
    by_cases hk : key = ip
    · subst hk
      have hyk : (y == key) = false := by simpa using h
      simp [List.filter_cons, List.lookup_cons, hyk, ih]
    · have hne : (key != ip) = true := by simpa using hk
      simp only [List.filter_cons, hne, if_true, List.lookup_cons]
      rw [ih]

/-- The owner-match delete of the reference ipcache changes an entry only at its own
key, and only when source and owner both match. -/
theorem Cache.deleteOnMetadataMatch_changes (c : Cache) (ip : String) (src : Source)
    (ns name y : String)
    (h : (Cache.DeleteOnMetadataMatch c ip src ns name).1.lookup y ≠ c.lookup y) :
    y = ip ∧ ∃ e, c.lookup ip = some e ∧ e.identity.Source = src ∧ e.owner = some (ns, name) := by
  unfold Cache.DeleteOnMetadataMatch at h
  cases hl : c.lookup ip with
  | none => simp [hl] at h
  | some e =>
    simp only [hl] at h
    split at h
    · rename_i hc
      simp only [Bool.and_eq_true, beq_iff_eq] at hc
      refine ⟨?_, e, rfl, hc.1, hc.2⟩
      by_contra hne
      exact h (Cache.lookup_erase_ne c ip y hne)
    · exact absurd rfl h

/-- Witness for C1: pod `ns/podA` is deleted while the reference ipcache holds its
address 10.0.0.5 for `ns/podB`; the entry of `ns/podB` stays. -/
theorem deleteK8sPodV1_ownership_verified_witness :
    refWorldB.cache.lookup "10.0.0.5" = some (refEntry .Kubernetes "ns" "podB") ∧
    (refEntry .Kubernetes "ns" "podB").owner ≠
      some (refPodA.ObjectMeta.Namespace, refPodA.ObjectMeta.Name) ∧
    (deleteK8sPodV1 refK refPodA refWorldB).st.cache.lookup "10.0.0.5" =
      some (refEntry .Kubernetes "ns" "podB") :=
  ⟨by decide, by decide,
    (deleteK8sPodV1_ownership_verified refK refPodA refWorldB "10.0.0.5"
      (fun c ip => c.lookup ip) Cache.deleteOnMetadataMatch_changes).2.2
      (refEntry .Kubernetes "ns" "podB") (by decide) (by decide)⟩

/-- C2, evaluated at the failing input: an update of `ns/podA` that changes only the
UID, with endpoint 7 present, makes no `UpdateLabelsFrom` call: the handler returns at
its check "nothing changed" with the cgroup notification as its only call.  An update
that changes a label instead does call `UpdateLabelsFrom` on endpoint 7. -/
theorem updateK8sPodV1_uid_rotation_returns_early :
    refPodA.ObjectMeta.UID ≠ refPodA2.ObjectMeta.UID ∧
    refK.GetEndpointsByPodName (refK.GetObjNamespaceName refPodA2.ObjectMeta) = [7] ∧
    (updateK8sPodV1 refK (some refPodA) (some refPodA2) refWorldB).evs =
      [.cgroupOnUpdatePod refPodA refPodA2] ∧
    (updateK8sPodV1 refK (some refPodA) (some refPodALabelled) refWorldB).evs =
      [.cgroupOnUpdatePod refPodA refPodALabelled,
        .UpdateLabelsFrom 7 [] [("app", "web")] none,
        .updateCiliumEndpointLabels 7 [("app", "web")]] := by
  decide

/-- The calls of the delete handler are never upserts. -/
theorem deleteK8sPodV1_no_upsert {C S : Type} (k : K8sPodWatcher C S) (pod : Pod)
    (w : World C S) :
    ∀ e ∈ (deleteK8sPodV1 k pod w).evs, e.isIpcacheUpsert = false ∧ e.isUpsertService = false := by
  intro e he
  simp only [deleteK8sPodV1, List.mem_append] at he
  rcases he with (he | he) | he
  · split at he <;> simp at he
    subst he; simp [Effect.isIpcacheUpsert, Effect.isUpsertService]
  · simp only [List.mem_singleton] at he
    subst he; simp [Effect.isIpcacheUpsert, Effect.isUpsertService]
  · simp only [deletePodHostData] at he
    split at he
    · simp at he
    · split at he
      · simp at he
      · have hmem : e ∈ (deleteHostPortMapping k pod (k.ValidIPs pod.Status).elems w.svcs).evs ++
            (deletePodIPs k pod (k.ValidIPs pod.Status).elems w.cache).evs := by
          split at he <;> exact he
        rcases List.mem_append.1 hmem with h1 | h1
        · rcases deleteHostPortMapping_evs k pod _ _ e h1 with ⟨fe, r, rfl⟩ | ⟨fe, err, rfl⟩ <;>
            simp [Effect.isIpcacheUpsert, Effect.isUpsertService]
        · rcases deletePodIPs_evs k pod _ _ e h1 with ⟨ip, r, rfl⟩ | ⟨ip, rfl⟩ <;>
            simp [Effect.isIpcacheUpsert, Effect.isUpsertService]

/-- C3. Terminal phase forces delete.  For a pod whose phase is failed or succeeded,
`addK8sPodV1` and `updateK8sPodV1` (with any old pod) return what `deleteK8sPodV1`
returns for it: the same error, the same ipcache and service table, the same calls;
none of these calls is an ipcache `Upsert` or an `UpsertService`. -/
theorem terminal_phase_forces_delete {C S : Type} (k : K8sPodWatcher C S) (pod old : Pod)
    (w : World C S) (h : pod.Status.Phase = "Failed" ∨ pod.Status.Phase = "Succeeded") :
    addK8sPodV1 k pod w = deleteK8sPodV1 k pod w ∧
    updateK8sPodV1 k (some old) (some pod) w = deleteK8sPodV1 k pod w ∧
    (∀ e ∈ (deleteK8sPodV1 k pod w).evs,
      e.isIpcacheUpsert = false ∧ e.isUpsertService = false) := by
  have hrun : IsPodRunning pod.Status = false := by
    rcases h with h | h <;> simp [IsPodRunning, h]
  refine ⟨?_, ?_, deleteK8sPodV1_no_upsert k pod w⟩
  · simp [addK8sPodV1, hrun]
  · simp [updateK8sPodV1, hrun]

/-- Witness for C3: pod `ns/podA` in phase `Succeeded`, added or updated while the
ipcache holds its address for itself: the entry is removed. -/
theorem terminal_phase_forces_delete_witness :
    refPodADone.Status.Phase = "Succeeded" ∧
    (addK8sPodV1 refK refPodADone ⟨[("10.0.0.5", refEntry .Kubernetes "ns" "podA")], ⟨[], []⟩⟩
      = deleteK8sPodV1 refK refPodADone
          ⟨[("10.0.0.5", refEntry .Kubernetes "ns" "podA")], ⟨[], []⟩⟩) ∧
    (deleteK8sPodV1 refK refPodADone
      ⟨[("10.0.0.5", refEntry .Kubernetes "ns" "podA")], ⟨[], []⟩⟩).st.cache = [] :=
  ⟨by decide,
    (terminal_phase_forces_delete refK refPodADone refPodA
      ⟨[("10.0.0.5", refEntry .Kubernetes "ns" "podA")], ⟨[], []⟩⟩ (Or.inr (by decide))).1,
    by decide⟩

/-- The calls made for one endpoint never touch the ipcache, the service table or the
policy trigger. -/
theorem updatePodEndpoint_evs {C S : Type} (k : K8sPodWatcher C S) (newK8sPod : Pod)
    (ol nl : GoMap) (b1 b2 b3 b4 b5 : Bool) (podEP : Nat) :
    ∀ e ∈ (updatePodEndpoint k newK8sPod ol nl b1 b2 b3 b4 b5 podEP).2,
      e.isCacheWrite = false ∧ e.isServiceWrite = false ∧ e.isTriggerPolicyUpdates = false := by
  intro e
  simp only [updatePodEndpoint]
  cases b1 <;> cases b2 <;> cases b3 <;> cases b4 <;> cases b5 <;>
    cases k.cfg.DisableCiliumEndpointCRD <;>
    cases k.epUpdateLabelsFrom podEP ol nl <;>
    simp <;> intro he <;> (try rcases he with rfl | rfl | rfl | rfl | rfl) <;>
    simp [Effect.isCacheWrite, Effect.isServiceWrite, Effect.isTriggerPolicyUpdates]

theorem updatePodEndpoints_evs {C S : Type} (k : K8sPodWatcher C S) (newK8sPod : Pod)
    (ol nl : GoMap) (b1 b2 b3 b4 b5 : Bool) (err : Option (GoError Source)) (eps : List Nat) :
    ∀ e ∈ (updatePodEndpoints k newK8sPod ol nl b1 b2 b3 b4 b5 err eps).2,
      e.isCacheWrite = false ∧ e.isServiceWrite = false ∧ e.isTriggerPolicyUpdates = false := by
  induction eps with
  | nil => simp [updatePodEndpoints]
  | cons ep rest ih =>
    intro e he
    simp only [updatePodEndpoints] at he
    split at he
    · exact updatePodEndpoint_evs k newK8sPod ol nl b1 b2 b3 b4 b5 ep e he
    · rcases List.mem_append.1 he with h | h
      · exact updatePodEndpoint_evs k newK8sPod ol nl b1 b2 b3 b4 b5 ep e h
      · exact ih e h

/-- With equal spec, host IP and valid IPs, of which there is at least one,
`updatePodHostData` returns nil without a call and leaves the world as it is. -/
theorem updatePodHostData_unchanged {C S : Type} (k : K8sPodWatcher C S) (old new : Pod)
    (o n : IPSlice) (w : World C S) (hspec : new.Spec = old.Spec)
    (hhost : new.Status.HostIP = old.Status.HostIP) (hips : o.elems = n.elems)
    (hlen : o.len ≠ 0 ∨ n.len ≠ 0) :
    updatePodHostData k (some old) new o n w = ⟨none, w, []⟩ := by
  have heq : ipSliceEqual o n = true := by
    unfold ipSliceEqual
    cases o with
    | none =>
      cases n with
      | none => simp [IPSlice.len, IPSlice.elems] at hlen
      | some l =>
        simp only [IPSlice.elems, Option.getD_none, Option.getD_some] at hips
        subst hips
        simp [IPSlice.len, IPSlice.elems] at hlen
    | some l =>
      cases n with
      | none =>
        simp only [IPSlice.elems, Option.getD_none, Option.getD_some] at hips
        subst hips
        simp [IPSlice.len, IPSlice.elems] at hlen
      | some l2 =>
        simp only [IPSlice.elems, Option.getD_some] at hips
        subst hips
        simp [IPSlice.DeepEqual]
  simp only [updatePodHostData, updatePodHostDataBody, heq, hspec, hhost, specEqual, hostIPEqual]
  split
  · rfl
  · simp

/-- What `updateK8sPodV1` does with `updatePodHostData` when the spec, the host IP and
the valid IPs are those of the old pod: nothing. -/
theorem updateK8sPodV1_hostData_unchanged {C S : Type} (k : K8sPodWatcher C S) (old new : Pod)
    (w : World C S) (hspec : new.Spec = old.Spec)
    (hhost : new.Status.HostIP = old.Status.HostIP)
    (hips : (k.ValidIPs old.Status).elems = (k.ValidIPs new.Status).elems) :
    (if ((k.ValidIPs old.Status).len != 0 || (k.ValidIPs new.Status).len != 0) = true then
        updatePodHostData k (some old) new (k.ValidIPs old.Status) (k.ValidIPs new.Status) w
      else (⟨none, w, []⟩ : Ret (Option (GoError Source)) (World C S))) = ⟨none, w, []⟩ := by
  split
  · rename_i hc
    exact updatePodHostData_unchanged k old new _ _ w hspec hhost hips (by simpa using hc)
  · rfl

theorem updateK8sPodV1_unchanged_st {C S : Type} (k : K8sPodWatcher C S) (old new : Pod)
    (w : World C S) (hrun : IsPodRunning new.Status = true) (hspec : new.Spec = old.Spec)
    (hhost : new.Status.HostIP = old.Status.HostIP)
    (hips : (k.ValidIPs old.Status).elems = (k.ValidIPs new.Status).elems) :
    (updateK8sPodV1 k (some old) (some new) w).st = w := by
  simp only [updateK8sPodV1, hrun, updateK8sPodV1_hostData_unchanged k old new w hspec hhost hips]
  simp only [Bool.not_true, Bool.false_eq_true, if_false]
  split
  · rfl
  · split
    · rfl
    · split <;> rfl

theorem updateK8sPodV1_unchanged_evs {C S : Type} (k : K8sPodWatcher C S) (old new : Pod)
    (w : World C S) (hrun : IsPodRunning new.Status = true) (hspec : new.Spec = old.Spec)
    (hhost : new.Status.HostIP = old.Status.HostIP)
    (hips : (k.ValidIPs old.Status).elems = (k.ValidIPs new.Status).elems) :
    ∀ e ∈ (updateK8sPodV1 k (some old) (some new) w).evs,
      e.isCacheWrite = false ∧ e.isServiceWrite = false ∧ e.isTriggerPolicyUpdates = false := by
  intro e he
  simp only [updateK8sPodV1, hrun,
    updateK8sPodV1_hostData_unchanged k old new w hspec hhost hips] at he
  simp only [Bool.not_true, Bool.false_eq_true, if_false] at he
  split at he
  · simp at he
  · split at he
    · simp only [List.append_nil, List.singleton_append, List.mem_cons] at he
      rcases he with rfl | he
      · simp [Effect.isCacheWrite, Effect.isServiceWrite, Effect.isTriggerPolicyUpdates]
      · split at he <;> simp at he
        subst he
        simp [Effect.isCacheWrite, Effect.isServiceWrite, Effect.isTriggerPolicyUpdates]
    · split at he
      · simp only [List.append_nil, List.singleton_append, List.mem_cons] at he
        rcases he with rfl | he
        · simp [Effect.isCacheWrite, Effect.isServiceWrite, Effect.isTriggerPolicyUpdates]
        · split at he <;> simp at he
          subst he
          simp [Effect.isCacheWrite, Effect.isServiceWrite, Effect.isTriggerPolicyUpdates]
      · simp only [List.append_nil, List.singleton_append, List.mem_cons,
          List.mem_append, List.cons_append] at he
        rcases he with rfl | he | he
        · simp [Effect.isCacheWrite, Effect.isServiceWrite, Effect.isTriggerPolicyUpdates]
        · split at he <;> simp at he
          subst he
          simp [Effect.isCacheWrite, Effect.isServiceWrite, Effect.isTriggerPolicyUpdates]
        · exact updatePodEndpoints_evs _ _ _ _ _ _ _ _ _ _ _ e he

/-- C4. No-op short-circuit.  For an update whose new pod is running and has the spec,
the host IP and the valid IPs of the old pod, the update handler makes no ipcache write
(`Upsert`, `Delete`, `DeleteOnMetadataMatch`), no service-table write (`UpsertService`,
`DeleteService`) and does not trigger a policy update; it leaves the ipcache and the
service table as they are; and the call of `updatePodHostData` it makes when there is
a valid IP returns nil. -/
theorem updateK8sPodV1_noop_short_circuit {C S : Type} (k : K8sPodWatcher C S) (old new : Pod)
    (w : World C S) (hrun : IsPodRunning new.Status = true) (hspec : new.Spec = old.Spec)
    (hhost : new.Status.HostIP = old.Status.HostIP)
    (hips : (k.ValidIPs old.Status).elems = (k.ValidIPs new.Status).elems) :
    (∀ e ∈ (updateK8sPodV1 k (some old) (some new) w).evs,
      e.isCacheWrite = false ∧ e.isServiceWrite = false ∧ e.isTriggerPolicyUpdates = false) ∧
    (updateK8sPodV1 k (some old) (some new) w).st = w ∧
    (∀ w1 : World C S, (k.ValidIPs old.Status).len ≠ 0 ∨ (k.ValidIPs new.Status).len ≠ 0 →
      updatePodHostData k (some old) new (k.ValidIPs old.Status) (k.ValidIPs new.Status) w1 =
        ⟨none, w1, []⟩) :=
  ⟨updateK8sPodV1_unchanged_evs k old new w hrun hspec hhost hips,
    updateK8sPodV1_unchanged_st k old new w hrun hspec hhost hips,
    fun w1 hlen => updatePodHostData_unchanged k old new _ _ w1 hspec hhost hips hlen⟩

/-- Witness for C4: pod `ns/podA` is updated with a new label and nothing else; the
world stays as it is, and `updatePodHostData` returns nil. -/
theorem updateK8sPodV1_noop_short_circuit_witness :
    IsPodRunning refPodALabelled.Status = true ∧ refPodALabelled.Spec = refPodA.Spec ∧
    refPodALabelled.Status.HostIP = refPodA.Status.HostIP ∧
    (refK.ValidIPs refPodA.Status).elems = (refK.ValidIPs refPodALabelled.Status).elems ∧
    (updateK8sPodV1 refK (some refPodA) (some refPodALabelled) refWorldB).st = refWorldB ∧
    updatePodHostData refK (some refPodA) refPodALabelled (refK.ValidIPs refPodA.Status)
      (refK.ValidIPs refPodALabelled.Status) refWorldB = ⟨none, refWorldB, []⟩ :=
  ⟨by decide, by decide, by decide, by decide,
    (updateK8sPodV1_noop_short_circuit refK refPodA refPodALabelled refWorldB (by decide)
      (by decide) (by decide) (by decide)).2.1,
    (updateK8sPodV1_noop_short_circuit refK refPodA refPodALabelled refWorldB (by decide)
      (by decide) (by decide) (by decide)).2.2 refWorldB (Or.inl (by decide))⟩

/-! ## Deleting twice -/

/-- The host-port deletion loop only removes services. -/
theorem deleteHostPortLoop_get {C S : Type} (k : K8sPodWatcher C S)
    (hsvc : DeleteServiceContract k) (pod : Pod) (l : List LegacySVC) (s : S) (fe : L3n4Addr) :
    k.svcGetDeepCopyServiceByFrontend (deleteHostPortLoop k pod l s).st fe =
        k.svcGetDeepCopyServiceByFrontend s fe ∨
      k.svcGetDeepCopyServiceByFrontend (deleteHostPortLoop k pod l s).st fe = none := by
  induction l generalizing s with
  | nil => exact Or.inl rfl
  | cons d rest ih =>
    simp only [deleteHostPortLoop]
    split
    · exact ih s
    · obtain ⟨h1, h2, -⟩ := hsvc s d.Frontend.L3n4Addr
      split
      · rename_i err herr
        rw [h1 (by rw [herr]; simp)]
        exact Or.inl rfl
      · rename_i herr
        obtain ⟨hnone, hother⟩ := h2 herr
        rcases ih (k.svcDeleteService s d.Frontend.L3n4Addr).1 with h | h
        · by_cases hfe : fe = d.Frontend.L3n4Addr
          · subst hfe
            right
            rw [h, hnone]
          · left
            rw [h, hother fe hfe]
        · exact Or.inr h

/-- The state the host-port deletion loop leaves, by the first service. -/
theorem deleteHostPortLoop_cons_st {C S : Type} (k : K8sPodWatcher C S) (pod : Pod)
    (d : LegacySVC) (rest : List LegacySVC) (s : S) :
    (deleteHostPortLoop k pod (d :: rest) s).st =
      if hostPortNotOwned k pod (k.svcGetDeepCopyServiceByFrontend s d.Frontend.L3n4Addr) d then
        (deleteHostPortLoop k pod rest s).st
      else if (k.svcDeleteService s d.Frontend.L3n4Addr).2 = none then
        (deleteHostPortLoop k pod rest (k.svcDeleteService s d.Frontend.L3n4Addr).1).st
      else (k.svcDeleteService s d.Frontend.L3n4Addr).1 := by
  simp only [deleteHostPortLoop]
  split
  · rfl
  · split
    · rename_i err herr
      simp [herr]
    · rename_i herr
      simp [herr]

/-- Running the host-port deletion loop a second time changes nothing more. -/
theorem deleteHostPortLoop_twice {C S : Type} (k : K8sPodWatcher C S)
    (hsvc : DeleteServiceContract k) (pod : Pod) (l : List LegacySVC) (s : S) :
    (deleteHostPortLoop k pod l (deleteHostPortLoop k pod l s).st).st =
      (deleteHostPortLoop k pod l s).st := by
  induction l generalizing s with
  | nil => rfl
  | cons d rest ih =>
    -- a second run from a state the loop over `rest` left, in which the frontend of `d`
    -- is free or held by another owner
    have again : ∀ s0 : S,
        (k.svcGetDeepCopyServiceByFrontend (deleteHostPortLoop k pod rest s0).st d.Frontend.L3n4Addr
            = none ∨
          hostPortNotOwned k pod (k.svcGetDeepCopyServiceByFrontend
            (deleteHostPortLoop k pod rest s0).st d.Frontend.L3n4Addr) d = true) →
        (deleteHostPortLoop k pod (d :: rest) (deleteHostPortLoop k pod rest s0).st).st =
          (deleteHostPortLoop k pod rest s0).st := by
      intro s0 hcase
      obtain ⟨h1, -, h3⟩ := hsvc (deleteHostPortLoop k pod rest s0).st d.Frontend.L3n4Addr
      rw [deleteHostPortLoop_cons_st]
      split
      · exact ih s0
      · rename_i hown
        have hnone : k.svcGetDeepCopyServiceByFrontend (deleteHostPortLoop k pod rest s0).st
            d.Frontend.L3n4Addr = none := by
          rcases hcase with h | h
          · exact h
          · exact absurd h hown
        split
        · rename_i herr
          rw [h3 herr hnone]
          exact ih s0
        · rename_i herr
          exact h1 herr
    rw [deleteHostPortLoop_cons_st k pod d rest s]
    by_cases hown : hostPortNotOwned k pod
        (k.svcGetDeepCopyServiceByFrontend s d.Frontend.L3n4Addr) d = true
    · simp only [hown, if_true]
      apply again s
      rcases deleteHostPortLoop_get k hsvc pod rest s d.Frontend.L3n4Addr with h | h
      · right; rw [h]; exact hown
      · left; exact h
    · simp only [hown, Bool.false_eq_true, if_false]
      obtain ⟨h1, h2, -⟩ := hsvc s d.Frontend.L3n4Addr
      by_cases herr : (k.svcDeleteService s d.Frontend.L3n4Addr).2 = none
      · simp only [herr, if_true]
        apply again
        left
        rcases deleteHostPortLoop_get k hsvc pod rest (k.svcDeleteService s d.Frontend.L3n4Addr).1
          d.Frontend.L3n4Addr with h | h
        · rw [h]; exact (h2 herr).1
        · exact h
      · simp only [herr, if_false]
        rw [h1 herr, deleteHostPortLoop_cons_st]
        simp only [hown, Bool.false_eq_true, if_false, herr]
        exact h1 herr

/-- The state the ipcache deletion loop leaves, by the first address. -/
theorem deletePodIPs_cons_st {C S : Type} (k : K8sPodWatcher C S) (pod : Pod)
    (ip : String) (rest : List String) (c : C) :
    (deletePodIPs k pod (ip :: rest) c).st =
      match k.ipcLookupByIP c ip with
      | none => (deletePodIPs k pod rest c).st
      | some id =>
        if id.Source != .Kubernetes then (deletePodIPs k pod rest c).st
        else (deletePodIPs k pod rest (k.ipcDeleteOnMetadataMatch c ip .Kubernetes
          pod.ObjectMeta.Namespace pod.ObjectMeta.Name).1).st := by
  simp only [deletePodIPs]
  split
  · rfl
  · split <;> rfl

/-- Under the contract, the owner-match delete only removes entries. -/
theorem ownerMatchDelete_entry {C S : Type} (k : K8sPodWatcher C S)
    (entry : C → String → Option CacheEntry) (hc : OwnerMatchDeleteContract k entry)
    (c : C) (ip : String) (src : Source) (ns name y : String) :
    entry (k.ipcDeleteOnMetadataMatch c ip src ns name).1 y = entry c y ∨
      entry (k.ipcDeleteOnMetadataMatch c ip src ns name).1 y = none := by
  obtain ⟨-, hmatch, hno⟩ := hc
  by_cases h : ∃ e, entry c ip = some e ∧ e.identity.Source = src ∧ e.owner = some (ns, name)
  · obtain ⟨e, he, hs, ho⟩ := h
    obtain ⟨h1, h2⟩ := hmatch c ip src ns name e he hs ho
    by_cases hy : y = ip
    · subst hy; exact Or.inr h1
    · exact Or.inl (h2 y hy)
  · rw [hno c ip src ns name h]
    exact Or.inl rfl

/-- Under the contract, the ipcache deletion loop only removes entries. -/
theorem deletePodIPs_entry_mono {C S : Type} (k : K8sPodWatcher C S)
    (entry : C → String → Option CacheEntry) (hc : OwnerMatchDeleteContract k entry)
    (pod : Pod) (l : List String) (c : C) (y : String) :
    entry (deletePodIPs k pod l c).st y = entry c y ∨
      entry (deletePodIPs k pod l c).st y = none := by
  induction l generalizing c with
  | nil => exact Or.inl rfl
  | cons ip rest ih =>
    rw [deletePodIPs_cons_st]
    split
    · exact ih c
    · split
      · exact ih c
      · rcases ih (k.ipcDeleteOnMetadataMatch c ip .Kubernetes pod.ObjectMeta.Namespace
          pod.ObjectMeta.Name).1 with h | h
        · rcases ownerMatchDelete_entry k entry hc c ip .Kubernetes pod.ObjectMeta.Namespace
            pod.ObjectMeta.Name y with h2 | h2
          · exact Or.inl (h.trans h2)
          · exact Or.inr (h.trans h2)
        · exact Or.inr h

/-- Running the ipcache deletion loop a second time changes nothing more. -/
theorem deletePodIPs_twice {C S : Type} (k : K8sPodWatcher C S)
    (entry : C → String → Option CacheEntry) (hc : OwnerMatchDeleteContract k entry)
    (pod : Pod) (l : List String) (c : C) :
    (deletePodIPs k pod l (deletePodIPs k pod l c).st).st = (deletePodIPs k pod l c).st := by
  induction l generalizing c with
  | nil => rfl
  | cons ip rest ih =>
    -- a second run from a state the loop over `rest` left, in which the entry of `ip`
    -- is not one the pod owns with source Kubernetes
    have again : ∀ c0 : C,
        (¬ ∃ e, entry (deletePodIPs k pod rest c0).st ip = some e ∧
          e.identity.Source = .Kubernetes ∧
          e.owner = some (pod.ObjectMeta.Namespace, pod.ObjectMeta.Name)) →
        (deletePodIPs k pod (ip :: rest) (deletePodIPs k pod rest c0).st).st =
          (deletePodIPs k pod rest c0).st := by
      intro c0 hno
      rw [deletePodIPs_cons_st]
      split
      · exact ih c0
      · split
        · exact ih c0
        · rw [hc.2.2 _ ip .Kubernetes _ _ hno]
          exact ih c0
    have hlook := hc.1 c ip
    rw [deletePodIPs_cons_st k pod ip rest c]
    cases hl : k.ipcLookupByIP c ip with
    | none =>
      simp only []
      apply again c
      rintro ⟨e, he, -, -⟩
      rw [hl] at hlook
      rcases deletePodIPs_entry_mono k entry hc pod rest c ip with h | h
      · rw [h] at he; rw [he] at hlook; simp at hlook
      · rw [h] at he; cases he
    | some id =>
      simp only []
      rw [hl] at hlook
      by_cases hsrc : (id.Source != Source.Kubernetes) = true
      · simp only [hsrc, if_true]
        apply again c
        rintro ⟨e, he, hs, -⟩
        rcases deletePodIPs_entry_mono k entry hc pod rest c ip with h | h
        · rw [h] at he; rw [he] at hlook
          simp only [Option.map_some', Option.some.injEq] at hlook
          rw [hlook, hs] at hsrc
          simp at hsrc
        · rw [h] at he; cases he
      · simp only [hsrc, Bool.false_eq_true, if_false]
        apply again
        rintro ⟨e, he, hs, ho⟩
        by_cases hm : ∃ e, entry c ip = some e ∧ e.identity.Source = .Kubernetes ∧
            e.owner = some (pod.ObjectMeta.Namespace, pod.ObjectMeta.Name)
        · obtain ⟨e1, he1, hs1, ho1⟩ := hm
          have hgone := (hc.2.1 c ip .Kubernetes _ _ e1 he1 hs1 ho1).1
          rcases deletePodIPs_entry_mono k entry hc pod rest
            (k.ipcDeleteOnMetadataMatch c ip .Kubernetes pod.ObjectMeta.Namespace
              pod.ObjectMeta.Name).1 ip with h | h
          · rw [h, hgone] at he; cases he
          · rw [h] at he; cases he
        · have hsame := hc.2.2 c ip .Kubernetes pod.ObjectMeta.Namespace pod.ObjectMeta.Name hm
          rw [hsame] at he
          rcases deletePodIPs_entry_mono k entry hc pod rest c ip with h | h
          · rw [h] at he; exact hm ⟨e, he, hs, ho⟩
          · rw [h] at he; cases he

/-- Under the contracts, deleting a pod a second time leaves the ipcache and the
service table as the first delete left them. -/
theorem deleteK8sPodV1_twice {C S : Type} (k : K8sPodWatcher C S)
    (entry : C → String → Option CacheEntry) (hc : OwnerMatchDeleteContract k entry)
    (hsvc : DeleteServiceContract k) (pod : Pod) (w : World C S) :
    (deleteK8sPodV1 k pod (deleteK8sPodV1 k pod w).st).st = (deleteK8sPodV1 k pod w).st := by
  have hst : ∀ w0 : World C S, (deleteK8sPodV1 k pod w0).st =
      if pod.Spec.HostNetwork = true then w0
      else if ((k.ValidIPs pod.Status).len == 0) = true then w0
      else ⟨(deletePodIPs k pod (k.ValidIPs pod.Status).elems w0.cache).st,
        (deleteHostPortMapping k pod (k.ValidIPs pod.Status).elems w0.svcs).st⟩ := by
    intro w0
    simp only [deleteK8sPodV1, deletePodHostData]
    split
    · rfl
    · split
      · rfl
      · split <;> rfl
  have hmap : ∀ s0 : S,
      (deleteHostPortMapping k pod (k.ValidIPs pod.Status).elems
        (deleteHostPortMapping k pod (k.ValidIPs pod.Status).elems s0).st).st =
      (deleteHostPortMapping k pod (k.ValidIPs pod.Status).elems s0).st := by
    intro s0
    simp only [deleteHostPortMapping]
    split
    · rfl
    · split
      · rfl
      · exact deleteHostPortLoop_twice k hsvc pod _ s0
  rw [hst w]
  split
  · rw [hst w]; simp [*]
  · split
    · rw [hst w]; simp [*]
    · rw [hst]
      simp only [*, Bool.false_eq_true, if_false]
      rw [deletePodIPs_twice k entry hc]

/-! ## The reference stores keep the contracts -/

theorem lookup_filter_ne_self {κ β : Type} [DecidableEq κ] (l : List (κ × β)) (a : κ) :
    (l.filter (fun kv => kv.1 != a)).lookup a = none := by
  induction l with
  | nil => rfl
  | cons kv rest ih =>
    obtain ⟨key, v⟩ := kv
    by_cases hk : key = a
    · subst hk
      simp [List.filter_cons, ih]
    · have hne : (key != a) = true := by simpa using hk
      have hak : (a == key) = false := by simpa using (Ne.symm hk)
      simp only [List.filter_cons, hne, if_true, List.lookup_cons, hak]
      exact ih

theorem lookup_filter_ne_other {κ β : Type} [DecidableEq κ] (l : List (κ × β)) (a b : κ)
    (h : b ≠ a) : (l.filter (fun kv => kv.1 != a)).lookup b = l.lookup b := by
  induction l with
  | nil => rfl
  | cons kv rest ih =>
    obtain ⟨key, v⟩ := kv
    by_cases hk : key = a
    · subst hk
      have hbk : (b == key) = false := by simpa using h
      simp [List.filter_cons, List.lookup_cons, hbk, ih]
    · have hne : (key != a) = true := by simpa using hk
      simp only [List.filter_cons, hne, if_true, List.lookup_cons]
      rw [ih]

theorem filter_ne_of_lookup_none {κ β : Type} [DecidableEq κ] (l : List (κ × β)) (a : κ)
    (h : l.lookup a = none) : l.filter (fun kv => kv.1 != a) = l := by
  induction l with
  | nil => rfl
  | cons kv rest ih =>
    obtain ⟨key, v⟩ := kv
    by_cases hk : key = a
    · subst hk
      simp [List.lookup_cons] at h
    · have hne : (key != a) = true := by simpa using hk
      have hak : (a == key) = false := by simpa using (Ne.symm hk)
      simp only [List.lookup_cons, hak] at h
      simp only [List.filter_cons, hne, if_true, ih h]

/-- The reference ipcache keeps the contract of the owner-match delete. -/
theorem refWatcher_ownerMatchDeleteContract (cfg : Config) (nodeAddrs : List Addr)
    (endpoints : String → List Nat) :
    OwnerMatchDeleteContract (refWatcher cfg nodeAddrs endpoints) (fun c ip => c.lookup ip) := by
  refine ⟨fun c ip => rfl, ?_, ?_⟩
  · intro c ip src ns name e he hs ho
    have hd : (Cache.DeleteOnMetadataMatch c ip src ns name).1 = Cache.erase c ip := by
      simp [Cache.DeleteOnMetadataMatch, he, hs, ho]
    show ((Cache.DeleteOnMetadataMatch c ip src ns name).1).lookup ip = none ∧
      ∀ y, y ≠ ip → ((Cache.DeleteOnMetadataMatch c ip src ns name).1).lookup y = c.lookup y
    rw [hd]
    exact ⟨lookup_filter_ne_self c ip, fun y hy => lookup_filter_ne_other c ip y hy⟩
  · intro c ip src ns name hno
    show (Cache.DeleteOnMetadataMatch c ip src ns name).1 = c
    unfold Cache.DeleteOnMetadataMatch
    cases hl : c.lookup ip with
    | none => rfl
    | some e =>
      simp only []
      split
      · rename_i hcond
        simp only [Bool.and_eq_true, beq_iff_eq] at hcond
        exact absurd ⟨e, hl, hcond.1, hcond.2⟩ hno
      · rfl

/-- The reference service table keeps the contract of `DeleteService`. -/
theorem refWatcher_deleteServiceContract (cfg : Config) (nodeAddrs : List Addr)
    (endpoints : String → List Nat) :
    DeleteServiceContract (refWatcher cfg nodeAddrs endpoints) := by
  intro s fe
  show ((SvcTable.DeleteService s fe).2 ≠ none → (SvcTable.DeleteService s fe).1 = s) ∧
    ((SvcTable.DeleteService s fe).2 = none →
      (SvcTable.DeleteService s fe).1.svcs.lookup fe = none ∧
      ∀ fe1, fe1 ≠ fe → (SvcTable.DeleteService s fe).1.svcs.lookup fe1 = s.svcs.lookup fe1) ∧
    ((SvcTable.DeleteService s fe).2 = none → s.svcs.lookup fe = none →
      (SvcTable.DeleteService s fe).1 = s)
  unfold SvcTable.DeleteService
  split
  · simp [errorsNew]
  · refine ⟨fun h => absurd rfl h, fun _ => ⟨lookup_filter_ne_self _ _,
      fun fe1 h1 => lookup_filter_ne_other _ _ _ h1⟩, fun _ hnone => ?_⟩
    simp only [filter_ne_of_lookup_none s.svcs fe hnone]

/-! ## The change loop -/

/-- C5. Idempotence of add.  On stores that keep the contracts of the owner-match
delete and of `DeleteService`, for every pod p and every state of the change loop
(map of last-seen pods, ipcache, service table): after the non-delete notification for
p the map holds p under its key, and a second non-delete notification for p, which is
therefore handled as an update from p to p, leaves the ipcache and the service table
exactly as the first one left them. -/
theorem add_notification_idempotent {C S : Type} (k : K8sPodWatcher C S)
    (entry : C → String → Option CacheEntry) (hc : OwnerMatchDeleteContract k entry)
    (hsvc : DeleteServiceContract k) (p : Pod) (st : LoopState C S) :
    (processChange k ⟨p, false⟩ st).pods (p.ObjectMeta.Namespace, p.ObjectMeta.Name) = some p ∧
    (processChange k ⟨p, false⟩ (processChange k ⟨p, false⟩ st)).world =
      (processChange k ⟨p, false⟩ st).world := by
  have hpods : (processChange k ⟨p, false⟩ st).pods (p.ObjectMeta.Namespace, p.ObjectMeta.Name)
      = some p := by
    simp [processChange]
  refine ⟨hpods, ?_⟩
  have hsecond : (processChange k ⟨p, false⟩ (processChange k ⟨p, false⟩ st)).world =
      (updateK8sPodV1 k (some p) (some p) (processChange k ⟨p, false⟩ st).world).st := by
    rw [processChange]
    simp only [Bool.not_false, if_true, hpods]
  rw [hsecond]
  by_cases hrun : IsPodRunning p.Status = true
  · exact updateK8sPodV1_unchanged_st k p p _ hrun rfl rfl rfl
  · have hrun0 : IsPodRunning p.Status = false := by simpa using hrun
    have hupd : ∀ (old : Pod) (w : World C S),
        updateK8sPodV1 k (some old) (some p) w = deleteK8sPodV1 k p w := by
      intro old w; simp [updateK8sPodV1, hrun0]
    have hadd : ∀ w : World C S, addK8sPodV1 k p w = deleteK8sPodV1 k p w := by
      intro w; simp [addK8sPodV1, hrun0]
    have hfirst : (processChange k ⟨p, false⟩ st).world = (deleteK8sPodV1 k p st.world).st := by
      simp only [processChange, Bool.not_false, if_true]
      cases st.pods (p.ObjectMeta.Namespace, p.ObjectMeta.Name) with
      | none => simp only [hadd]
      | some old => simp only [hupd]
    rw [hupd, hfirst]
    exact deleteK8sPodV1_twice k entry hc hsvc p st.world

/-- Witness for C5: the reference stores keep the contracts; pod `ns/podA` in phase
`Succeeded` is notified twice while the ipcache holds its address for itself. -/
theorem add_notification_idempotent_witness :
    (processChange refK ⟨refPodADone, false⟩ (processChange refK ⟨refPodADone, false⟩
        ⟨fun _ => none, ⟨[("10.0.0.5", refEntry .Kubernetes "ns" "podA")], ⟨[], []⟩⟩, []⟩)).world =
      (processChange refK ⟨refPodADone, false⟩
        ⟨fun _ => none, ⟨[("10.0.0.5", refEntry .Kubernetes "ns" "podA")], ⟨[], []⟩⟩, []⟩).world ∧
    (processChange refK ⟨refPodADone, false⟩
        ⟨fun _ => none, ⟨[("10.0.0.5", refEntry .Kubernetes "ns" "podA")], ⟨[], []⟩⟩, []⟩).world =
      ⟨[], ⟨[], []⟩⟩ :=
  ⟨(add_notification_idempotent refK (fun c ip => c.lookup ip)
      (refWatcher_ownerMatchDeleteContract _ _ _) (refWatcher_deleteServiceContract _ _ _)
      refPodADone _).2, by decide⟩

/-! ## Upserting the entries of a pod -/

/-- The loop over the new pod IPs calls `Upsert` once for each address, in order, and
makes no other call. -/
theorem upsertPodIPs_calls {C S : Type} (k : K8sPodWatcher C S) (hostIP : List Nat)
    (k8sMeta : K8sMetadata) (l : List String) (c : C) :
    (upsertPodIPs k hostIP k8sMeta l c).evs.filterMap Effect.upsertCall =
      l.map (fun ip => (ip, hostIP, k.hostKey, k8sMeta, unmanagedIdentity)) := by
  induction l generalizing c with
  | nil => rfl
  | cons ip rest ih =>
    simp only [upsertPodIPs, List.filterMap_cons, Effect.upsertCall, List.map_cons, ih]

theorem surfacedUpsertErrors_append (l1 l2 : List Effect) :
    surfacedUpsertErrors (l1 ++ l2) = surfacedUpsertErrors l1 ++ surfacedUpsertErrors l2 := by
  simp [surfacedUpsertErrors, List.flatMap_append]

/-- The message of one `Upsert` call, as `surfacedUpsertErrors` lists it. -/
theorem surfacedUpsertErrors_upsert (ip : String) (hIP : List Nat) (hk : Nat) (m : K8sMetadata)
    (id : Identity) (npc : Bool) (err : GoError Source) :
    surfacedUpsertErrors [.ipcacheUpsert ip hIP hk m id npc (some err)] =
      if expectedOverwrite err then [] else ["ipcache entry for podIP " ++ ip ++ ": " ++ err.Error] := by
  obtain ⟨text, ov⟩ := err
  cases ov with
  | none => rfl
  | some pr =>
    obtain ⟨e, n⟩ := pr
    cases e <;> cases n <;> rfl

/-- The value `errs` of the loop over the new pod IPs holds the messages of the failed
calls of its trace. -/
theorem upsertPodIPs_errs {C S : Type} (k : K8sPodWatcher C S) (hostIP : List Nat)
    (k8sMeta : K8sMetadata) (l : List String) (c : C) :
    (upsertPodIPs k hostIP k8sMeta l c).val.1 =
      surfacedUpsertErrors (upsertPodIPs k hostIP k8sMeta l c).evs := by
  induction l generalizing c with
  | nil => rfl
  | cons ip rest ih =>
    simp only [upsertPodIPs]
    have h2 := surfacedUpsertErrors_append
      [Effect.ipcacheUpsert ip hostIP k.hostKey k8sMeta unmanagedIdentity
        (k.ipcUpsert c ip hostIP k.hostKey k8sMeta unmanagedIdentity).2.1
        (k.ipcUpsert c ip hostIP k.hostKey k8sMeta unmanagedIdentity).2.2]
      (upsertPodIPs k hostIP k8sMeta rest
        (k.ipcUpsert c ip hostIP k.hostKey k8sMeta unmanagedIdentity).1).evs
    simp only [List.singleton_append] at h2
    rw [h2, ih]
    congr 1
    cases (k.ipcUpsert c ip hostIP k.hostKey k8sMeta unmanagedIdentity).2.2 with
    | none => rfl
    | some err =>
      rw [surfacedUpsertErrors_upsert]
      simp only [upsertErrs]
      cases expectedOverwrite err <;> rfl

theorem upsertCall_none (a : Effect) (ha : a.isIpcacheUpsert = false) :
    Effect.upsertCall a = none := by
  cases a <;> first | rfl | simp [Effect.isIpcacheUpsert] at ha

theorem surfacedUpsertErrors_single (a : Effect) (ha : a.isIpcacheUpsert = false) :
    surfacedUpsertErrors [a] = [] := by
  cases a <;> first | rfl | simp [Effect.isIpcacheUpsert] at ha

/-- Calls other than `Upsert` contribute no `Upsert` call and no `Upsert` error. -/
theorem no_upsert_calls (evs : List Effect) (h : ∀ e ∈ evs, e.isIpcacheUpsert = false) :
    evs.filterMap Effect.upsertCall = [] ∧ surfacedUpsertErrors evs = [] := by
  induction evs with
  | nil => exact ⟨rfl, rfl⟩
  | cons a rest ih =>
    have ha := h a (List.mem_cons_self _ _)
    obtain ⟨h1, h2⟩ := ih (fun e he => h e (List.mem_cons_of_mem _ he))
    constructor
    · rw [List.filterMap_cons, upsertCall_none a ha]
      exact h1
    · have := surfacedUpsertErrors_append [a] rest
      simp only [List.singleton_append] at this
      rw [this, surfacedUpsertErrors_single a ha, h2]; rfl

/-- With a parsable protocol on every named port, storing the named ports succeeds. -/
theorem storeNamedPorts_ok {C S : Type} (k : K8sPodWatcher C S) (ports : List ContainerPort)
    (h : ∀ port ∈ ports, port.Name ≠ "" → (k.ParseProtocol port.Protocol).isSome = true)
    (m : List (String × PortProto)) : ∃ namedPorts, storeNamedPorts k ports m = .ok namedPorts := by
  induction ports generalizing m with
  | nil => exact ⟨m, rfl⟩
  | cons port rest ih =>
    have hrest : ∀ q ∈ rest, q.Name ≠ "" → (k.ParseProtocol q.Protocol).isSome = true :=
      fun q hq => h q (List.mem_cons_of_mem _ hq)
    simp only [storeNamedPorts]
    split
    · exact ih hrest m
    · rename_i hname
      have hs := h port (List.mem_cons_self _ _) (by simpa using hname)
      cases hp : k.ParseProtocol port.Protocol with
      | none => rw [hp] at hs; cases hs
      | some pr => exact ih hrest _

theorem upsertHostPortLoop_evs {C S : Type} (k : K8sPodWatcher C S) (newPod : Pod)
    (l : List LegacySVC) (s : S) :
    ∀ e ∈ (upsertHostPortLoop k newPod l s).evs, e.isUpsertService = true := by
  induction l generalizing s with
  | nil => simp [upsertHostPortLoop]
  | cons d rest ih =>
    intro e he
    simp only [upsertHostPortLoop] at he
    split at he
    · simp only [List.mem_singleton] at he
      subst he; rfl
    · rcases List.mem_cons.1 he with rfl | he
      · rfl
      · exact ih _ e he

theorem deleteOldHostPorts_evs {C S : Type} (k : K8sPodWatcher C S) (svcsAdded : List L3n4Addr)
    (l : List LegacySVC) (s : S) :
    ∀ e ∈ (deleteOldHostPorts k svcsAdded l s).evs, e.isDeleteService = true := by
  induction l generalizing s with
  | nil => simp [deleteOldHostPorts]
  | cons d rest ih =>
    intro e he
    simp only [deleteOldHostPorts] at he
    split at he
    · exact ih _ e he
    · rcases List.mem_cons.1 he with rfl | he
      · rfl
      · exact ih _ e he

theorem any_beq_eq_contains {α : Type} [DecidableEq α] (l : List α) (x : α) :
    l.any (fun a => x == a) = l.contains x := by
  induction l with
  | nil => rfl
  | cons b rest ih =>
    simp only [List.any_cons, List.contains_cons, ih]

/-- The frontends the deferred function of `upsertHostPortMapping` deletes: those of
the old services that are not among `svcsAdded`, in order. -/
theorem deleteOldHostPorts_frontends {C S : Type} (k : K8sPodWatcher C S)
    (svcsAdded : List L3n4Addr) (l : List LegacySVC) (s : S) :
    (deleteOldHostPorts k svcsAdded l s).evs.filterMap Effect.deletedFrontend =
      (l.map (fun dpSvc => dpSvc.Frontend.L3n4Addr)).filter (fun fe => !svcsAdded.contains fe) := by
  induction l generalizing s with
  | nil => rfl
  | cons d rest ih =>
    have hany : svcsAdded.any (fun a => d.Frontend.L3n4Addr == a) =
        svcsAdded.contains d.Frontend.L3n4Addr := any_beq_eq_contains svcsAdded _
    simp only [deleteOldHostPorts, List.map_cons, List.filter_cons, hany]
    split
    · rename_i hc
      simp only [hc, Bool.not_true, Bool.false_eq_true, if_false]
      exact ih s
    · rename_i hc
      simp only [hc, Bool.not_false, if_true, List.filterMap_cons, Effect.deletedFrontend, ih]

theorem upsertHostPortMapping_evs {C S : Type} (k : K8sPodWatcher C S) (oldPod : Option Pod)
    (newPod : Pod) (o n : List String) (s : S) :
    ∀ e ∈ (upsertHostPortMapping k oldPod newPod o n s).evs, e.isServiceWrite = true := by
  have hu : ∀ e : Effect, e.isUpsertService = true → e.isServiceWrite = true := by
    intro e he; cases e <;> first | rfl | cases he
  have hd : ∀ e : Effect, e.isDeleteService = true → e.isServiceWrite = true := by
    intro e he; cases e <;> first | rfl | cases he
  intro e he
  simp only [upsertHostPortMapping] at he
  split at he
  · simp at he
  · have hr : ∀ e ∈ (if ((genServiceMappings k newPod n).length == 0) = true then
          (⟨none, s, []⟩ : Ret (Option (GoError Source)) S)
        else upsertHostPortLoop k newPod (genServiceMappings k newPod n) s).evs,
        e.isServiceWrite = true := by
      intro e he
      split at he
      · simp at he
      · exact hu e (upsertHostPortLoop_evs k newPod _ s e he)
    split at he
    · exact hr e he
    · rcases List.mem_append.1 he with h | h
      · exact hr e h
      · exact hd e (deleteOldHostPorts_evs k _ _ _ e h)

theorem serviceWrite_not_upsert (e : Effect) (h : e.isServiceWrite = true) :
    e.isIpcacheUpsert = false := by
  cases e <;> first | rfl | cases h

/-- The `Upsert` calls of `updatePodHostData` on the add path, when the host IP parses
and the named ports are stored. -/
theorem updatePodHostData_add_calls {C S : Type} (k : K8sPodWatcher C S) (pod : Pod)
    (ips : IPSlice) (w : World C S) (hostIP : List Nat) (namedPorts : List (String × PortProto))
    (hnet : pod.Spec.HostNetwork = false) (hhost : k.ParseIP pod.Status.HostIP = some hostIP)
    (hnp : storeNamedPorts k (pod.Spec.Containers.flatMap (fun c => c.Ports)) [] = .ok namedPorts) :
    (updatePodHostData k none pod none ips w).evs.filterMap Effect.upsertCall =
      ips.elems.map (fun ip => (ip, hostIP, k.hostKey,
        (⟨pod.ObjectMeta.Namespace, pod.ObjectMeta.Name, namedPorts⟩ : K8sMetadata),
        unmanagedIdentity)) := by
  have hup := upsertPodIPs_calls k hostIP
    ⟨pod.ObjectMeta.Namespace, pod.ObjectMeta.Name, namedPorts⟩ ips.elems w.cache
  have hsvc := fun s => (no_upsert_calls _ (fun e he => serviceWrite_not_upsert e
    (upsertHostPortMapping_evs k none pod [] ips.elems s e he))).1
  have htrig : ∀ b : Bool, List.filterMap Effect.upsertCall
      (if b = true then [Effect.TriggerPolicyUpdates "Named ports added or updated"] else []) = [] := by
    intro b; cases b <;> rfl
  simp only [updatePodHostData, hnet, updatePodHostDataBody, specEqual, hostIPEqual, ipSliceEqual,
    hhost, hnp, Option.isSome_none, Bool.false_and, Bool.and_false, Bool.false_eq_true, if_false,
    Bool.not_false, if_true, IPSlice.elems, Option.getD_none, deleteStalePodIPs, Bool.or_false,
    Bool.or_true, Bool.and_true, List.append_nil]
  simp only [IPSlice.elems] at hup hsvc
  split
  · simp only [List.filterMap_append, hup, htrig, List.append_nil]
  · split
    · split <;> simp only [List.filterMap_append, hup, htrig, hsvc, List.append_nil]
    · simp only [List.filterMap_append, hup, htrig, List.append_nil]

/-- C6. Add upserts a placeholder for every valid IP.  For a running pod without host
networking whose status host IP parses and whose named ports all have a valid
protocol, the `Upsert` calls of the add handler are exactly one call for each valid pod
IP, in list order, each with the parsed host IP, metadata carrying the namespace and
name of the pod (and its named ports), identity `ReservedIdentityUnmanaged` and source
Kubernetes. -/
theorem addK8sPodV1_upserts_placeholders {C S : Type} (k : K8sPodWatcher C S) (pod : Pod)
    (w : World C S) (hostIP : List Nat) (hrun : IsPodRunning pod.Status = true)
    (hnet : pod.Spec.HostNetwork = false) (hhost : k.ParseIP pod.Status.HostIP = some hostIP)
    (hproto : ∀ c ∈ pod.Spec.Containers, ∀ port ∈ c.Ports, port.Name ≠ "" →
      (k.ParseProtocol port.Protocol).isSome = true) :
    ∃ namedPorts : List (String × PortProto),
      (addK8sPodV1 k pod w).evs.filterMap Effect.upsertCall =
        (k.ValidIPs pod.Status).elems.map (fun ip => (ip, hostIP, k.hostKey,
          (⟨pod.ObjectMeta.Namespace, pod.ObjectMeta.Name, namedPorts⟩ : K8sMetadata),
          (⟨.ReservedIdentityUnmanaged, .Kubernetes⟩ : Identity))) := by
  obtain ⟨namedPorts, hnp⟩ := storeNamedPorts_ok k (pod.Spec.Containers.flatMap (fun c => c.Ports))
    (by
      intro port hport
      obtain ⟨c, hc, hpc⟩ := List.mem_flatMap.1 hport
      exact hproto c hc port hpc) []
  refine ⟨namedPorts, ?_⟩
  have hcalls := updatePodHostData_add_calls k pod (k.ValidIPs pod.Status) w hostIP namedPorts
    hnet hhost hnp
  have hlrp : List.filterMap Effect.upsertCall
      (if k.cfg.EnableLocalRedirectPolicy = true then [Effect.lrpOnAddPod pod] else []) = [] := by
    split <;> rfl
  simp only [addK8sPodV1, hrun, hnet, Bool.not_true, Bool.false_eq_true, if_false, Bool.false_and]
  split
  · simp only [List.filterMap_append, hcalls, hlrp, List.append_nil]
    simp [Effect.upsertCall, unmanagedIdentity]
  · rename_i hlen
    have hnil : (k.ValidIPs pod.Status).elems = [] := by
      simpa [IPSlice.len] using hlen
    simp [hnil, Effect.upsertCall]

/-- Witness for C6: pod `ns/podA` with two pod IPs and a named port is added to an
empty world. -/
theorem addK8sPodV1_upserts_placeholders_witness :
    IsPodRunning refPodNamed.Status = true ∧ refPodNamed.Spec.HostNetwork = false ∧
    refK.ParseIP refPodNamed.Status.HostIP = some [192, 168, 1, 1] ∧
    (∃ namedPorts : List (String × PortProto),
      (addK8sPodV1 refK refPodNamed ⟨[], ⟨[], []⟩⟩).evs.filterMap Effect.upsertCall =
        (refK.ValidIPs refPodNamed.Status).elems.map (fun ip => (ip, [192, 168, 1, 1], refK.hostKey,
          (⟨"ns", "podA", namedPorts⟩ : K8sMetadata),
          (⟨.ReservedIdentityUnmanaged, .Kubernetes⟩ : Identity)))) ∧
    (addK8sPodV1 refK refPodNamed ⟨[], ⟨[], []⟩⟩).evs.filterMap Effect.upsertCall =
      [("10.0.0.5", [192, 168, 1, 1], 0, ⟨"ns", "podA", [("http", ⟨80, 6⟩)]⟩,
          ⟨.ReservedIdentityUnmanaged, .Kubernetes⟩),
        ("10.0.0.6", [192, 168, 1, 1], 0, ⟨"ns", "podA", [("http", ⟨80, 6⟩)]⟩,
          ⟨.ReservedIdentityUnmanaged, .Kubernetes⟩)] :=
  ⟨by decide, by decide, by decide,
    addK8sPodV1_upserts_placeholders refK refPodNamed ⟨[], ⟨[], []⟩⟩ [192, 168, 1, 1]
      (by decide) (by decide) (by decide) (by decide),
    by decide⟩

/-! ## Errors of the upserts -/

/-- The test `updatePodHostData` applies to the error of an `Upsert` accepts exactly
the three expected overwrite pairs. -/
theorem expectedOverwrite_iff (err : GoError Source) :
    expectedOverwrite err = true ↔ IsExpectedOverwritePair err := by
  obtain ⟨text, ov⟩ := err
  constructor
  · intro h
    simp only [expectedOverwrite, errorsIsOverwrite, Bool.or_eq_true, beq_iff_eq] at h
    rcases h with (h | h) | h
    · exact ⟨_, Or.inl rfl, h⟩
    · exact ⟨_, Or.inr (Or.inl rfl), h⟩
    · exact ⟨_, Or.inr (Or.inr rfl), h⟩
  · rintro ⟨e, he, hov⟩
    simp only at hov
    subst hov
    rcases he with rfl | rfl | rfl <;> simp [expectedOverwrite, errorsIsOverwrite]

/-- An `Upsert` call of a trace whose error is not an expected overwrite error has its
message among the surfaced ones. -/
theorem surfacedUpsertErrors_mem (evs : List Effect) (ip : String) (hIP : List Nat) (hk : Nat)
    (m : K8sMetadata) (id : Identity) (npc : Bool) (err : GoError Source)
    (hmem : Effect.ipcacheUpsert ip hIP hk m id npc (some err) ∈ evs)
    (hno : ¬ IsExpectedOverwritePair err) :
    ("ipcache entry for podIP " ++ ip ++ ": " ++ err.Error) ∈ surfacedUpsertErrors evs := by
  obtain ⟨pre, post, rfl⟩ := List.append_of_mem hmem
  have h1 := surfacedUpsertErrors_append pre (Effect.ipcacheUpsert ip hIP hk m id npc (some err) :: post)
  have h2 := surfacedUpsertErrors_append [Effect.ipcacheUpsert ip hIP hk m id npc (some err)] post
  simp only [List.singleton_append] at h2
  have hexp : expectedOverwrite err = false := by
    cases h : expectedOverwrite err with
    | false => rfl
    | true => exact absurd ((expectedOverwrite_iff err).1 h) hno
  rw [h1, h2, surfacedUpsertErrors_upsert, hexp]
  simp

/-- When every failed `Upsert` call of a trace returned an expected overwrite error,
no message is surfaced. -/
theorem surfacedUpsertErrors_nil (evs : List Effect)
    (h : ∀ ip hIP hk m id npc err, Effect.ipcacheUpsert ip hIP hk m id npc (some err) ∈ evs →
      IsExpectedOverwritePair err) : surfacedUpsertErrors evs = [] := by
  induction evs with
  | nil => rfl
  | cons a rest ih =>
    have h2 := surfacedUpsertErrors_append [a] rest
    simp only [List.singleton_append] at h2
    rw [h2, ih (fun ip hIP hk m id npc err hm => h ip hIP hk m id npc err (List.mem_cons_of_mem _ hm)),
      List.append_nil]
    cases a with
    | ipcacheUpsert ip hIP hk m id npc err =>
      cases err with
      | none => rfl
      | some e =>
        rw [surfacedUpsertErrors_upsert,
          (expectedOverwrite_iff e).2 (h ip hIP hk m id npc e (List.mem_cons_self _ _))]
        rfl
    | _ => rfl

theorem deleteStalePodIPs_evs {C S : Type} (k : K8sPodWatcher C S) (n : IPSlice)
    (l : List String) (c : C) :
    ∀ e ∈ (deleteStalePodIPs k n l c).evs, ∃ ip npc, e = .ipcacheDelete ip .Kubernetes npc := by
  induction l generalizing c with
  | nil => simp [deleteStalePodIPs]
  | cons ip rest ih =>
    intro e he
    simp only [deleteStalePodIPs] at he
    split at he
    · exact ih _ e he
    · rcases List.mem_cons.1 he with rfl | he
      · exact ⟨_, _, rfl⟩
      · exact ih _ e he

theorem no_upsert_tail_two (a c d : List Effect) (hc : ∀ e ∈ c, e.isIpcacheUpsert = false)
    (hd : ∀ e ∈ d, e.isIpcacheUpsert = false) :
    ∃ tail : List Effect, (∀ e ∈ tail, e.isIpcacheUpsert = false) ∧ a ++ c ++ d = a ++ tail := by
  refine ⟨c ++ d, ?_, List.append_assoc _ _ _⟩
  intro e he
  rcases List.mem_append.1 he with h | h
  · exact hc e h
  · exact hd e h

theorem no_upsert_tail_three (a b c d : List Effect) (hb : ∀ e ∈ b, e.isIpcacheUpsert = false)
    (hc : ∀ e ∈ c, e.isIpcacheUpsert = false) (hd : ∀ e ∈ d, e.isIpcacheUpsert = false) :
    ∃ tail : List Effect, (∀ e ∈ tail, e.isIpcacheUpsert = false) ∧
      a ++ b ++ c ++ d = a ++ tail := by
  refine ⟨b ++ (c ++ d), ?_, by simp [List.append_assoc]⟩
  intro e he
  rcases List.mem_append.1 he with h | h
  · exact hb e h
  · rcases List.mem_append.1 h with h | h
    · exact hc e h
    · exact hd e h

/-- What `updatePodHostData` returns and calls once it reaches the loop over the new pod
IPs: the calls of the loop come first and no `Upsert` follows them; the error joins
`errs` when there is one, and is the host-port error when there is none and the
host-port reconciliation, if due, failed. -/
theorem updatePodHostData_reach {C S : Type} (k : K8sPodWatcher C S) (oldPod : Option Pod)
    (newPod : Pod) (o n : IPSlice) (w : World C S) (hostIP : List Nat)
    (namedPorts : List (String × PortProto)) (hnet : newPod.Spec.HostNetwork = false)
    (hchg : (specEqual oldPod newPod && hostIPEqual oldPod newPod && ipSliceEqual o n) = false)
    (hhost : k.ParseIP newPod.Status.HostIP = some hostIP)
    (hnp : storeNamedPorts k (newPod.Spec.Containers.flatMap (fun c => c.Ports)) [] =
      .ok namedPorts) :
    (∃ tail : List Effect, (∀ e ∈ tail, e.isIpcacheUpsert = false) ∧
      (updatePodHostData k oldPod newPod o n w).evs =
        (upsertPodIPs k hostIP ⟨newPod.ObjectMeta.Namespace, newPod.ObjectMeta.Name, namedPorts⟩
          n.elems w.cache).evs ++ tail) ∧
    (updatePodHostData k oldPod newPod o n w).val =
      if (upsertPodIPs k hostIP ⟨newPod.ObjectMeta.Namespace, newPod.ObjectMeta.Name, namedPorts⟩
          n.elems w.cache).val.1 ≠ [] then
        some (errorsNew (", ".intercalate (upsertPodIPs k hostIP
          ⟨newPod.ObjectMeta.Namespace, newPod.ObjectMeta.Name, namedPorts⟩ n.elems w.cache).val.1))
      else if ((newPod.Spec.NodeName == k.cfg.NodeName) &&
          (!specEqual oldPod newPod || !ipSliceEqual o n) &&
          (upsertHostPortMapping k oldPod newPod o.elems n.elems w.svcs).val.isSome) = true then
        some (errorsNew ("cannot upsert hostPort for PodIPs: " ++ fmtSlice n))
      else none := by
  have hdel : ∀ c : C, ∀ e ∈ (if (!ipSliceEqual o n) = true then deleteStalePodIPs k n o.elems c
      else (⟨false, c, []⟩ : Ret Bool C)).evs, e.isIpcacheUpsert = false := by
    intro c e he
    split at he
    · obtain ⟨ip, npc, rfl⟩ := deleteStalePodIPs_evs k n _ _ e he
      rfl
    · simp at he
  have htrig : ∀ b : Bool, ∀ e ∈ (if b = true then
      [Effect.TriggerPolicyUpdates "Named ports added or updated"] else []),
      e.isIpcacheUpsert = false := by
    intro b e he
    cases b <;> simp at he
    subst he; rfl
  have hsvc := fun e he => serviceWrite_not_upsert e
    (upsertHostPortMapping_evs k oldPod newPod o.elems n.elems w.svcs e he)
  simp only [updatePodHostData, hnet, updatePodHostDataBody, hchg, hhost, hnp,
    Bool.false_eq_true, if_false]
  by_cases herrs : (upsertPodIPs k hostIP
      ⟨newPod.ObjectMeta.Namespace, newPod.ObjectMeta.Name, namedPorts⟩ n.elems w.cache).val.1 = []
  · simp only [herrs, List.length_nil, bne_self_eq_false, Bool.false_eq_true, if_false,
      ne_eq, not_true_eq_false]
    by_cases hrec : ((newPod.Spec.NodeName == k.cfg.NodeName) &&
        (!specEqual oldPod newPod || !ipSliceEqual o n)) = true
    · simp only [hrec, if_true, Bool.true_and]
      cases hval : (upsertHostPortMapping k oldPod newPod o.elems n.elems w.svcs).val with
      | none =>
        simp only [Option.isSome_none, Bool.false_eq_true, if_false, and_true]
        exact no_upsert_tail_three _ _ _ _ hsvc (hdel _) (htrig _)
      | some err =>
        simp only [Option.isSome_some, if_true, and_true]
        exact no_upsert_tail_three _ _ _ _ hsvc (hdel _) (htrig _)
    · simp only [hrec, Bool.false_eq_true, if_false, Bool.false_and, and_true]
      exact no_upsert_tail_two _ _ _ (hdel _) (htrig _)
  · have hlen : ((upsertPodIPs k hostIP
        ⟨newPod.ObjectMeta.Namespace, newPod.ObjectMeta.Name, namedPorts⟩ n.elems w.cache).val.1.length
          != 0) = true := by
      simpa using herrs
    simp only [hlen, if_true, ne_eq, herrs, not_false_eq_true, and_true]
    exact no_upsert_tail_two _ _ _ (hdel _) (htrig _)

/-- Once `updatePodHostData` reaches the loop over the new pod IPs, the messages its
trace surfaces are the `errs` of the loop, and the `Upsert` calls of its trace are those
of the loop. -/
theorem updatePodHostData_reach_trace {C S : Type} (k : K8sPodWatcher C S) (oldPod : Option Pod)
    (newPod : Pod) (o n : IPSlice) (w : World C S) (hostIP : List Nat)
    (namedPorts : List (String × PortProto)) (hnet : newPod.Spec.HostNetwork = false)
    (hchg : (specEqual oldPod newPod && hostIPEqual oldPod newPod && ipSliceEqual o n) = false)
    (hhost : k.ParseIP newPod.Status.HostIP = some hostIP)
    (hnp : storeNamedPorts k (newPod.Spec.Containers.flatMap (fun c => c.Ports)) [] =
      .ok namedPorts) :
    surfacedUpsertErrors (updatePodHostData k oldPod newPod o n w).evs =
      (upsertPodIPs k hostIP ⟨newPod.ObjectMeta.Namespace, newPod.ObjectMeta.Name, namedPorts⟩
        n.elems w.cache).val.1 ∧
    (updatePodHostData k oldPod newPod o n w).evs.filterMap Effect.upsertCall =
      n.elems.map (fun ip => (ip, hostIP, k.hostKey,
        (⟨newPod.ObjectMeta.Namespace, newPod.ObjectMeta.Name, namedPorts⟩ : K8sMetadata),
        unmanagedIdentity)) := by
  obtain ⟨⟨tail, htail, hevs⟩, -⟩ :=
    updatePodHostData_reach k oldPod newPod o n w hostIP namedPorts hnet hchg hhost hnp
  obtain ⟨h1, h2⟩ := no_upsert_calls tail htail
  rw [hevs, surfacedUpsertErrors_append, h2, List.append_nil, List.filterMap_append, h1,
    List.append_nil, ← upsertPodIPs_errs, upsertPodIPs_calls]
  exact ⟨rfl, rfl⟩

/-- C7. Expected overwrite pairs.  The test `updatePodHostData` applies to the error of
an `Upsert` suppresses it if and only if it is an overwrite error whose attempted
source is Kubernetes and whose existing source is KVStore, Local or CustomResource.
Once the function reaches its loop over the new pod IPs (no host networking, some
change, parsable host IP, valid protocols on the named ports): every `Upsert` call
that returned any other error has its message, naming the IP, in the error the
function returns; and if every error the `Upsert` calls returned is one of the three
expected ones, the function returns nil or the host-port error, never an ipcache
error. -/
theorem updatePodHostData_expected_overwrite_pairs {C S : Type} (k : K8sPodWatcher C S)
    (oldPod : Option Pod) (newPod : Pod) (o n : IPSlice) (w : World C S) (hostIP : List Nat)
    (hnet : newPod.Spec.HostNetwork = false)
    (hchg : (specEqual oldPod newPod && hostIPEqual oldPod newPod && ipSliceEqual o n) = false)
    (hhost : k.ParseIP newPod.Status.HostIP = some hostIP)
    (hproto : ∀ c ∈ newPod.Spec.Containers, ∀ port ∈ c.Ports, port.Name ≠ "" →
      (k.ParseProtocol port.Protocol).isSome = true) :
    (∀ err : GoError Source, expectedOverwrite err = true ↔ IsExpectedOverwritePair err) ∧
    (∀ ip hIP hk m id npc err,
      Effect.ipcacheUpsert ip hIP hk m id npc (some err) ∈
        (updatePodHostData k oldPod newPod o n w).evs →
      ¬ IsExpectedOverwritePair err →
      ∃ msgs, (updatePodHostData k oldPod newPod o n w).val =
          some (errorsNew (", ".intercalate msgs)) ∧
        ("ipcache entry for podIP " ++ ip ++ ": " ++ err.Error) ∈ msgs) ∧
    ((∀ ip hIP hk m id npc err,
      Effect.ipcacheUpsert ip hIP hk m id npc (some err) ∈
        (updatePodHostData k oldPod newPod o n w).evs → IsExpectedOverwritePair err) →
      (updatePodHostData k oldPod newPod o n w).val = none ∨
      (updatePodHostData k oldPod newPod o n w).val =
        some (errorsNew ("cannot upsert hostPort for PodIPs: " ++ fmtSlice n))) := by
  obtain ⟨namedPorts, hnp⟩ := storeNamedPorts_ok k
    (newPod.Spec.Containers.flatMap (fun c => c.Ports))
    (by
      intro port hport
      obtain ⟨c, hc, hpc⟩ := List.mem_flatMap.1 hport
      exact hproto c hc port hpc) []
  obtain ⟨-, hval⟩ :=
    updatePodHostData_reach k oldPod newPod o n w hostIP namedPorts hnet hchg hhost hnp
  obtain ⟨herrs, -⟩ :=
    updatePodHostData_reach_trace k oldPod newPod o n w hostIP namedPorts hnet hchg hhost hnp
  rw [← herrs] at hval
  refine ⟨expectedOverwrite_iff, ?_, ?_⟩
  · intro ip hIP hk m id npc err hmem hno
    have hin := surfacedUpsertErrors_mem _ ip hIP hk m id npc err hmem hno
    refine ⟨surfacedUpsertErrors (updatePodHostData k oldPod newPod o n w).evs, ?_, hin⟩
    rw [hval, if_pos]
    intro hnil
    rw [hnil] at hin
    cases hin
  · intro hall
    have hnil := surfacedUpsertErrors_nil _ hall
    rw [hval, hnil]
    simp only [ne_eq, not_true_eq_false, if_false]
    split
    · exact Or.inr rfl
    · exact Or.inl rfl

/-- Witness for C7: the ipcache holds 10.0.0.5 for the source Local and fails for
10.0.0.6 with another error; the overwrite error for 10.0.0.5 is suppressed, the error
for 10.0.0.6 is returned. -/
theorem updatePodHostData_expected_overwrite_pairs_witness :
    refPodNamed.Spec.HostNetwork = false ∧
    refKFailing.ParseIP refPodNamed.Status.HostIP = some [192, 168, 1, 1] ∧
    (updatePodHostData refKFailing none refPodNamed none (some ["10.0.0.5", "10.0.0.6"])
      refWorldHeld).val =
      some (errorsNew "ipcache entry for podIP 10.0.0.6: datapath error") ∧
    (∃ msgs, (updatePodHostData refKFailing none refPodNamed none (some ["10.0.0.5", "10.0.0.6"])
        refWorldHeld).val = some (errorsNew (", ".intercalate msgs)) ∧
      ("ipcache entry for podIP " ++ "10.0.0.6" ++ ": " ++ "datapath error") ∈ msgs) :=
  ⟨by decide, by decide, by decide,
    (updatePodHostData_expected_overwrite_pairs refKFailing none refPodNamed none
      (some ["10.0.0.5", "10.0.0.6"]) refWorldHeld [192, 168, 1, 1] (by decide) (by decide)
      (by decide) (by decide)).2.1 "10.0.0.6" [192, 168, 1, 1] 0
      ⟨"ns", "podA", [("http", ⟨80, 6⟩)]⟩ ⟨.ReservedIdentityUnmanaged, .Kubernetes⟩ false
      ⟨"datapath error", none⟩ (by decide) (by rintro ⟨e, -, h⟩; cases h)⟩

/-- Counterexample for C8: pod `ns/podA` with host port 8080 is added on the local node;
the one `Upsert` succeeds, the service table refuses the frontend 0.0.0.0:8080, and
`updatePodHostData` returns an error although no `Upsert` returned one.  And for a pod
whose status host IP does not parse, `updatePodHostData` returns an error without
calling `Upsert` for the pod IP in its list. -/
theorem updatePodHostData_error_without_upsert_error :
    ¬ ((updatePodHostData refK none refPodHostPort none (some ["10.0.0.5"])
          refWorldRejecting).val ≠ none ↔
        surfacedUpsertErrors (updatePodHostData refK none refPodHostPort none (some ["10.0.0.5"])
          refWorldRejecting).evs ≠ []) ∧
    ((updatePodHostData refK none refPodBadHost none (some ["10.0.0.5"]) refWorldB).val =
        some (errorsNew "no/invalid HostIP: bogus") ∧
      (updatePodHostData refK none refPodBadHost none (some ["10.0.0.5"]) refWorldB).evs = []) := by
  decide

/-- C8, amended.  Once `updatePodHostData` reaches its loop over the new pod IPs (no
host networking, some change, parsable host IP, valid protocols on the named ports),
it calls `Upsert` for every address of the list, in order, whatever the earlier calls
returned.  When at least one call returned an error that is not suppressed, it returns
the single error joining one message for each such call, naming its IP, with ", ".
When none did, it returns nil, unless the host-port reconciliation was due (pod on the
local node, spec or IP list changed) and failed: then it returns the host-port
error. -/
theorem updatePodHostData_aggregates_upsert_errors {C S : Type} (k : K8sPodWatcher C S)
    (oldPod : Option Pod) (newPod : Pod) (o n : IPSlice) (w : World C S) (hostIP : List Nat)
    (hnet : newPod.Spec.HostNetwork = false)
    (hchg : (specEqual oldPod newPod && hostIPEqual oldPod newPod && ipSliceEqual o n) = false)
    (hhost : k.ParseIP newPod.Status.HostIP = some hostIP)
    (hproto : ∀ c ∈ newPod.Spec.Containers, ∀ port ∈ c.Ports, port.Name ≠ "" →
      (k.ParseProtocol port.Protocol).isSome = true) :
    ((updatePodHostData k oldPod newPod o n w).evs.filterMap Effect.upsertCall).map
        (fun call => call.1) = n.elems ∧
    (updatePodHostData k oldPod newPod o n w).val =
      if surfacedUpsertErrors (updatePodHostData k oldPod newPod o n w).evs ≠ [] then
        some (errorsNew (", ".intercalate
          (surfacedUpsertErrors (updatePodHostData k oldPod newPod o n w).evs)))
      else if ((newPod.Spec.NodeName == k.cfg.NodeName) &&
          (!specEqual oldPod newPod || !ipSliceEqual o n) &&
          (upsertHostPortMapping k oldPod newPod o.elems n.elems w.svcs).val.isSome) = true then
        some (errorsNew ("cannot upsert hostPort for PodIPs: " ++ fmtSlice n))
      else none := by
  obtain ⟨namedPorts, hnp⟩ := storeNamedPorts_ok k
    (newPod.Spec.Containers.flatMap (fun c => c.Ports))
    (by
      intro port hport
      obtain ⟨c, hc, hpc⟩ := List.mem_flatMap.1 hport
      exact hproto c hc port hpc) []
  obtain ⟨-, hval⟩ :=
    updatePodHostData_reach k oldPod newPod o n w hostIP namedPorts hnet hchg hhost hnp
  obtain ⟨herrs, hcalls⟩ :=
    updatePodHostData_reach_trace k oldPod newPod o n w hostIP namedPorts hnet hchg hhost hnp
  rw [← herrs] at hval
  refine ⟨?_, hval⟩
  rw [hcalls, List.map_map]
  exact List.map_id _

/-- Witness for C8: the ipcache holds 10.0.0.5 for the source Local and fails for
10.0.0.6; both addresses are attempted and the error of 10.0.0.6 is returned. -/
theorem updatePodHostData_aggregates_upsert_errors_witness :
    refPodNamed.Spec.HostNetwork = false ∧
    refKFailing.ParseIP refPodNamed.Status.HostIP = some [192, 168, 1, 1] ∧
    ((updatePodHostData refKFailing none refPodNamed none (some ["10.0.0.6", "10.0.0.5"])
        refWorldHeld).evs.filterMap Effect.upsertCall).map (fun call => call.1) =
      ["10.0.0.6", "10.0.0.5"] ∧
    surfacedUpsertErrors (updatePodHostData refKFailing none refPodNamed none
        (some ["10.0.0.6", "10.0.0.5"]) refWorldHeld).evs =
      ["ipcache entry for podIP 10.0.0.6: datapath error"] :=
  ⟨by decide, by decide,
    (updatePodHostData_aggregates_upsert_errors refKFailing none refPodNamed none
      (some ["10.0.0.6", "10.0.0.5"]) refWorldHeld [192, 168, 1, 1] (by decide) (by decide)
      (by decide) (by decide)).1,
    by decide⟩

/-! ## Deleting and replacing host-port services -/

/-- The host-port deletion loop over a list that was run through without an error goes
on with the rest of the list. -/
theorem deleteHostPortLoop_append {C S : Type} (k : K8sPodWatcher C S) (pod : Pod)
    (pre l : List LegacySVC) (s : S) (h : (deleteHostPortLoop k pod pre s).val = none) :
    (deleteHostPortLoop k pod (pre ++ l) s).evs =
      (deleteHostPortLoop k pod pre s).evs ++
        (deleteHostPortLoop k pod l (deleteHostPortLoop k pod pre s).st).evs := by
  induction pre generalizing s with
  | nil => rfl
  | cons d rest ih =>
    simp only [List.cons_append, deleteHostPortLoop] at h ⊢
    split
    · rename_i hown
      simp only [hown, if_true] at h
      exact congrArg (List.cons _) (ih s h)
    · rename_i hown
      simp only [hown, Bool.false_eq_true, if_false] at h
      split
      · rename_i err herr
        simp only [herr] at h
        cases h
      · rename_i herr
        simp only [herr] at h
        exact congrArg (fun t => _ :: _ :: t) (ih _ h)

/-- The calls of the host-port deletion loop never start with a `DeleteService`. -/
theorem deleteHostPortLoop_head {C S : Type} (k : K8sPodWatcher C S) (pod : Pod)
    (l : List LegacySVC) (s : S) (fe : L3n4Addr) (err : Option (GoError Source))
    (tl : List Effect) : (deleteHostPortLoop k pod l s).evs ≠ .DeleteService fe err :: tl := by
  cases l with
  | nil => simp [deleteHostPortLoop]
  | cons d rest =>
    simp only [deleteHostPortLoop]
    split
    · simp
    · split <;> simp

/-- Counterexample for C9: on a node with the address 192.168.1.10 the pod `ns/podA`
with host port 8080 is deleted while the service table holds its services at
192.168.1.10:8080 and 0.0.0.0:8080 and the delete at the first frontend fails.  The
frontend 0.0.0.0:8080 is in the computed service set and the service stored there has
the pod's service name and the computed backends, yet `DeleteService` is not called
for it: the function has returned the error of the first delete. -/
theorem deleteHostPortMapping_stops_at_error :
    refKNode.cfg.EnableHostPort = true ∧
    refHostPortSvc (.v4 0 0 0 0) ∈ genServiceMappings refKNode refPodHostPort ["10.0.0.5"] ∧
    (∃ svc, refKNode.svcGetDeepCopyServiceByFrontend refTableOwned (refFrontend (.v4 0 0 0 0)) =
        some svc ∧
      svc.Name = hostPortServiceName refPodHostPort 8080 "" ∧
      refKNode.DeepEqualBackends svc.Backends (refHostPortSvc (.v4 0 0 0 0)).Backends = true) ∧
    refFrontend (.v4 0 0 0 0) ∉
      (deleteHostPortMapping refKNode refPodHostPort ["10.0.0.5"] refTableOwned).evs.filterMap
        Effect.deletedFrontend ∧
    (deleteHostPortMapping refKNode refPodHostPort ["10.0.0.5"] refTableOwned).val =
      some (errorsNew "service delete failed") :=
  ⟨by decide, by decide, ⟨refOwnedSvc (.v4 0 0 0 0), by decide, by decide, by decide⟩,
    by decide, by decide⟩

/-- C9, amended.  With host-port support enabled, for every service d of the set
computed from the deleted pod that the loop of `deleteHostPortMapping` reaches, that
is, when `DeleteService` failed for none of the services before d: the loop looks up
the service stored at the frontend of d, and the next call is `DeleteService` for that
frontend if and only if no service is stored there or the stored service has the name
`hostPortServiceName(pod, frontend port)` and backends equal to those computed for d.
Otherwise the stored service is left in place and the loop goes on with the services
after d from the unchanged table. -/
theorem deleteHostPortMapping_ownership_verified {C S : Type} (k : K8sPodWatcher C S) (pod : Pod)
    (podIPs : List String) (s : S) (pre post : List LegacySVC) (d : LegacySVC)
    (hen : k.cfg.EnableHostPort = true)
    (hsplit : genServiceMappings k pod podIPs = pre ++ d :: post)
    (hpre : (deleteHostPortLoop k pod pre s).val = none) :
    ∃ rest : List Effect,
      (deleteHostPortMapping k pod podIPs s).evs =
        (deleteHostPortLoop k pod pre s).evs ++
          (.GetDeepCopyServiceByFrontend d.Frontend.L3n4Addr
            (k.svcGetDeepCopyServiceByFrontend (deleteHostPortLoop k pod pre s).st
              d.Frontend.L3n4Addr) :: rest) ∧
      ((∃ err rest1, rest = .DeleteService d.Frontend.L3n4Addr err :: rest1) ↔
        (k.svcGetDeepCopyServiceByFrontend (deleteHostPortLoop k pod pre s).st
            d.Frontend.L3n4Addr = none ∨
          ∃ svc, k.svcGetDeepCopyServiceByFrontend (deleteHostPortLoop k pod pre s).st
              d.Frontend.L3n4Addr = some svc ∧
            svc.Name = hostPortServiceName pod d.Frontend.L3n4Addr.L4Addr.Port "" ∧
            k.DeepEqualBackends svc.Backends d.Backends = true)) ∧
      (hostPortNotOwned k pod (k.svcGetDeepCopyServiceByFrontend
          (deleteHostPortLoop k pod pre s).st d.Frontend.L3n4Addr) d = true →
        rest = (deleteHostPortLoop k pod post (deleteHostPortLoop k pod pre s).st).evs) := by
  have hown_iff : hostPortNotOwned k pod (k.svcGetDeepCopyServiceByFrontend
        (deleteHostPortLoop k pod pre s).st d.Frontend.L3n4Addr) d = false ↔
      (k.svcGetDeepCopyServiceByFrontend (deleteHostPortLoop k pod pre s).st
          d.Frontend.L3n4Addr = none ∨
        ∃ svc, k.svcGetDeepCopyServiceByFrontend (deleteHostPortLoop k pod pre s).st
            d.Frontend.L3n4Addr = some svc ∧
          svc.Name = hostPortServiceName pod d.Frontend.L3n4Addr.L4Addr.Port "" ∧
          k.DeepEqualBackends svc.Backends d.Backends = true) := by
    cases k.svcGetDeepCopyServiceByFrontend (deleteHostPortLoop k pod pre s).st
        d.Frontend.L3n4Addr with
    | none => simp [hostPortNotOwned]
    | some svc => simp [hostPortNotOwned]
  have hevs : (deleteHostPortMapping k pod podIPs s).evs =
      (deleteHostPortLoop k pod pre s).evs ++
        (deleteHostPortLoop k pod (d :: post) (deleteHostPortLoop k pod pre s).st).evs := by
    simp only [deleteHostPortMapping, hen, hsplit, Bool.not_true, Bool.false_eq_true, if_false,
      List.length_append, List.length_cons]
    rw [if_neg (by simp)]
    exact deleteHostPortLoop_append k pod pre (d :: post) s hpre
  rw [hevs]
  simp only [deleteHostPortLoop]
  by_cases hown : hostPortNotOwned k pod (k.svcGetDeepCopyServiceByFrontend
      (deleteHostPortLoop k pod pre s).st d.Frontend.L3n4Addr) d = true
  · simp only [hown, if_true]
    refine ⟨_, rfl, ?_, fun _ => rfl⟩
    constructor
    · rintro ⟨err, rest1, h⟩
      exact absurd h (deleteHostPortLoop_head k pod post _ _ _ _)
    · intro h
      rw [← hown_iff, hown] at h
      cases h
  · have hfalse : hostPortNotOwned k pod (k.svcGetDeepCopyServiceByFrontend
        (deleteHostPortLoop k pod pre s).st d.Frontend.L3n4Addr) d = false := by
      simpa using hown
    simp only [hfalse, Bool.false_eq_true, if_false]
    split
    · refine ⟨_, rfl, ?_, fun h => by cases h⟩
      exact ⟨fun _ => hown_iff.1 hfalse, fun _ => ⟨_, _, rfl⟩⟩
    · refine ⟨_, rfl, ?_, fun h => by cases h⟩
      exact ⟨fun _ => hown_iff.1 hfalse, fun _ => ⟨_, _, rfl⟩⟩

/-- Witness for C9: the table holds a service of another pod at 192.168.1.10:8080 and
nothing at 0.0.0.0:8080; the first is looked up and left in place, the second is
deleted. -/
theorem deleteHostPortMapping_ownership_verified_witness :
    refKNode.cfg.EnableHostPort = true ∧
    genServiceMappings refKNode refPodHostPort ["10.0.0.5"] =
      [refHostPortSvc (.v4 192 168 1 10)] ++ refHostPortSvc (.v4 0 0 0 0) :: [] ∧
    (deleteHostPortLoop refKNode refPodHostPort [refHostPortSvc (.v4 192 168 1 10)]
      refTableOther).val = none ∧
    (∃ rest : List Effect,
      (deleteHostPortMapping refKNode refPodHostPort ["10.0.0.5"] refTableOther).evs =
        (deleteHostPortLoop refKNode refPodHostPort [refHostPortSvc (.v4 192 168 1 10)]
          refTableOther).evs ++
          (.GetDeepCopyServiceByFrontend (refFrontend (.v4 0 0 0 0)) none :: rest) ∧
      ∃ err rest1, rest = .DeleteService (refFrontend (.v4 0 0 0 0)) err :: rest1) ∧
    (deleteHostPortMapping refKNode refPodHostPort ["10.0.0.5"] refTableOther).st =
      refTableOther := by
  refine ⟨by decide, by decide, by decide, ?_, by decide⟩
  obtain ⟨rest, h1, h2, -⟩ := deleteHostPortMapping_ownership_verified refKNode refPodHostPort
    ["10.0.0.5"] refTableOther [refHostPortSvc (.v4 192 168 1 10)] []
    (refHostPortSvc (.v4 0 0 0 0)) (by decide) (by decide) (by decide)
  exact ⟨rest, h1, h2.2 (Or.inl (by decide))⟩

theorem upsertService_no_deletedFrontend (evs : List Effect)
    (h : ∀ e ∈ evs, e.isUpsertService = true) : evs.filterMap Effect.deletedFrontend = [] := by
  induction evs with
  | nil => rfl
  | cons a rest ih =>
    have ha := h a (List.mem_cons_self _ _)
    have hnone : Effect.deletedFrontend a = none := by
      cases a <;> first | rfl | cases ha
    rw [List.filterMap_cons, hnone]
    exact ih (fun e he => h e (List.mem_cons_of_mem _ he))

/-- C10. Service diff on update.  With host-port support enabled and an old pod, the
calls of `upsertHostPortMapping` are `UpsertService` calls followed by `DeleteService`
calls, and the frontends of the `DeleteService` calls are, in order, the frontends of
the services computed from the old pod and its IPs that are not frontends of the
services computed from the new pod and its IPs.  So a frontend is deleted if and only
if it is in the old set and not in the new one; this holds whatever the upserts
returned and also when the new set is empty. -/
theorem upsertHostPortMapping_service_diff {C S : Type} (k : K8sPodWatcher C S)
    (oldPod newPod : Pod) (oldPodIPs newPodIPs : List String) (s : S)
    (hen : k.cfg.EnableHostPort = true) :
    (∃ ups dels : List Effect,
      (upsertHostPortMapping k (some oldPod) newPod oldPodIPs newPodIPs s).evs = ups ++ dels ∧
      (∀ e ∈ ups, e.isUpsertService = true) ∧ (∀ e ∈ dels, e.isDeleteService = true)) ∧
    (upsertHostPortMapping k (some oldPod) newPod oldPodIPs newPodIPs s).evs.filterMap
        Effect.deletedFrontend =
      ((genServiceMappings k oldPod oldPodIPs).map (fun dpSvc => dpSvc.Frontend.L3n4Addr)).filter
        (fun fe => !((genServiceMappings k newPod newPodIPs).map
          (fun dpSvc => dpSvc.Frontend.L3n4Addr)).contains fe) ∧
    (∀ fe, fe ∈ (upsertHostPortMapping k (some oldPod) newPod oldPodIPs newPodIPs s).evs.filterMap
        Effect.deletedFrontend ↔
      fe ∈ (genServiceMappings k oldPod oldPodIPs).map (fun dpSvc => dpSvc.Frontend.L3n4Addr) ∧
      fe ∉ (genServiceMappings k newPod newPodIPs).map (fun dpSvc => dpSvc.Frontend.L3n4Addr)) := by
  have hups : ∀ e ∈ (if ((genServiceMappings k newPod newPodIPs).length == 0) = true then
        (⟨none, s, []⟩ : Ret (Option (GoError Source)) S)
      else upsertHostPortLoop k newPod (genServiceMappings k newPod newPodIPs) s).evs,
      e.isUpsertService = true := by
    intro e he
    split at he
    · simp at he
    · exact upsertHostPortLoop_evs k newPod _ s e he
  have hdiff : (upsertHostPortMapping k (some oldPod) newPod oldPodIPs newPodIPs s).evs.filterMap
        Effect.deletedFrontend =
      ((genServiceMappings k oldPod oldPodIPs).map (fun dpSvc => dpSvc.Frontend.L3n4Addr)).filter
        (fun fe => !((genServiceMappings k newPod newPodIPs).map
          (fun dpSvc => dpSvc.Frontend.L3n4Addr)).contains fe) := by
    simp only [upsertHostPortMapping, hen, Bool.not_true, Bool.false_eq_true, if_false,
      List.filterMap_append, upsertService_no_deletedFrontend _ hups, List.nil_append,
      deleteOldHostPorts_frontends]
  refine ⟨?_, hdiff, ?_⟩
  · refine ⟨_, (deleteOldHostPorts k
      ((genServiceMappings k newPod newPodIPs).map (fun dpSvc => dpSvc.Frontend.L3n4Addr))
      (genServiceMappings k oldPod oldPodIPs)
      (if ((genServiceMappings k newPod newPodIPs).length == 0) = true then
        (⟨none, s, []⟩ : Ret (Option (GoError Source)) S)
      else upsertHostPortLoop k newPod (genServiceMappings k newPod newPodIPs) s).st).evs,
      ?_, hups, deleteOldHostPorts_evs k _ _ _⟩
    simp only [upsertHostPortMapping, hen, Bool.not_true, Bool.false_eq_true, if_false]
  · intro fe
    rw [hdiff, List.mem_filter]
    simp

/-- Witness for C10: pod `ns/podA` moves its host port from 8080 to 9090; the service at
0.0.0.0:9090 is upserted, then the one at 0.0.0.0:8080 is deleted. -/
theorem upsertHostPortMapping_service_diff_witness :
    refK.cfg.EnableHostPort = true ∧
    (upsertHostPortMapping refK (some refPodHostPort) refPodHostPort2 ["10.0.0.5"] ["10.0.0.5"]
        ⟨[], []⟩).evs.filterMap Effect.deletedFrontend = [refFrontend (.v4 0 0 0 0)] ∧
    (upsertHostPortMapping refK (some refPodHostPort) refPodHostPort2 ["10.0.0.5"] ["10.0.0.5"]
        ⟨[], []⟩).evs.filterMap Effect.deletedFrontend =
      ((genServiceMappings refK refPodHostPort ["10.0.0.5"]).map
        (fun dpSvc => dpSvc.Frontend.L3n4Addr)).filter
        (fun fe => !((genServiceMappings refK refPodHostPort2 ["10.0.0.5"]).map
          (fun dpSvc => dpSvc.Frontend.L3n4Addr)).contains fe) :=
  ⟨by decide, by decide,
    (upsertHostPortMapping_service_diff refK refPodHostPort refPodHostPort2 ["10.0.0.5"]
      ["10.0.0.5"] ⟨[], []⟩ (by decide)).2.1⟩

/-- C11, evaluated at the failing input: pod `ns/podA` is updated from host port 8080 to
host port 9090 while the service table holds, at 0.0.0.0:8080, the service of `ns/podB`.
The guard of `deleteHostPortMapping` finds that service not owned by `ns/podA` and a
delete of the pod leaves it in place; the update makes no lookup, calls `DeleteService`
for 0.0.0.0:8080 and removes the service of `ns/podB`. -/
theorem upsertHostPortMapping_deletes_foreign_service :
    hostPortNotOwned refK refPodHostPort
      (refK.svcGetDeepCopyServiceByFrontend refTablePodB (refFrontend (.v4 0 0 0 0)))
      (refHostPortSvc (.v4 0 0 0 0)) = true ∧
    (deleteHostPortMapping refK refPodHostPort ["10.0.0.5"] refTablePodB).st = refTablePodB ∧
    (upsertHostPortMapping refK (some refPodHostPort) refPodHostPort2 ["10.0.0.5"] ["10.0.0.5"]
      refTablePodB).evs =
      [.UpsertService (hostPortUpsertArg refPodHostPort2
          { refHostPortSvc (.v4 0 0 0 0) with
            Frontend := ⟨{ refFrontend (.v4 0 0 0 0) with L4Addr := ⟨"TCP", 9090⟩ }, 0⟩ }) none,
        .DeleteService (refFrontend (.v4 0 0 0 0)) none] ∧
    refK.svcGetDeepCopyServiceByFrontend
      (upsertHostPortMapping refK (some refPodHostPort) refPodHostPort2 ["10.0.0.5"] ["10.0.0.5"]
        refTablePodB).st (refFrontend (.v4 0 0 0 0)) = none := by
  decide

/-! ## The services of a container port -/

/-- A service of a pod comes from one port of one of its containers. -/
theorem mem_genServiceMappings {C S : Type} (k : K8sPodWatcher C S) (pod : Pod)
    (podIPs : List String) (svc : LegacySVC) :
    svc ∈ genServiceMappings k pod podIPs ↔
      ∃ c ∈ pod.Spec.InitContainers ++ pod.Spec.Containers, ∃ p ∈ c.Ports,
        svc ∈ portServiceMappings k podIPs p := by
  simp only [genServiceMappings, List.mem_flatMap]

/-- What `genServiceMappings` fills in for a frontend address, when it emits a service
for it. -/
theorem hostPortService_some {C S : Type} (k : K8sPodWatcher C S) (proto : String)
    (p : ContainerPort) (bes4 bes6 : List LegacyBackend) (flag : Bool) (addr : Addr)
    (svc : LegacySVC) (h : hostPortService k proto p bes4 bes6 flag addr = some svc) :
    svc.Frontend.L3n4Addr = ⟨⟨addr, 0⟩, ⟨proto, uint16 p.HostPort⟩, ScopeExternal⟩ ∧
    svc.LoopbackHostport = flag ∧
    svc.Backends = (if addr.Is4 = true then bes4 else bes6) ∧ svc.Backends ≠ [] := by
  simp only [hostPortService] at h
  split at h
  · rename_i h4
    split at h
    · rename_i hc
      simp only [Option.some.injEq] at h
      subst h
      simp only [Bool.and_eq_true, decide_eq_true_eq] at hc
      refine ⟨rfl, rfl, by simp [h4], ?_⟩
      intro hnil
      simp only at hnil
      rw [hnil] at hc
      simp at hc
    · cases h
  · rename_i h4
    split at h
    · rename_i hc
      simp only [Option.some.injEq] at h
      subst h
      simp only [Bool.and_eq_true, decide_eq_true_eq] at hc
      refine ⟨rfl, rfl, by simp [h4], ?_⟩
      intro hnil
      simp only at hnil
      rw [hnil] at hc
      simp at hc
    · cases h

/-- The services of a container port whose host port is set, lies outside the
node-port range and has a valid protocol. -/
theorem portServiceMappings_eq {C S : Type} (k : K8sPodWatcher C S) (podIPs : List String)
    (p : ContainerPort) (proto : String) (hpos : 0 < p.HostPort)
    (hrange : ¬ (k.cfg.NodePortMin ≤ uint16 p.HostPort ∧ uint16 p.HostPort ≤ k.cfg.NodePortMax))
    (hproto : k.NewL4Type p.Protocol = some proto) :
    portServiceMappings k podIPs p =
      (hostPortFrontendAddrs k p).1.filterMap (hostPortService k proto p
        ((podIPs.map (hostPortBackend k proto p)).filter (fun be => be.L3n4Addr.AddrCluster.Is4))
        ((podIPs.map (hostPortBackend k proto p)).filter (fun be => !be.L3n4Addr.AddrCluster.Is4))
        (hostPortFrontendAddrs k p).2) := by
  simp only [portServiceMappings, not_le.2 hpos, if_false, hrange, hproto]

/-- A service of a container port, traced back to its frontend address. -/
theorem mem_portServiceMappings {C S : Type} (k : K8sPodWatcher C S) (podIPs : List String)
    (p : ContainerPort) (svc : LegacySVC) (h : svc ∈ portServiceMappings k podIPs p) :
    0 < p.HostPort ∧
    ¬ (k.cfg.NodePortMin ≤ uint16 p.HostPort ∧ uint16 p.HostPort ≤ k.cfg.NodePortMax) ∧
    ∃ proto, k.NewL4Type p.Protocol = some proto ∧
      ∃ addr ∈ (hostPortFrontendAddrs k p).1,
        hostPortService k proto p
          ((podIPs.map (hostPortBackend k proto p)).filter
            (fun be => be.L3n4Addr.AddrCluster.Is4))
          ((podIPs.map (hostPortBackend k proto p)).filter
            (fun be => !be.L3n4Addr.AddrCluster.Is4))
          (hostPortFrontendAddrs k p).2 addr = some svc := by
  simp only [portServiceMappings] at h
  split at h
  · cases h
  · rename_i hpos
    split at h
    · cases h
    · rename_i hrange
      split at h
      · cases h
      · rename_i proto hproto
        refine ⟨not_le.1 hpos, hrange, proto, hproto, ?_⟩
        obtain ⟨addr, haddr, hsvc⟩ := List.mem_filterMap.1 h
        exact ⟨addr, haddr, hsvc⟩

theorem filter_map_length_pos {α β : Type} (f : α → β) (q : β → Bool) (l : List α) :
    decide (((l.map f).filter q).length > 0) = l.any (fun x => q (f x)) := by
  induction l with
  | nil => rfl
  | cons a rest ih =>
    simp only [List.map_cons, List.filter_cons, List.any_cons]
    cases hq : q (f a)
    · simpa using ih
    · simp

/-- Whether `genServiceMappings` emits a service for a frontend address: its family is
enabled and has a backend. -/
theorem hostPortService_cases {C S : Type} (k : K8sPodWatcher C S) (proto : String)
    (p : ContainerPort) (bes4 bes6 : List LegacyBackend) (flag : Bool) (addr : Addr) :
    ((if addr.Is4 = true then k.cfg.EnableIPv4 && decide (bes4.length > 0)
        else k.cfg.EnableIPv6 && decide (bes6.length > 0)) = true ∧
      ∃ svc, hostPortService k proto p bes4 bes6 flag addr = some svc) ∨
    ((if addr.Is4 = true then k.cfg.EnableIPv4 && decide (bes4.length > 0)
        else k.cfg.EnableIPv6 && decide (bes6.length > 0)) = false ∧
      hostPortService k proto p bes4 bes6 flag addr = none) := by
  unfold hostPortService
  cases addr.Is4 <;> cases k.cfg.EnableIPv4 <;> cases k.cfg.EnableIPv6 <;>
    cases decide (bes4.length > 0) <;> cases decide (bes6.length > 0) <;> simp

/-- The frontends of the services emitted for a list of addresses: the addresses of the
list whose family is enabled and has a backend, in order. -/
theorem hostPortService_frontends {C S : Type} (k : K8sPodWatcher C S) (proto : String)
    (p : ContainerPort) (bes4 bes6 : List LegacyBackend) (flag : Bool) (l : List Addr) :
    (l.filterMap (hostPortService k proto p bes4 bes6 flag)).map
        (fun svc => svc.Frontend.L3n4Addr) =
      (l.filter (fun addr =>
        if addr.Is4 = true then k.cfg.EnableIPv4 && decide (bes4.length > 0)
        else k.cfg.EnableIPv6 && decide (bes6.length > 0))).map
        (fun addr => (⟨⟨addr, 0⟩, ⟨proto, uint16 p.HostPort⟩, ScopeExternal⟩ : L3n4Addr)) := by
  induction l with
  | nil => rfl
  | cons addr rest ih =>
    rcases hostPortService_cases k proto p bes4 bes6 flag addr with ⟨hq, svc, hsvc⟩ | ⟨hq, hnone⟩
    · rw [List.filterMap_cons, hsvc, List.filter_cons, hq]
      simp only [if_true, List.map_cons, ih, (hostPortService_some k proto p bes4 bes6 flag addr svc hsvc).1]
    · rw [List.filterMap_cons, hnone, List.filter_cons, hq]
      simpa using ih

/-- C12. Host-port frontend replication.  For a container port whose host port is set
and outside the node-port range, whose protocol is valid and whose host IP is not a
valid address or is an unspecified one, the frontends of the services
`genServiceMappings` produces for the port are, in order, the node-port addresses of
the node followed by 0.0.0.0 and `::`, keeping an IPv4 address if and only if IPv4 is
enabled and one of the pod IPs is IPv4, and any other address if and only if IPv6 is
enabled and one of the pod IPs is not IPv4; each frontend has the host port (as
`uint16`, the host port itself below 65536) and the protocol of the port. -/
theorem genServiceMappings_frontend_replication {C S : Type} (k : K8sPodWatcher C S)
    (podIPs : List String) (p : ContainerPort) (proto : String) (hpos : 0 < p.HostPort)
    (hrange : ¬ (k.cfg.NodePortMin ≤ uint16 p.HostPort ∧ uint16 p.HostPort ≤ k.cfg.NodePortMax))
    (hproto : k.NewL4Type p.Protocol = some proto)
    (hip : (k.ParseAddr p.HostIP).IsValid = false ∨ (k.ParseAddr p.HostIP).IsUnspecified = true) :
    (portServiceMappings k podIPs p).map (fun svc => svc.Frontend.L3n4Addr) =
      ((k.nodeAddrs ++ [Addr.IPv4Unspecified, Addr.IPv6Unspecified]).filter (fun addr =>
        if addr.Is4 = true then
          k.cfg.EnableIPv4 && podIPs.any (fun ip => (k.MustParseAddrCluster ip).Is4)
        else k.cfg.EnableIPv6 && podIPs.any (fun ip => !(k.MustParseAddrCluster ip).Is4))).map
        (fun addr => (⟨⟨addr, 0⟩, ⟨proto, uint16 p.HostPort⟩, ScopeExternal⟩ : L3n4Addr)) ∧
    (p.HostPort < 65536 → (uint16 p.HostPort : Int) = p.HostPort) := by
  have haddrs : hostPortFrontendAddrs k p =
      (k.nodeAddrs ++ [Addr.IPv4Unspecified, Addr.IPv6Unspecified], false) := by
    simp only [hostPortFrontendAddrs]
    rcases hip with h | h
    · simp [h]
    · simp [h]
  constructor
  · rw [portServiceMappings_eq k podIPs p proto hpos hrange hproto, haddrs,
      hostPortService_frontends, filter_map_length_pos, filter_map_length_pos]
    rfl
  · intro hlt
    unfold uint16
    rw [Int.emod_eq_of_lt (le_of_lt hpos) hlt]
    exact Int.toNat_of_nonneg (le_of_lt hpos)

/-- Witness for C12: the example of the specification.  Host port 8080/TCP without a
host IP, node addresses 192.168.1.10 and 192.168.1.11, IPv4 only, one IPv4 pod IP: the
frontends are 192.168.1.10:8080, 192.168.1.11:8080 and 0.0.0.0:8080, each with the one
backend 10.0.0.5:80. -/
theorem genServiceMappings_frontend_replication_witness :
    (0 : Int) < refPort8080.HostPort ∧ refKTwoAddrs.NewL4Type refPort8080.Protocol = some "TCP" ∧
    (refKTwoAddrs.ParseAddr refPort8080.HostIP).IsValid = false ∧
    (portServiceMappings refKTwoAddrs ["10.0.0.5"] refPort8080).map
        (fun svc => svc.Frontend.L3n4Addr) =
      ((refKTwoAddrs.nodeAddrs ++ [Addr.IPv4Unspecified, Addr.IPv6Unspecified]).filter
        (fun addr =>
          if addr.Is4 = true then refKTwoAddrs.cfg.EnableIPv4 &&
            ["10.0.0.5"].any (fun ip => (refKTwoAddrs.MustParseAddrCluster ip).Is4)
          else refKTwoAddrs.cfg.EnableIPv6 &&
            ["10.0.0.5"].any (fun ip => !(refKTwoAddrs.MustParseAddrCluster ip).Is4))).map
        (fun addr => (⟨⟨addr, 0⟩, ⟨"TCP", uint16 refPort8080.HostPort⟩, ScopeExternal⟩ : L3n4Addr)) ∧
    genServiceMappings refKTwoAddrs refPodHostPort ["10.0.0.5"] =
      [refHostPortSvc (.v4 192 168 1 10), refHostPortSvc (.v4 192 168 1 11),
        refHostPortSvc (.v4 0 0 0 0)] :=
  ⟨by decide, by decide, by decide,
    (genServiceMappings_frontend_replication refKTwoAddrs ["10.0.0.5"] refPort8080 "TCP"
      (by decide) (by decide) (by decide) (Or.inl (by decide))).1,
    by decide⟩

/-- The frontend addresses of a container port with a valid host IP that is not an
unspecified address: the host IP, or for a loopback host IP the unspecified address of
its family, flagged. -/
theorem hostPortFrontendAddrs_explicit {C S : Type} (k : K8sPodWatcher C S) (p : ContainerPort)
    (hvalid : (k.ParseAddr p.HostIP).IsValid = true)
    (hspec : (k.ParseAddr p.HostIP).IsUnspecified = false) :
    hostPortFrontendAddrs k p =
      ([if (k.ParseAddr p.HostIP).IsLoopback = true then
          (if (k.ParseAddr p.HostIP).Is4 = true then Addr.IPv4Unspecified
            else Addr.IPv6Unspecified)
        else k.ParseAddr p.HostIP], (k.ParseAddr p.HostIP).IsLoopback) := by
  simp only [hostPortFrontendAddrs, hvalid, hspec, Bool.not_false, Bool.and_self, if_true]
  cases (k.ParseAddr p.HostIP).IsLoopback <;> simp

/-- C13. Explicit host IP is the sole frontend.  For a container port that declares a
valid host IP that is not an unspecified address, `genServiceMappings` produces at
most one service for the port; the frontend address of that service is the declared
host IP when it is not a loopback address, and 0.0.0.0 or `::`, by the family of the
host IP, when it is; its `LoopbackHostport` flag is true if and only if the host IP is
a loopback address; and the node addresses play no part: with any other list of node
addresses the services of the port are the same. -/
theorem genServiceMappings_explicit_host_ip {C S : Type} (k : K8sPodWatcher C S)
    (podIPs : List String) (p : ContainerPort)
    (hvalid : (k.ParseAddr p.HostIP).IsValid = true)
    (hspec : (k.ParseAddr p.HostIP).IsUnspecified = false) :
    (portServiceMappings k podIPs p).length ≤ 1 ∧
    (∀ svc ∈ portServiceMappings k podIPs p,
      svc.Frontend.L3n4Addr.AddrCluster.addr =
        (if (k.ParseAddr p.HostIP).IsLoopback = true then
          (if (k.ParseAddr p.HostIP).Is4 = true then Addr.IPv4Unspecified
            else Addr.IPv6Unspecified)
        else k.ParseAddr p.HostIP) ∧
      (svc.LoopbackHostport = true ↔ (k.ParseAddr p.HostIP).IsLoopback = true)) ∧
    (∀ nodeAddrs : List Addr,
      portServiceMappings { k with nodeAddrs := nodeAddrs } podIPs p =
        portServiceMappings k podIPs p) := by
  have haddrs := hostPortFrontendAddrs_explicit k p hvalid hspec
  refine ⟨?_, ?_, ?_⟩
  · simp only [portServiceMappings]
    split
    · simp
    · split
      · simp
      · split
        · simp
        · simp only [haddrs]
          exact (List.length_filterMap_le _ _).trans (by simp)
  · intro svc hsvc
    obtain ⟨-, -, proto, -, addr, haddr, hsome⟩ := mem_portServiceMappings k podIPs p svc hsvc
    obtain ⟨hfe, hflag, -, -⟩ := hostPortService_some k proto p _ _ _ addr svc hsome
    rw [haddrs] at haddr hflag
    simp only [List.mem_singleton] at haddr
    rw [hfe, hflag]
    exact ⟨haddr, Iff.rfl⟩
  · intro nodeAddrs
    have h2 : hostPortFrontendAddrs { k with nodeAddrs := nodeAddrs } p =
        hostPortFrontendAddrs k p := by
      rw [haddrs]
      exact hostPortFrontendAddrs_explicit { k with nodeAddrs := nodeAddrs } p hvalid hspec
    simp only [portServiceMappings, h2]
    rfl

/-- Witness for C13: host port 8080/TCP on the host IP 127.0.0.1 gives the one frontend
0.0.0.0:8080, flagged as loopback, on a node with the address 192.168.1.10. -/
theorem genServiceMappings_explicit_host_ip_witness :
    (refKNode.ParseAddr refPortLoopback.HostIP).IsValid = true ∧
    (refKNode.ParseAddr refPortLoopback.HostIP).IsUnspecified = false ∧
    (portServiceMappings refKNode ["10.0.0.5"] refPortLoopback).length ≤ 1 ∧
    portServiceMappings refKNode ["10.0.0.5"] refPortLoopback =
      [{ refHostPortSvc (.v4 0 0 0 0) with LoopbackHostport := true }] :=
  ⟨by decide, by decide,
    (genServiceMappings_explicit_host_ip refKNode ["10.0.0.5"] refPortLoopback (by decide)
      (by decide)).1,
    by decide⟩

/-- C14. Node-port range rejection.  No service that `genServiceMappings` returns has
a frontend port within the configured node-port range, and a container port whose host
port is zero or negative, like one whose host port is within the range, produces no
service. -/
theorem genServiceMappings_rejects_node_port_range {C S : Type} (k : K8sPodWatcher C S)
    (pod : Pod) (podIPs : List String) :
    (∀ svc ∈ genServiceMappings k pod podIPs,
      ¬ (k.cfg.NodePortMin ≤ svc.Frontend.L3n4Addr.L4Addr.Port ∧
        svc.Frontend.L3n4Addr.L4Addr.Port ≤ k.cfg.NodePortMax)) ∧
    (∀ p : ContainerPort, p.HostPort ≤ 0 → portServiceMappings k podIPs p = []) ∧
    (∀ p : ContainerPort, k.cfg.NodePortMin ≤ uint16 p.HostPort →
      uint16 p.HostPort ≤ k.cfg.NodePortMax → portServiceMappings k podIPs p = []) := by
  refine ⟨?_, ?_, ?_⟩
  · intro svc hsvc
    obtain ⟨c, -, p, -, hp⟩ := (mem_genServiceMappings k pod podIPs svc).1 hsvc
    obtain ⟨-, hrange, proto, -, addr, -, hsome⟩ := mem_portServiceMappings k podIPs p svc hp
    rw [(hostPortService_some k proto p _ _ _ addr svc hsome).1]
    exact hrange
  · intro p hp
    simp only [portServiceMappings, hp, if_true]
  · intro p h1 h2
    simp only [portServiceMappings, h1, h2, and_self, if_true]
    split <;> rfl

/-- C15. Backend derivation.  Every service `genServiceMappings` returns is declared by
a port of a container of the pod: the port has a host port and a valid protocol, the
service is among the services of that port, and its frontend has the host port (as
`uint16`) and the protocol of that port.  Its backend list is not empty and is exactly
the list, in order, of the given pod IPs whose family (IPv4 or not) is that of the
frontend address, each as a backend with the container port of the declaring port and
its protocol. -/
theorem genServiceMappings_backends {C S : Type} (k : K8sPodWatcher C S) (pod : Pod)
    (podIPs : List String) (svc : LegacySVC) (hsvc : svc ∈ genServiceMappings k pod podIPs) :
    ∃ c ∈ pod.Spec.InitContainers ++ pod.Spec.Containers, ∃ p ∈ c.Ports, ∃ proto,
      k.NewL4Type p.Protocol = some proto ∧
      0 < p.HostPort ∧
      svc ∈ portServiceMappings k podIPs p ∧
      svc.Frontend.L3n4Addr.L4Addr = ⟨proto, uint16 p.HostPort⟩ ∧
      svc.Backends ≠ [] ∧
      svc.Backends =
        (podIPs.filter (fun ip =>
          (k.MustParseAddrCluster ip).Is4 == svc.Frontend.L3n4Addr.AddrCluster.Is4)).map
          (fun ip => (⟨⟨k.MustParseAddrCluster ip, ⟨proto, uint16 p.ContainerPort⟩, 0⟩⟩ :
            LegacyBackend)) := by
  obtain ⟨c, hc, p, hp, hmem⟩ := (mem_genServiceMappings k pod podIPs svc).1 hsvc
  obtain ⟨hpos, -, proto, hproto, addr, -, hsome⟩ := mem_portServiceMappings k podIPs p svc hmem
  obtain ⟨hfe, -, hbes, hne⟩ := hostPortService_some k proto p _ _ _ addr svc hsome
  refine ⟨c, hc, p, hp, proto, hproto, hpos, hmem, by rw [hfe], hne, ?_⟩
  rw [hbes, hfe]
  simp only [AddrCluster.Is4]
  cases h4 : addr.Is4
  · simp only [Bool.false_eq_true, if_false, List.filter_map]
    congr 1
    apply List.filter_congr
    intro ip _
    simp [hostPortBackend, AddrCluster.Is4]
  · simp only [if_true, List.filter_map]
    congr 1
    apply List.filter_congr
    intro ip _
    simp [hostPortBackend, AddrCluster.Is4]

/-- Witness for C15: the services of `refPodHostPort` with the pod IPs 10.0.0.5 and
fd00::5 on a node with the address 192.168.1.10; the service at 0.0.0.0:8080/TCP is
declared by the port with host port 8080 and has the one backend 10.0.0.5:80/TCP. -/
theorem genServiceMappings_backends_witness :
    refHostPortSvc (.v4 0 0 0 0) ∈ genServiceMappings refKNode refPodHostPort ["10.0.0.5", "fd00::5"] ∧
    (refHostPortSvc (.v4 0 0 0 0)).Frontend.L3n4Addr.L4Addr = ⟨"TCP", 8080⟩ ∧
    (refHostPortSvc (.v4 0 0 0 0)).Backends = [⟨⟨⟨.v4 10 0 0 5, 0⟩, ⟨"TCP", 80⟩, 0⟩⟩] ∧
    ∃ c ∈ refPodHostPort.Spec.InitContainers ++ refPodHostPort.Spec.Containers,
      ∃ p ∈ c.Ports, ∃ proto, refKNode.NewL4Type p.Protocol = some proto ∧
        0 < p.HostPort ∧
        refHostPortSvc (.v4 0 0 0 0) ∈
          portServiceMappings refKNode ["10.0.0.5", "fd00::5"] p ∧
        (refHostPortSvc (.v4 0 0 0 0)).Frontend.L3n4Addr.L4Addr = ⟨proto, uint16 p.HostPort⟩ ∧
        (refHostPortSvc (.v4 0 0 0 0)).Backends ≠ [] ∧
        (refHostPortSvc (.v4 0 0 0 0)).Backends =
          (["10.0.0.5", "fd00::5"].filter (fun ip =>
            (refKNode.MustParseAddrCluster ip).Is4 ==
              (refHostPortSvc (.v4 0 0 0 0)).Frontend.L3n4Addr.AddrCluster.Is4)).map
            (fun ip => (⟨⟨refKNode.MustParseAddrCluster ip, ⟨proto, uint16 p.ContainerPort⟩, 0⟩⟩ :
              LegacyBackend)) :=
  ⟨by decide, by decide, by decide,
    genServiceMappings_backends refKNode refPodHostPort ["10.0.0.5", "fd00::5"]
      (refHostPortSvc (.v4 0 0 0 0)) (by decide)⟩

/-! ## Host networking, order of the deletes, refused deletes -/

/-- C16. Host-networking skip.  For a pod that uses host networking while the
local-redirect-policy flag is off, neither the add handler nor the delete handler makes
an ipcache write (`Upsert`, `Delete`, `DeleteOnMetadataMatch`) or a service-table write
(`UpsertService`, `DeleteService`), and both leave the ipcache and the service table as
they are. -/
theorem host_networking_skip {C S : Type} (k : K8sPodWatcher C S) (pod : Pod) (w : World C S)
    (hnet : pod.Spec.HostNetwork = true) (hlrp : k.cfg.EnableLocalRedirectPolicy = false) :
    (∀ e ∈ (addK8sPodV1 k pod w).evs, e.isCacheWrite = false ∧ e.isServiceWrite = false) ∧
    (addK8sPodV1 k pod w).st = w ∧
    (∀ e ∈ (deleteK8sPodV1 k pod w).evs, e.isCacheWrite = false ∧ e.isServiceWrite = false) ∧
    (deleteK8sPodV1 k pod w).st = w := by
  have hdel : (deleteK8sPodV1 k pod w).evs = [.cgroupOnDeletePod pod] ∧
      (deleteK8sPodV1 k pod w).st = w := by
    simp [deleteK8sPodV1, deletePodHostData, hnet, hlrp]
  have hd : ∀ e ∈ (deleteK8sPodV1 k pod w).evs,
      e.isCacheWrite = false ∧ e.isServiceWrite = false := by
    intro e he
    rw [hdel.1, List.mem_singleton] at he
    subst he
    exact ⟨rfl, rfl⟩
  by_cases hrun : IsPodRunning pod.Status = true
  · have hadd : addK8sPodV1 k pod w = ⟨none, w, []⟩ := by
      simp [addK8sPodV1, hrun, hnet, hlrp]
    rw [hadd]
    exact ⟨by simp, rfl, hd, hdel.2⟩
  · have hadd : addK8sPodV1 k pod w = deleteK8sPodV1 k pod w := by
      simp [addK8sPodV1, hrun]
    rw [hadd]
    exact ⟨hd, hdel.2, hd, hdel.2⟩

/-- Witness for C16: pod `ns/podA` on host networking is added and deleted while the
ipcache holds its address for itself. -/
theorem host_networking_skip_witness :
    ({ refPodA with Spec := { refPodA.Spec with HostNetwork := true } } : Pod).Spec.HostNetwork
      = true ∧
    refK.cfg.EnableLocalRedirectPolicy = false ∧
    (addK8sPodV1 refK { refPodA with Spec := { refPodA.Spec with HostNetwork := true } }
      ⟨[("10.0.0.5", refEntry .Kubernetes "ns" "podA")], ⟨[], []⟩⟩).st =
      ⟨[("10.0.0.5", refEntry .Kubernetes "ns" "podA")], ⟨[], []⟩⟩ ∧
    (deleteK8sPodV1 refK { refPodA with Spec := { refPodA.Spec with HostNetwork := true } }
      ⟨[("10.0.0.5", refEntry .Kubernetes "ns" "podA")], ⟨[], []⟩⟩).st =
      ⟨[("10.0.0.5", refEntry .Kubernetes "ns" "podA")], ⟨[], []⟩⟩ :=
  ⟨by decide, by decide,
    (host_networking_skip refK { refPodA with Spec := { refPodA.Spec with HostNetwork := true } }
      ⟨[("10.0.0.5", refEntry .Kubernetes "ns" "podA")], ⟨[], []⟩⟩ (by decide) (by decide)).2.1,
    (host_networking_skip refK { refPodA with Spec := { refPodA.Spec with HostNetwork := true } }
      ⟨[("10.0.0.5", refEntry .Kubernetes "ns" "podA")], ⟨[], []⟩⟩ (by decide) (by decide)).2.2.2⟩

/-- The calls of `deletePodHostData` for a pod without host networking that has a valid
IP: those of `deleteHostPortMapping`, then those of the loop over the pod IPs. -/
theorem deletePodHostData_evs {C S : Type} (k : K8sPodWatcher C S) (pod : Pod) (w : World C S)
    (hnet : pod.Spec.HostNetwork = false) (hips : (k.ValidIPs pod.Status).len ≠ 0) :
    (deletePodHostData k pod w).evs =
      (deleteHostPortMapping k pod (k.ValidIPs pod.Status).elems w.svcs).evs ++
        (deletePodIPs k pod (k.ValidIPs pod.Status).elems w.cache).evs := by
  have hlen : ((k.ValidIPs pod.Status).len == 0) = false := by simpa using hips
  simp only [deletePodHostData, hnet, hlen, Bool.false_eq_true, if_false]
  split <;> rfl

/-- C17. Services before cache on delete.  For a pod without host networking that has
a valid IP, the calls of `deletePodHostData` are the service lookups and `DeleteService`
calls of `deleteHostPortMapping` followed by the ipcache lookups and
`DeleteOnMetadataMatch` calls for the pod IPs; so no ipcache call comes before a
`DeleteService` call. -/
theorem deletePodHostData_services_before_cache {C S : Type} (k : K8sPodWatcher C S) (pod : Pod)
    (w : World C S) (hnet : pod.Spec.HostNetwork = false)
    (hips : (k.ValidIPs pod.Status).len ≠ 0) :
    (∃ svcEvs cacheEvs : List Effect,
      (deletePodHostData k pod w).evs = svcEvs ++ cacheEvs ∧
      (∀ e ∈ svcEvs, (∃ fe r, e = .GetDeepCopyServiceByFrontend fe r) ∨
        ∃ fe err, e = .DeleteService fe err) ∧
      (∀ e ∈ cacheEvs, (∃ ip r, e = .ipcacheLookupByIP ip r) ∨
        ∃ ip, e = .ipcacheDeleteOnMetadataMatch ip .Kubernetes pod.ObjectMeta.Namespace
          pod.ObjectMeta.Name)) ∧
    (∀ pre post e, (deletePodHostData k pod w).evs = pre ++ e :: post →
      e.isDeleteService = true → ∀ e1 ∈ pre, e1.isIpcacheCall = false) := by
  have hevs := deletePodHostData_evs k pod w hnet hips
  have hA := deleteHostPortMapping_evs k pod (k.ValidIPs pod.Status).elems w.svcs
  have hB := deletePodIPs_evs k pod (k.ValidIPs pod.Status).elems w.cache
  refine ⟨⟨_, _, hevs, hA, hB⟩, ?_⟩
  intro pre post e hsplit hdel e1 he1
  rw [hevs] at hsplit
  rcases List.append_eq_append_iff.1 hsplit with ⟨a1, hpre, hB2⟩ | ⟨c1, hA2, hrest⟩
  · have : e ∈ (deletePodIPs k pod (k.ValidIPs pod.Status).elems w.cache).evs := by
      rw [hB2]; simp
    rcases hB e this with ⟨ip, r, rfl⟩ | ⟨ip, rfl⟩ <;> cases hdel
  · have hmem : e1 ∈ (deleteHostPortMapping k pod (k.ValidIPs pod.Status).elems w.svcs).evs := by
      rw [hA2]; exact List.mem_append_left _ he1
    rcases hA e1 hmem with ⟨fe, r, rfl⟩ | ⟨fe, err, rfl⟩ <;> rfl

/-- Witness for C17: pod `ns/podA` with host port 8080 is deleted while the service table
and the ipcache hold its entries; the service is deleted before the ipcache is looked
up. -/
theorem deletePodHostData_services_before_cache_witness :
    refPodHostPort.Spec.HostNetwork = false ∧ (refK.ValidIPs refPodHostPort.Status).len ≠ 0 ∧
    (deletePodHostData refK refPodHostPort
      ⟨[("10.0.0.5", refEntry .Kubernetes "ns" "podA")],
        ⟨[(refFrontend (.v4 0 0 0 0), refOwnedSvc (.v4 0 0 0 0))], []⟩⟩).evs =
      [.GetDeepCopyServiceByFrontend (refFrontend (.v4 0 0 0 0)) (some (refOwnedSvc (.v4 0 0 0 0))),
        .DeleteService (refFrontend (.v4 0 0 0 0)) none,
        .ipcacheLookupByIP "10.0.0.5" (some ⟨.ReservedIdentityUnmanaged, .Kubernetes⟩),
        .ipcacheDeleteOnMetadataMatch "10.0.0.5" .Kubernetes "ns" "podA"] ∧
    (∀ pre post e, (deletePodHostData refK refPodHostPort
        ⟨[("10.0.0.5", refEntry .Kubernetes "ns" "podA")],
          ⟨[(refFrontend (.v4 0 0 0 0), refOwnedSvc (.v4 0 0 0 0))], []⟩⟩).evs = pre ++ e :: post →
      e.isDeleteService = true → ∀ e1 ∈ pre, e1.isIpcacheCall = false) :=
  ⟨by decide, by decide, by decide,
    (deletePodHostData_services_before_cache refK refPodHostPort
      ⟨[("10.0.0.5", refEntry .Kubernetes "ns" "podA")],
        ⟨[(refFrontend (.v4 0 0 0 0), refOwnedSvc (.v4 0 0 0 0))], []⟩⟩ (by decide) (by decide)).2⟩

/-- The loop over the pod IPs collects no message exactly when every lookup finds an
entry of the source Kubernetes. -/
theorem deletePodIPs_errs_nil {C S : Type} (k : K8sPodWatcher C S) (pod : Pod) (l : List String)
    (c : C) :
    (deletePodIPs k pod l c).val.1 = [] ↔
      ∀ ip found, Effect.ipcacheLookupByIP ip found ∈ (deletePodIPs k pod l c).evs →
        ∃ id, found = some id ∧ id.Source = .Kubernetes := by
  induction l generalizing c with
  | nil => simp [deletePodIPs]
  | cons podIP rest ih =>
    unfold deletePodIPs
    cases hl : k.ipcLookupByIP c podIP with
    | none =>
      simp only [List.mem_cons]
      constructor
      · intro h; cases h
      · intro h
        rcases h podIP none (Or.inl rfl) with ⟨id, hid, _⟩
        cases hid
    | some id =>
      by_cases hs : id.Source = .Kubernetes
      · have hb : (id.Source != Source.Kubernetes) = false := by simp [hs]
        simp only [hb, Bool.false_eq_true, if_false, List.mem_cons]
        rw [ih]
        constructor
        · intro h ip found hmem
          rcases hmem with heq | heq | hmem
          · cases heq; exact ⟨id, rfl, hs⟩
          · cases heq
          · exact h ip found hmem
        · intro h ip found hmem
          exact h ip found (Or.inr (Or.inr hmem))
      · have hb : (id.Source != Source.Kubernetes) = true := by simp [hs]
        simp only [hb, if_true, List.mem_cons]
        constructor
        · intro h; cases h
        · intro h
          rcases h podIP (some id) (Or.inl rfl) with ⟨id2, hid, hsrc⟩
          cases hid
          exact absurd hsrc hs

/-- The loop over the pod IPs sets `skipped` exactly when it collects a message. -/
theorem deletePodIPs_skipped {C S : Type} (k : K8sPodWatcher C S) (pod : Pod) (l : List String)
    (c : C) :
    (deletePodIPs k pod l c).val.2 = true ↔ (deletePodIPs k pod l c).val.1 ≠ [] := by
  induction l generalizing c with
  | nil => simp [deletePodIPs]
  | cons podIP rest ih =>
    unfold deletePodIPs
    cases hl : k.ipcLookupByIP c podIP with
    | none => simp
    | some id =>
      by_cases hs : id.Source = .Kubernetes
      · have hb : (id.Source != Source.Kubernetes) = false := by simp [hs]
        simp only [hb, Bool.false_eq_true, if_false]
        exact ih _
      · have hb : (id.Source != Source.Kubernetes) = true := by simp [hs]
        simp [hb]

/-- The value of `deletePodHostData` for a pod without host networking that has a valid
IP, in terms of the loop over the pod IPs. -/
theorem deletePodHostData_val {C S : Type} (k : K8sPodWatcher C S) (pod : Pod) (w : World C S)
    (hnet : pod.Spec.HostNetwork = false) (hips : (k.ValidIPs pod.Status).len ≠ 0) :
    (deletePodHostData k pod w).val.1 =
        (deletePodIPs k pod (k.ValidIPs pod.Status).elems w.cache).val.2 ∧
    ((deletePodHostData k pod w).val.2 = none ↔
        (deletePodIPs k pod (k.ValidIPs pod.Status).elems w.cache).val.1 = []) := by
  have hlen : ((k.ValidIPs pod.Status).len == 0) = false := by simpa using hips
  simp only [deletePodHostData, hnet, hlen, Bool.false_eq_true, if_false]
  split
  · next h =>
    refine ⟨rfl, ?_⟩
    have hne : (deletePodIPs k pod (k.ValidIPs pod.Status).elems w.cache).val.1 ≠ [] := by
      intro h0
      rw [h0] at h
      simp at h
    simp [hne]
  · next h =>
    refine ⟨rfl, ?_⟩
    have h0 : (deletePodIPs k pod (k.ValidIPs pod.Status).elems w.cache).val.1 = [] := by
      simpa using h
    simp [h0]

/-- Counterexample for C18: pod `ns/podA` is deleted while the ipcache holds its address
10.0.0.5 for the source Local.  The deletion is not attempted and counts as skipped, and
the delete handler returns an error to its caller. -/
theorem deleteK8sPodV1_refused_delete_returns_error :
    (deleteK8sPodV1 refK refPodA refWorldHeld).val =
      some (errorsNew "ipcache entry for IP 10.0.0.5 not owned by kubernetes source") ∧
    (deleteK8sPodV1 refK refPodA refWorldHeld).val ≠ none ∧
    (deletePodHostData refK refPodA refWorldHeld).val.1 = true ∧
    (deleteK8sPodV1 refK refPodA refWorldHeld).st = refWorldHeld := by
  decide

/-- C18 (amended). Refused deletions.  For every delete of a pod without host networking
that has a valid IP: the delete handler returns the error of `deletePodHostData`; it
returns no error exactly when every ipcache lookup for the pod's IPs finds an entry of
the source Kubernetes, so a deletion that `DeleteOnMetadataMatch` refuses for the owner
produces no error; and when an entry is missing or its source is not Kubernetes, the
notification is marked as skipped, is logged at debug level, and the error is returned
to the caller. -/
theorem deleteK8sPodV1_refused_delete {C S : Type} (k : K8sPodWatcher C S) (pod : Pod)
    (w : World C S) (hnet : pod.Spec.HostNetwork = false)
    (hips : (k.ValidIPs pod.Status).len ≠ 0) :
    (deleteK8sPodV1 k pod w).val = (deletePodHostData k pod w).val.2 ∧
    ((deleteK8sPodV1 k pod w).val = none ↔
      ∀ ip found, Effect.ipcacheLookupByIP ip found ∈ (deleteK8sPodV1 k pod w).evs →
        ∃ id, found = some id ∧ id.Source = .Kubernetes) ∧
    ((deletePodHostData k pod w).val.1 = true ↔ (deleteK8sPodV1 k pod w).val ≠ none) ∧
    ((deleteK8sPodV1 k pod w).val ≠ none →
      deleteK8sPodV1LogLevel (deletePodHostData k pod w).val.1 (deletePodHostData k pod w).val.2
        = .Debug) := by
  have hval := deletePodHostData_val k pod w hnet hips
  have hevs := deletePodHostData_evs k pod w hnet hips
  have hskip := deletePodIPs_skipped k pod (k.ValidIPs pod.Status).elems w.cache
  have hnil := deletePodIPs_errs_nil k pod (k.ValidIPs pod.Status).elems w.cache
  have hA := deleteHostPortMapping_evs k pod (k.ValidIPs pod.Status).elems w.svcs
  have hret : (deleteK8sPodV1 k pod w).val = (deletePodHostData k pod w).val.2 := rfl
  have hdevs : (deleteK8sPodV1 k pod w).evs =
      (if k.cfg.EnableLocalRedirectPolicy then [.lrpOnDeletePod pod] else []) ++
        [.cgroupOnDeletePod pod] ++ (deletePodHostData k pod w).evs := rfl
  have hsk : (deletePodHostData k pod w).val.1 = true ↔ (deleteK8sPodV1 k pod w).val ≠ none := by
    rw [hret, hval.1, hskip, Ne, Ne, hval.2]
  refine ⟨hret, ?_, hsk, ?_⟩
  · rw [hret, hval.2, hnil, hdevs, hevs]
    constructor
    · intro h ip found hmem
      simp only [List.mem_append, List.mem_singleton] at hmem
      rcases hmem with (hmem | hmem) | hmem | hmem
      · split at hmem
        · simp at hmem
        · simp at hmem
      · cases hmem
      · rcases hA _ hmem with ⟨fe, r, h1⟩ | ⟨fe, err, h1⟩ <;> cases h1
      · exact h ip found hmem
    · intro h ip found hmem
      exact h ip found (List.mem_append_right _ (List.mem_append_right _ hmem))
  · intro hne
    have h1 := hsk.2 hne
    simp [deleteK8sPodV1LogLevel, h1]

/-- Witness for C18 (amended): pod `ns/podA` is deleted while the ipcache holds its
address for the source Kubernetes and the pod `ns/podB`; the refusal of
`DeleteOnMetadataMatch` leaves the entry and produces no error. -/
theorem deleteK8sPodV1_refused_delete_witness :
    refPodA.Spec.HostNetwork = false ∧ (refK.ValidIPs refPodA.Status).len ≠ 0 ∧
    (deleteK8sPodV1 refK refPodA refWorldOtherOwner).val = none ∧
    (deleteK8sPodV1 refK refPodA refWorldOtherOwner).st = refWorldOtherOwner ∧
    (deleteK8sPodV1 refK refPodA refWorldOtherOwner).evs =
      [.cgroupOnDeletePod refPodA,
        .ipcacheLookupByIP "10.0.0.5" (some ⟨.ReservedIdentityUnmanaged, .Kubernetes⟩),
        .ipcacheDeleteOnMetadataMatch "10.0.0.5" .Kubernetes "ns" "podA"] ∧
    ((deletePodHostData refK refPodA refWorldOtherOwner).val.1 = true ↔
      (deleteK8sPodV1 refK refPodA refWorldOtherOwner).val ≠ none) :=
  ⟨by decide, by decide, by decide, by decide, by decide,
    (deleteK8sPodV1_refused_delete refK refPodA refWorldOtherOwner (by decide) (by decide)).2.2.1⟩

/-! ## The map of pod snapshots kept by the change loop -/

/-- The snapshot that `processChange` leaves under a key. -/
theorem processChange_pods {C S : Type} (k : K8sPodWatcher C S) (change : Change)
    (st : LoopState C S) (key : String × String) :
    (processChange k change st).pods key =
      if key = change.key then (if change.Deleted then none else some change.Object)
      else st.pods key := by
  unfold processChange
  cases hd : change.Deleted <;> simp [Change.key]

/-- The most recent change of a sequence that starts with `change`. -/
theorem lastChange_cons (change : Change) (changes : List Change) (key : String × String) :
    lastChange (change :: changes) key =
      (lastChange changes key).or (if change.key = key then some change else none) := by
  unfold lastChange
  rw [List.reverse_cons, List.find?_append]
  congr 1
  by_cases h : change.key = key <;> simp [List.find?, h]

/-- The snapshot that the change loop leaves under a key is decided by the most recent
change for the key. -/
theorem processChanges_pods {C S : Type} (k : K8sPodWatcher C S) (changes : List Change)
    (st : LoopState C S) (key : String × String) :
    (processChanges k changes st).pods key =
      match lastChange changes key with
      | none => st.pods key
      | some change => if change.Deleted then none else some change.Object := by
  induction changes generalizing st with
  | nil => simp [processChanges, lastChange]
  | cons change rest ih =>
    have hstep : processChanges k (change :: rest) st =
        processChanges k rest (processChange k change st) := rfl
    rw [hstep, ih, lastChange_cons, processChange_pods]
    cases hl : lastChange rest key with
    | some c => simp
    | none =>
      by_cases hk : change.key = key
      · subst hk
        simp
      · have hk2 : ¬ key = change.key := fun h => hk h.symm
        simp [hk, hk2]

/-- Counterexample for C19: pod `ns/podA` is added and then reported in phase
`Succeeded` by a notification that is no delete.  Its ipcache entry is removed, but the
map `pods` still holds a snapshot under its key; a delete notification is what removes
the key. -/
theorem processChange_terminal_phase_keeps_snapshot :
    (refPodADone.Status.Phase = "Succeeded") ∧
    (processChanges refK [⟨refPodA, false⟩, ⟨refPodADone, false⟩]
      (initLoopState ⟨[], ⟨[], []⟩⟩)).pods ("ns", "podA") = some refPodADone ∧
    (processChanges refK [⟨refPodA, false⟩, ⟨refPodADone, false⟩]
      (initLoopState ⟨[], ⟨[], []⟩⟩)).pods ("ns", "podA") ≠ none ∧
    (processChanges refK [⟨refPodA, false⟩, ⟨refPodADone, false⟩]
      (initLoopState ⟨[], ⟨[], []⟩⟩)).world.cache = [] ∧
    (processChanges refK [⟨refPodA, false⟩, ⟨refPodADone, true⟩]
      (initLoopState ⟨[], ⟨[], []⟩⟩)).pods ("ns", "podA") = none := by
  decide

/-- C19 (amended). Map of snapshots on terminal phase.  After the change loop processes
a notification that is no delete and whose pod is in a terminal phase (failed or
succeeded), the ipcache and the service table are as the delete handler leaves them, but
the map `pods` holds the pod of the notification under its (namespace, name) key; a
delete notification for the pod is what removes the key. -/
theorem processChange_terminal_phase {C S : Type} (k : K8sPodWatcher C S) (change : Change)
    (st : LoopState C S) (hdel : change.Deleted = false)
    (hphase : change.Object.Status.Phase = "Failed" ∨ change.Object.Status.Phase = "Succeeded") :
    (processChange k change st).pods change.key = some change.Object ∧
    (processChange k change st).world = (deleteK8sPodV1 k change.Object st.world).st ∧
    (processChange k change st).trace =
      st.trace ++ (deleteK8sPodV1 k change.Object st.world).evs ++ [.SetEventTimestamp] ∧
    (processChange k { change with Deleted := true } st).pods change.key = none ∧
    (processChange k { change with Deleted := true } st).world =
      (deleteK8sPodV1 k change.Object st.world).st := by
  have hrun : IsPodRunning change.Object.Status = false := by
    rcases hphase with h | h <;> simp [IsPodRunning, h]
  have hadd : addK8sPodV1 k change.Object st.world = deleteK8sPodV1 k change.Object st.world := by
    simp [addK8sPodV1, hrun]
  have hupd : ∀ old, updateK8sPodV1 k (some old) (some change.Object) st.world =
      deleteK8sPodV1 k change.Object st.world := by
    intro old
    simp [updateK8sPodV1, hrun]
  refine ⟨?_, ?_, ?_, ?_, ?_⟩
  · rw [processChange_pods]; simp [hdel]
  · unfold processChange
    cases hp : st.pods (change.Object.ObjectMeta.Namespace, change.Object.ObjectMeta.Name) <;>
      simp [hdel, hp, hadd, hupd]
  · unfold processChange
    cases hp : st.pods (change.Object.ObjectMeta.Namespace, change.Object.ObjectMeta.Name) <;>
      simp [hdel, hp, hadd, hupd]
  · rw [processChange_pods]; simp [Change.key]
  · simp [processChange]

/-- Witness for C19 (amended): the pod `ns/podA` of the map is reported in phase
`Succeeded` while the ipcache holds its address for itself. -/
theorem processChange_terminal_phase_witness :
    (⟨refPodADone, false⟩ : Change).Deleted = false ∧
    (refPodADone.Status.Phase = "Failed" ∨ refPodADone.Status.Phase = "Succeeded") ∧
    (processChange refK ⟨refPodADone, false⟩
      ⟨fun n => if n = ("ns", "podA") then some refPodA else none,
        ⟨[("10.0.0.5", refEntry .Kubernetes "ns" "podA")], ⟨[], []⟩⟩, []⟩).world.cache = [] ∧
    (processChange refK ⟨refPodADone, false⟩
      ⟨fun n => if n = ("ns", "podA") then some refPodA else none,
        ⟨[("10.0.0.5", refEntry .Kubernetes "ns" "podA")], ⟨[], []⟩⟩, []⟩).pods
        (⟨refPodADone, false⟩ : Change).key = some refPodADone :=
  ⟨rfl, Or.inr (by decide), by decide,
    (processChange_terminal_phase refK ⟨refPodADone, false⟩
      ⟨fun n => if n = ("ns", "podA") then some refPodA else none,
        ⟨[("10.0.0.5", refEntry .Kubernetes "ns" "podA")], ⟨[], []⟩⟩, []⟩ rfl
      (Or.inr (by decide))).1⟩

/-- C20. Invariant of the map of snapshots.  After the change loop has processed a
finite sequence of notifications, the map `pods` holds under every key the pod of the
most recent notification for the key if that notification was no delete, nothing if it
was a delete, and what it held before if there was no notification for the key; this
holds for every watcher, so whatever the handlers return.  A notification that is no
delete goes to the add handler when its key is absent from the map, and otherwise to the
update handler with the stored snapshot as the old pod; a delete notification goes to
the delete handler. -/
theorem processChanges_shadow_map {C S : Type} (k : K8sPodWatcher C S) (changes : List Change)
    (st : LoopState C S) :
    (∀ key, (processChanges k changes st).pods key =
      match lastChange changes key with
      | none => st.pods key
      | some change => if change.Deleted then none else some change.Object) ∧
    (∀ key w, ((processChanges k changes (initLoopState w)).pods key).isSome = true ↔
      ∃ change, lastChange changes key = some change ∧ change.Deleted = false) ∧
    (∀ change, change.Deleted = false → st.pods change.key = none →
      (processChange k change st).world = (addK8sPodV1 k change.Object st.world).st ∧
      (processChange k change st).trace =
        st.trace ++ (addK8sPodV1 k change.Object st.world).evs ++ [.SetEventTimestamp]) ∧
    (∀ change old, change.Deleted = false → st.pods change.key = some old →
      (processChange k change st).world =
        (updateK8sPodV1 k (some old) (some change.Object) st.world).st ∧
      (processChange k change st).trace =
        st.trace ++ (updateK8sPodV1 k (some old) (some change.Object) st.world).evs ++
          [.SetEventTimestamp]) ∧
    (∀ change, change.Deleted = true →
      (processChange k change st).world = (deleteK8sPodV1 k change.Object st.world).st ∧
      (processChange k change st).trace =
        st.trace ++ (deleteK8sPodV1 k change.Object st.world).evs ++ [.SetEventTimestamp]) := by
  refine ⟨fun key => processChanges_pods k changes st key, ?_, ?_, ?_, ?_⟩
  · intro key w
    rw [processChanges_pods]
    cases hl : lastChange changes key with
    | none => simp [initLoopState]
    | some c => cases hd : c.Deleted <;> simp [hd]
  · intro change hdel hp
    have hp2 : st.pods (change.Object.ObjectMeta.Namespace, change.Object.ObjectMeta.Name) = none :=
      hp
    simp [processChange, hdel, hp2]
  · intro change old hdel hp
    have hp2 : st.pods (change.Object.ObjectMeta.Namespace, change.Object.ObjectMeta.Name) =
        some old := hp
    simp [processChange, hdel, hp2]
  · intro change hdel
    simp [processChange, hdel]

/-! ## Deletion of the entries of the old pod IPs on update -/

/-- C21, evaluated at the failing input: pod `ns/podA` is updated from the pod IP
10.0.0.5 to 10.0.0.6 while the ipcache holds 10.0.0.5 for the pod `ns/podB`.  A delete of
`ns/podA` leaves that entry in place; the update calls `Delete` with the source alone
and removes the entry of `ns/podB`. -/
theorem updatePodHostData_deletes_foreign_entry :
    Cache.LookupByIP refWorldB.cache "10.0.0.5" = some ⟨.ReservedIdentityUnmanaged, .Kubernetes⟩ ∧
    (refWorldB.cache.lookup "10.0.0.5").bind CacheEntry.owner = some ("ns", "podB") ∧
    (deleteK8sPodV1 refK refPodA refWorldB).st = refWorldB ∧
    (updateK8sPodV1 refK (some refPodA) (some refPodAMoved) refWorldB).evs =
      [.cgroupOnUpdatePod refPodA refPodAMoved,
        .ipcacheUpsert "10.0.0.6" [192, 168, 1, 1] 0 ⟨"ns", "podA", []⟩ unmanagedIdentity false none,
        .ipcacheDelete "10.0.0.5" .Kubernetes false] ∧
    Cache.LookupByIP (updateK8sPodV1 refK (some refPodA) (some refPodAMoved) refWorldB).st.cache
      "10.0.0.5" = none := by
  decide

/-- The calls of the loop over the new pod IPs are `Upsert` calls. -/
theorem upsertPodIPs_evs {C S : Type} (k : K8sPodWatcher C S) (hostIP : List Nat)
    (k8sMeta : K8sMetadata) (l : List String) (c : C) :
    ∀ e ∈ (upsertPodIPs k hostIP k8sMeta l c).evs, e.isIpcacheUpsert = true := by
  induction l generalizing c with
  | nil => simp [upsertPodIPs]
  | cons ip rest ih =>
    intro e he
    simp only [upsertPodIPs, List.mem_cons] at he
    rcases he with rfl | he
    · rfl
    · exact ih _ e he

/-- The calls of `updatePodHostData` before its deferred function runs are `Upsert`
calls of the ipcache and writes to the service table. -/
theorem updatePodHostDataBody_evs {C S : Type} (k : K8sPodWatcher C S) (oldPod : Option Pod)
    (newPod : Pod) (o n : IPSlice) (w : World C S) :
    ∀ e ∈ (updatePodHostDataBody k oldPod newPod o n w).evs,
      e.isIpcacheUpsert = true ∨ e.isServiceWrite = true := by
  intro e he
  unfold updatePodHostDataBody at he
  split at he
  · simp at he
  · split at he
    · simp at he
    · split at he
      · simp at he
      · dsimp only at he
        split at he
        · exact Or.inl (upsertPodIPs_evs k _ _ _ _ e he)
        · split at he
          · split at he
            · rcases List.mem_append.1 he with h | h
              · exact Or.inl (upsertPodIPs_evs k _ _ _ _ e h)
              · exact Or.inr (upsertHostPortMapping_evs k _ _ _ _ _ e h)
            · rcases List.mem_append.1 he with h | h
              · exact Or.inl (upsertPodIPs_evs k _ _ _ _ e h)
              · exact Or.inr (upsertHostPortMapping_evs k _ _ _ _ _ e h)
          · exact Or.inl (upsertPodIPs_evs k _ _ _ _ e he)

/-- An `Upsert` of the ipcache or a write to the service table is no deletion from the
ipcache. -/
theorem cacheDeletion_none (e : Effect) (h : e.isIpcacheUpsert = true ∨ e.isServiceWrite = true) :
    e.cacheDeletion = none := by
  cases e <;> first | rfl | (rcases h with h | h <;> cases h)

/-- A list of calls none of which is a deletion from the ipcache. -/
theorem filterMap_cacheDeletion_nil (evs : List Effect)
    (h : ∀ e ∈ evs, e.cacheDeletion = none) : evs.filterMap Effect.cacheDeletion = [] := by
  induction evs with
  | nil => rfl
  | cons a rest ih =>
    rw [List.filterMap_cons, h a (List.mem_cons_self _ _)]
    exact ih (fun e he => h e (List.mem_cons_of_mem _ he))

/-- The deletions of the deferred loop: one `Delete` with the source Kubernetes for each
old pod IP that is not among the new ones, in order. -/
theorem deleteStalePodIPs_deletions {C S : Type} (k : K8sPodWatcher C S) (n : IPSlice)
    (l : List String) (c : C) :
    (deleteStalePodIPs k n l c).evs.filterMap Effect.cacheDeletion =
      (l.filter (fun ip => !n.elems.contains ip)).map (fun ip => (ip, Source.Kubernetes)) := by
  induction l generalizing c with
  | nil => simp [deleteStalePodIPs]
  | cons ip rest ih =>
    unfold deleteStalePodIPs
    by_cases hc : n.elems.contains ip = true
    · simp only [hc, if_true, List.filter_cons, Bool.not_true, Bool.false_eq_true, if_false]
      exact ih c
    · have hc2 : n.elems.contains ip = false := by simpa using hc
      simp only [hc2, Bool.false_eq_true, if_false, List.filter_cons, Bool.not_false, if_true,
        List.map_cons, List.filterMap_cons, Effect.cacheDeletion]
      exact congrArg (List.cons _) (ih _)

/-- The deletions from the ipcache that `updatePodHostData` makes for a pod without host
networking. -/
theorem updatePodHostData_deletions {C S : Type} (k : K8sPodWatcher C S) (oldPod : Option Pod)
    (newPod : Pod) (o n : IPSlice) (w : World C S) (hnet : newPod.Spec.HostNetwork = false) :
    (updatePodHostData k oldPod newPod o n w).evs.filterMap Effect.cacheDeletion =
      (o.elems.filter (fun ip => !n.elems.contains ip)).map (fun ip => (ip, Source.Kubernetes)) := by
  have hbody : (updatePodHostDataBody k oldPod newPod o n w).evs.filterMap Effect.cacheDeletion
      = [] :=
    filterMap_cacheDeletion_nil _ (fun e he =>
      cacheDeletion_none e (updatePodHostDataBody_evs k oldPod newPod o n w e he))
  have htrig : ∀ b : Bool, (if b = true then
      [Effect.TriggerPolicyUpdates "Named ports added or updated"] else []).filterMap
        Effect.cacheDeletion = [] := by
    intro b; cases b <;> rfl
  simp only [updatePodHostData, hnet, Bool.false_eq_true, if_false, List.filterMap_append, hbody,
    htrig, List.nil_append, List.append_nil]
  by_cases heq : ipSliceEqual o n = true
  · simp only [heq, Bool.not_true, Bool.false_eq_true, if_false, List.filterMap_nil]
    have hon : o = n := by
      simp only [ipSliceEqual, IPSlice.DeepEqual, Bool.and_eq_true, beq_iff_eq] at heq
      exact heq.2
    subst hon
    symm
    rw [List.map_eq_nil_iff, List.filter_eq_nil_iff]
    intro ip hip
    simpa using hip
  · have heq2 : ipSliceEqual o n = false := by simpa using heq
    simp only [heq2, Bool.not_false, if_true]
    exact deleteStalePodIPs_deletions k n o.elems _

/-- Membership in a list that holds one element or none. -/
theorem mem_ite_singleton {α : Type} (b : Bool) (x e : α)
    (h : e ∈ (if b = true then [x] else [])) : e = x := by
  cases b
  · simp at h
  · simpa using h

/-- The calls of `updatePodHostData`: `Upsert` calls of the ipcache, writes to the
service table, `Delete` calls of the ipcache with the source Kubernetes, and the trigger
of policy updates. -/
theorem updatePodHostData_evs_kinds {C S : Type} (k : K8sPodWatcher C S) (oldPod : Option Pod)
    (newPod : Pod) (o n : IPSlice) (w : World C S) :
    ∀ e ∈ (updatePodHostData k oldPod newPod o n w).evs,
      e.isIpcacheUpsert = true ∨ e.isServiceWrite = true ∨
        (∃ ip npc, e = .ipcacheDelete ip .Kubernetes npc) ∨ e.isTriggerPolicyUpdates = true := by
  intro e he
  unfold updatePodHostData at he
  split at he
  · simp at he
  · simp only [List.mem_append] at he
    rcases he with (h | h) | h
    · rcases updatePodHostDataBody_evs k oldPod newPod o n w e h with h1 | h1
      · exact Or.inl h1
      · exact Or.inr (Or.inl h1)
    · by_cases heq : ipSliceEqual o n = true
      · simp [heq] at h
      · have heq2 : ipSliceEqual o n = false := by simpa using heq
        simp only [heq2, Bool.not_false, if_true] at h
        exact Or.inr (Or.inr (Or.inl (deleteStalePodIPs_evs k n _ _ e h)))
    · rw [mem_ite_singleton _ _ _ h]
      exact Or.inr (Or.inr (Or.inr rfl))

/-- C22. Stale-IP deletion on update.  For every call of `updatePodHostData` on a new
pod without host networking, with the old IP list O and the new IP list N (equal or
not), the deletions from the ipcache are exactly one `Delete` with the source Kubernetes
for each element of O that does not occur in N, in the order of O, and none for an
element of N; this holds of every run, whatever the function returns. -/
theorem updatePodHostData_stale_ip_deletion {C S : Type} (k : K8sPodWatcher C S)
    (oldPod : Option Pod) (newPod : Pod) (o n : IPSlice) (w : World C S)
    (hnet : newPod.Spec.HostNetwork = false) :
    (updatePodHostData k oldPod newPod o n w).evs.filterMap Effect.cacheDeletion =
      (o.elems.filter (fun ip => !n.elems.contains ip)).map (fun ip => (ip, Source.Kubernetes)) ∧
    (∀ ip src, (ip, src) ∈ (updatePodHostData k oldPod newPod o n w).evs.filterMap
        Effect.cacheDeletion ↔ (ip ∈ o.elems ∧ ip ∉ n.elems ∧ src = Source.Kubernetes)) ∧
    (∀ e ∈ (updatePodHostData k oldPod newPod o n w).evs,
      ∀ ip src ns name, e ≠ .ipcacheDeleteOnMetadataMatch ip src ns name) := by
  have hdel := updatePodHostData_deletions k oldPod newPod o n w hnet
  refine ⟨hdel, ?_, ?_⟩
  · intro ip src
    rw [hdel]
    simp only [List.mem_map, List.mem_filter, Bool.not_eq_true', Prod.mk.injEq]
    constructor
    · rintro ⟨a, ⟨ha, hna⟩, rfl, rfl⟩
      exact ⟨ha, by simpa using hna, rfl⟩
    · rintro ⟨ha, hna, rfl⟩
      exact ⟨ip, ⟨ha, by simpa using hna⟩, rfl, rfl⟩
  · intro e he ip src ns name heq
    subst heq
    rcases updatePodHostData_evs_kinds k oldPod newPod o n w _ he with h | h | ⟨ip2, npc, h⟩ | h <;>
      cases h

/-- Witness for C22: pod `ns/podA` is updated from the pod IP 10.0.0.5 to 10.0.0.6 with a
host IP that does not parse; the function returns an error before any `Upsert`, and the
entry of 10.0.0.5 is deleted all the same. -/
theorem updatePodHostData_stale_ip_deletion_witness :
    ({ refPodAMoved with Status := { refPodAMoved.Status with HostIP := "bogus" } } :
      Pod).Spec.HostNetwork = false ∧
    (updatePodHostData refK (some refPodA)
      { refPodAMoved with Status := { refPodAMoved.Status with HostIP := "bogus" } }
      (some ["10.0.0.5"]) (some ["10.0.0.6"])
      ⟨[("10.0.0.5", refEntry .Kubernetes "ns" "podA")], ⟨[], []⟩⟩).val =
      some (errorsNew "no/invalid HostIP: bogus") ∧
    (updatePodHostData refK (some refPodA)
      { refPodAMoved with Status := { refPodAMoved.Status with HostIP := "bogus" } }
      (some ["10.0.0.5"]) (some ["10.0.0.6"])
      ⟨[("10.0.0.5", refEntry .Kubernetes "ns" "podA")], ⟨[], []⟩⟩).evs.filterMap
        Effect.cacheDeletion = [("10.0.0.5", Source.Kubernetes)] :=
  ⟨by decide, by decide,
    (updatePodHostData_stale_ip_deletion refK (some refPodA)
      { refPodAMoved with Status := { refPodAMoved.Status with HostIP := "bogus" } }
      (some ["10.0.0.5"]) (some ["10.0.0.6"])
      ⟨[("10.0.0.5", refEntry .Kubernetes "ns" "podA")], ⟨[], []⟩⟩ (by decide)).1⟩

/-! ## The condition for the host-port services in `updatePodHostData` -/

/-- A list of calls none of which is a write to the service table. -/
theorem filter_isServiceWrite_nil (evs : List Effect)
    (h : ∀ e ∈ evs, e.isServiceWrite = false) :
    evs.filter (fun e => e.isServiceWrite) = [] := by
  rw [List.filter_eq_nil_iff]
  intro e he
  simp [h e he]

/-- A list of calls all of which are writes to the service table. -/
theorem filter_isServiceWrite_self (evs : List Effect)
    (h : ∀ e ∈ evs, e.isServiceWrite = true) :
    evs.filter (fun e => e.isServiceWrite) = evs := by
  rw [List.filter_eq_self]
  intro e he
  exact h e he

/-- An `Upsert` of the ipcache is no write to the service table. -/
theorem ipcacheUpsert_not_serviceWrite (e : Effect) (h : e.isIpcacheUpsert = true) :
    e.isServiceWrite = false := by
  cases e <;> first | rfl | cases h

/-- The loop over the new pod IPs makes no write to the service table. -/
theorem upsertPodIPs_no_serviceWrite {C S : Type} (k : K8sPodWatcher C S) (hostIP : List Nat)
    (k8sMeta : K8sMetadata) (l : List String) (c : C) :
    (upsertPodIPs k hostIP k8sMeta l c).evs.filter (fun e => e.isServiceWrite) = [] :=
  filter_isServiceWrite_nil _ (fun e he =>
    ipcacheUpsert_not_serviceWrite e (upsertPodIPs_evs k hostIP k8sMeta l c e he))

/-- The service table after the body of `updatePodHostData`, and the writes to it, by
the condition for the host-port services. -/
theorem updatePodHostDataBody_services {C S : Type} (k : K8sPodWatcher C S) (oldPod : Option Pod)
    (newPod : Pod) (o n : IPSlice) (w : World C S) (hnet : newPod.Spec.HostNetwork = false) :
    (updatePodHostDataBody k oldPod newPod o n w).st.svcs =
      (if (cacheUpsertsCompleted k oldPod newPod o n w &&
          hostPortMappingDue k oldPod newPod o n) = true then
        (upsertHostPortMapping k oldPod newPod o.elems n.elems w.svcs).st else w.svcs) ∧
    (updatePodHostDataBody k oldPod newPod o n w).evs.filter (fun e => e.isServiceWrite) =
      (if (cacheUpsertsCompleted k oldPod newPod o n w &&
          hostPortMappingDue k oldPod newPod o n) = true then
        (upsertHostPortMapping k oldPod newPod o.elems n.elems w.svcs).evs else []) := by
  unfold updatePodHostDataBody cacheUpsertsCompleted
  simp only [hnet, Bool.false_eq_true, if_false]
  by_cases hchg : (specEqual oldPod newPod && hostIPEqual oldPod newPod && ipSliceEqual o n) = true
  · simp [hchg]
  · simp only [hchg, if_false]
    cases hp : k.ParseIP newPod.Status.HostIP with
    | none => simp
    | some hostIP =>
      cases hs : storeNamedPorts k (newPod.Spec.Containers.flatMap (fun c => c.Ports)) [] with
      | error err => simp
      | ok namedPorts =>
        have hup := upsertPodIPs_no_serviceWrite k hostIP
          ⟨newPod.ObjectMeta.Namespace, newPod.ObjectMeta.Name, namedPorts⟩ n.elems w.cache
        have hum := filter_isServiceWrite_self _
          (upsertHostPortMapping_evs k oldPod newPod o.elems n.elems w.svcs)
        dsimp only
        by_cases herr : ((upsertPodIPs k hostIP
            ⟨newPod.ObjectMeta.Namespace, newPod.ObjectMeta.Name, namedPorts⟩
            n.elems w.cache).val.1.length != 0) = true
        · have h0 : ((upsertPodIPs k hostIP
              ⟨newPod.ObjectMeta.Namespace, newPod.ObjectMeta.Name, namedPorts⟩
              n.elems w.cache).val.1.length == 0) = false := by
            simpa using herr
          rw [if_pos herr, h0]
          exact ⟨by simp, by simpa using hup⟩
        · have h0 : ((upsertPodIPs k hostIP
              ⟨newPod.ObjectMeta.Namespace, newPod.ObjectMeta.Name, namedPorts⟩
              n.elems w.cache).val.1.length == 0) = true := by
            simpa using herr
          rw [if_neg herr, h0]
          by_cases hdue : hostPortMappingDue k oldPod newPod o n = true
          · have hdue2 : ((newPod.Spec.NodeName == k.cfg.NodeName) &&
                (!specEqual oldPod newPod || !ipSliceEqual o n)) = true := hdue
            rw [if_pos hdue2, hdue]
            cases hv : (upsertHostPortMapping k oldPod newPod o.elems n.elems w.svcs).val with
            | none => exact ⟨by simp, by simp [List.filter_append, hup, hum]⟩
            | some err => exact ⟨by simp, by simp [List.filter_append, hup, hum]⟩
          · have hdue2 : ¬ ((newPod.Spec.NodeName == k.cfg.NodeName) &&
                (!specEqual oldPod newPod || !ipSliceEqual o n)) = true := hdue
            have hdue3 : hostPortMappingDue k oldPod newPod o n = false := by simpa using hdue
            rw [if_neg hdue2, hdue3]
            exact ⟨by simp, by simpa using hup⟩

/-- The service table after `updatePodHostData`, and the writes to it, by the condition
for the host-port services. -/
theorem updatePodHostData_services {C S : Type} (k : K8sPodWatcher C S) (oldPod : Option Pod)
    (newPod : Pod) (o n : IPSlice) (w : World C S) :
    (updatePodHostData k oldPod newPod o n w).st.svcs =
      (if (cacheUpsertsCompleted k oldPod newPod o n w &&
          hostPortMappingDue k oldPod newPod o n) = true then
        (upsertHostPortMapping k oldPod newPod o.elems n.elems w.svcs).st else w.svcs) ∧
    (updatePodHostData k oldPod newPod o n w).evs.filter (fun e => e.isServiceWrite) =
      (if (cacheUpsertsCompleted k oldPod newPod o n w &&
          hostPortMappingDue k oldPod newPod o n) = true then
        (upsertHostPortMapping k oldPod newPod o.elems n.elems w.svcs).evs else []) := by
  by_cases hnet : newPod.Spec.HostNetwork = true
  · simp [updatePodHostData, cacheUpsertsCompleted, hnet]
  · have hnet2 : newPod.Spec.HostNetwork = false := by simpa using hnet
    have hbody := updatePodHostDataBody_services k oldPod newPod o n w hnet2
    have hd : ∀ c : C, (if (!ipSliceEqual o n) = true then deleteStalePodIPs k n o.elems c
        else (⟨false, c, []⟩ : Ret Bool C)).evs.filter (fun e => e.isServiceWrite) = [] := by
      intro c
      apply filter_isServiceWrite_nil
      intro e he
      split at he
      · rcases deleteStalePodIPs_evs k n _ _ e he with ⟨ip, npc, rfl⟩
        rfl
      · simp at he
    have ht : ∀ b : Bool, (if b = true then
        [Effect.TriggerPolicyUpdates "Named ports added or updated"] else []).filter
          (fun e => e.isServiceWrite) = [] := by
      intro b; cases b <;> rfl
    simp only [updatePodHostData, hnet2, Bool.false_eq_true, if_false, List.filter_append, hd, ht,
      List.append_nil]
    exact hbody

/-- When `updatePodHostData` gets through its loop over the new pod IPs, every new pod
IP was upserted, in order, and no `Upsert` returned an error that is not suppressed. -/
theorem cacheUpsertsCompleted_trace {C S : Type} (k : K8sPodWatcher C S) (oldPod : Option Pod)
    (newPod : Pod) (o n : IPSlice) (w : World C S)
    (h : cacheUpsertsCompleted k oldPod newPod o n w = true) :
    surfacedUpsertErrors (updatePodHostData k oldPod newPod o n w).evs = [] ∧
    ((updatePodHostData k oldPod newPod o n w).evs.filterMap Effect.upsertCall).map
      (fun call => call.1) = n.elems := by
  unfold cacheUpsertsCompleted at h
  by_cases hnet : newPod.Spec.HostNetwork = true
  · simp [hnet] at h
  · have hnet2 : newPod.Spec.HostNetwork = false := by simpa using hnet
    rw [if_neg hnet] at h
    by_cases hchg : (specEqual oldPod newPod && hostIPEqual oldPod newPod && ipSliceEqual o n) = true
    · simp [hchg] at h
    · have hchg2 : (specEqual oldPod newPod && hostIPEqual oldPod newPod && ipSliceEqual o n)
          = false := by simpa using hchg
      rw [if_neg hchg] at h
      cases hp : k.ParseIP newPod.Status.HostIP with
      | none => simp [hp] at h
      | some hostIP =>
        cases hs : storeNamedPorts k (newPod.Spec.Containers.flatMap (fun c => c.Ports)) [] with
        | error err => simp [hp, hs] at h
        | ok namedPorts =>
          simp only [hp, hs, beq_iff_eq, List.length_eq_zero] at h
          have ht := updatePodHostData_reach_trace k oldPod newPod o n w hostIP namedPorts hnet2
            hchg2 hp hs
          refine ⟨by rw [ht.1, h], ?_⟩
          rw [ht.2, List.map_map]
          exact List.map_id _

/-- C24. Service reconciliation gating.  In `updatePodHostData`, the host-port services
are reconciled (`upsertHostPortMapping` runs on the service table, and the writes to the
service table are its calls) if and only if the loop over the new pod IPs was completed
with no surfaced `Upsert` error, the pod is on the local node, and the spec or the IP
list differs from that of the old pod; otherwise the service table is left as it is and
no call to it is made.  On add the last condition always holds.  An update that changes
the host IP only upserts every pod IP again and makes no call to the service table. -/
theorem updatePodHostData_service_gating {C S : Type} (k : K8sPodWatcher C S)
    (oldPod : Option Pod) (newPod : Pod) (o n : IPSlice) (w : World C S) :
    ((cacheUpsertsCompleted k oldPod newPod o n w = true ∧
        newPod.Spec.NodeName = k.cfg.NodeName ∧
        (specEqual oldPod newPod = false ∨ ipSliceEqual o n = false)) →
      (updatePodHostData k oldPod newPod o n w).st.svcs =
        (upsertHostPortMapping k oldPod newPod o.elems n.elems w.svcs).st ∧
      (updatePodHostData k oldPod newPod o n w).evs.filter (fun e => e.isServiceWrite) =
        (upsertHostPortMapping k oldPod newPod o.elems n.elems w.svcs).evs) ∧
    (¬ (cacheUpsertsCompleted k oldPod newPod o n w = true ∧
        newPod.Spec.NodeName = k.cfg.NodeName ∧
        (specEqual oldPod newPod = false ∨ ipSliceEqual o n = false)) →
      (updatePodHostData k oldPod newPod o n w).st.svcs = w.svcs ∧
      ∀ e ∈ (updatePodHostData k oldPod newPod o n w).evs,
        e.isServiceWrite = false ∧ ∀ fe found, e ≠ .GetDeepCopyServiceByFrontend fe found) ∧
    (cacheUpsertsCompleted k oldPod newPod o n w = true →
      surfacedUpsertErrors (updatePodHostData k oldPod newPod o n w).evs = [] ∧
      ((updatePodHostData k oldPod newPod o n w).evs.filterMap Effect.upsertCall).map
        (fun call => call.1) = n.elems) ∧
    (oldPod = none → specEqual oldPod newPod = false) ∧
    (∀ old hostIP, oldPod = some old → newPod.Spec = old.Spec → o.isSome = true → o = n →
      newPod.Status.HostIP ≠ old.Status.HostIP → newPod.Spec.HostNetwork = false →
      k.ParseIP newPod.Status.HostIP = some hostIP →
      (∀ c ∈ newPod.Spec.Containers, ∀ port ∈ c.Ports, port.Name ≠ "" →
        (k.ParseProtocol port.Protocol).isSome = true) →
      ((updatePodHostData k oldPod newPod o n w).evs.filterMap Effect.upsertCall).map
        (fun call => call.1) = n.elems ∧
      (updatePodHostData k oldPod newPod o n w).st.svcs = w.svcs ∧
      ∀ e ∈ (updatePodHostData k oldPod newPod o n w).evs,
        e.isServiceWrite = false ∧ ∀ fe found, e ≠ .GetDeepCopyServiceByFrontend fe found) := by
  have hsv := updatePodHostData_services k oldPod newPod o n w
  have hget : ∀ e ∈ (updatePodHostData k oldPod newPod o n w).evs,
      ∀ fe found, e ≠ .GetDeepCopyServiceByFrontend fe found := by
    intro e he fe found heq
    subst heq
    rcases updatePodHostData_evs_kinds k oldPod newPod o n w _ he with h | h | ⟨ip, npc, h⟩ | h <;>
      cases h
  have hgate : (cacheUpsertsCompleted k oldPod newPod o n w &&
      hostPortMappingDue k oldPod newPod o n) = true ↔
      (cacheUpsertsCompleted k oldPod newPod o n w = true ∧
        newPod.Spec.NodeName = k.cfg.NodeName ∧
        (specEqual oldPod newPod = false ∨ ipSliceEqual o n = false)) := by
    simp [hostPortMappingDue]
  have hoff : ¬ (cacheUpsertsCompleted k oldPod newPod o n w &&
      hostPortMappingDue k oldPod newPod o n) = true →
      (updatePodHostData k oldPod newPod o n w).st.svcs = w.svcs ∧
      ∀ e ∈ (updatePodHostData k oldPod newPod o n w).evs,
        e.isServiceWrite = false ∧ ∀ fe found, e ≠ .GetDeepCopyServiceByFrontend fe found := by
    intro hg
    rw [if_neg hg, if_neg hg] at hsv
    refine ⟨hsv.1, fun e he => ⟨?_, hget e he⟩⟩
    have hnil := List.filter_eq_nil_iff.1 hsv.2 e he
    simpa using hnil
  refine ⟨?_, ?_, cacheUpsertsCompleted_trace k oldPod newPod o n w, ?_, ?_⟩
  · intro hg
    have hg2 := hgate.2 hg
    rw [if_pos hg2, if_pos hg2] at hsv
    exact hsv
  · intro hg
    exact hoff (fun h => hg (hgate.1 h))
  · intro hold
    subst hold
    rfl
  · intro old hostIP hold hspec hsome hon hhost hnet hparse hproto
    subst hold
    subst hon
    have hse : specEqual (some old) newPod = true := by simp [specEqual, hspec]
    have hie : ipSliceEqual o o = true := by simp [ipSliceEqual, IPSlice.DeepEqual, hsome]
    have hhe : hostIPEqual (some old) newPod = false := by simp [hostIPEqual, hhost]
    have hchg : (specEqual (some old) newPod && hostIPEqual (some old) newPod &&
        ipSliceEqual o o) = false := by simp [hhe]
    obtain ⟨namedPorts, hnp⟩ := storeNamedPorts_ok k
      (newPod.Spec.Containers.flatMap (fun c => c.Ports))
      (by
        intro port hport hname
        rcases List.mem_flatMap.1 hport with ⟨c, hc, hpc⟩
        exact hproto c hc port hpc hname) []
    have ht := updatePodHostData_reach_trace k (some old) newPod o o w hostIP namedPorts hnet
      hchg hparse hnp
    have hno := hoff (fun h => by
      have h2 := (hgate.1 h).2.2
      rcases h2 with h2 | h2
      · rw [hse] at h2; cases h2
      · rw [hie] at h2; cases h2)
    refine ⟨?_, hno.1, hno.2⟩
    rw [ht.2, List.map_map]
    exact List.map_id _

/-- Witness for C24: pod `ns/podA` with host port 8080 is updated with a new host IP
only; its pod IP is upserted with the new host IP and the service table gets no call,
although the pod is on the local node. -/
theorem updatePodHostData_service_gating_witness :
    refPodHostPortRehosted.Spec.NodeName = refK.cfg.NodeName ∧
    (updatePodHostData refK (some refPodHostPort) refPodHostPortRehosted (some ["10.0.0.5"])
      (some ["10.0.0.5"]) ⟨[], ⟨[], []⟩⟩).evs =
      [.ipcacheUpsert "10.0.0.5" [192, 168, 1, 10] 0 ⟨"ns", "podA", []⟩ unmanagedIdentity false
        none] ∧
    (updatePodHostData refK none refPodHostPort none (some ["10.0.0.5"]) ⟨[], ⟨[], []⟩⟩).evs.filter
      (fun e => e.isServiceWrite) =
      (upsertHostPortMapping refK none refPodHostPort [] ["10.0.0.5"] ⟨[], []⟩).evs ∧
    (upsertHostPortMapping refK none refPodHostPort [] ["10.0.0.5"] ⟨[], []⟩).evs ≠ [] ∧
    (updatePodHostData refK (some refPodHostPort) refPodHostPortRehosted (some ["10.0.0.5"])
      (some ["10.0.0.5"]) ⟨[], ⟨[], []⟩⟩).st.svcs = ⟨[], []⟩ :=
  ⟨by decide, by decide,
    ((updatePodHostData_service_gating refK none refPodHostPort none (some ["10.0.0.5"])
      ⟨[], ⟨[], []⟩⟩).1 ⟨by decide, by decide, Or.inl (by decide)⟩).2,
    by decide,
    ((updatePodHostData_service_gating refK (some refPodHostPort) refPodHostPortRehosted
      (some ["10.0.0.5"]) (some ["10.0.0.5"]) ⟨[], ⟨[], []⟩⟩).2.2.2.2 refPodHostPort
        [192, 168, 1, 10] rfl (by decide) (by decide) rfl (by decide) (by decide) (by decide)
        (by decide)).2.1⟩

/-! ## The comparison of the pod IPs of the old and the new pod -/

theorem lexLe_total (a b : List Nat) : lexLe a b = true ∨ lexLe b a = true := by
  induction a generalizing b with
  | nil => left; cases b <;> rfl
  | cons x xs ih =>
    cases b with
    | nil => right; rfl
    | cons y ys =>
      simp only [lexLe, Bool.or_eq_true, decide_eq_true_eq, Bool.and_eq_true, beq_iff_eq]
      rcases Nat.lt_trichotomy x y with h | h | h
      · exact Or.inl (Or.inl h)
      · rcases ih ys with h2 | h2
        · exact Or.inl (Or.inr ⟨h, h2⟩)
        · exact Or.inr (Or.inr ⟨h.symm, h2⟩)
      · exact Or.inr (Or.inl h)

theorem lexLe_trans (a b c : List Nat) (h1 : lexLe a b = true) (h2 : lexLe b c = true) :
    lexLe a c = true := by
  induction a generalizing b c with
  | nil => cases c <;> rfl
  | cons x xs ih =>
    cases b with
    | nil => cases h1
    | cons y ys =>
      cases c with
      | nil => cases h2
      | cons z zs =>
        simp only [lexLe, Bool.or_eq_true, decide_eq_true_eq, Bool.and_eq_true, beq_iff_eq] at *
        rcases h1 with h1 | ⟨h1, h1r⟩
        · rcases h2 with h2 | ⟨h2, _⟩
          · exact Or.inl (by omega)
          · exact Or.inl (by omega)
        · rcases h2 with h2 | ⟨h2, h2r⟩
          · exact Or.inl (by omega)
          · exact Or.inr ⟨by omega, ih ys zs h1r h2r⟩

theorem lexLe_antisymm (a b : List Nat) (h1 : lexLe a b = true) (h2 : lexLe b a = true) :
    a = b := by
  induction a generalizing b with
  | nil =>
    cases b with
    | nil => rfl
    | cons y ys => cases h2
  | cons x xs ih =>
    cases b with
    | nil => cases h1
    | cons y ys =>
      simp only [lexLe, Bool.or_eq_true, decide_eq_true_eq, Bool.and_eq_true, beq_iff_eq] at h1 h2
      rcases h1 with h1 | ⟨h1, h1r⟩
      · rcases h2 with h2 | ⟨h2, _⟩ <;> omega
      · rcases h2 with h2 | ⟨_, h2r⟩
        · omega
        · rw [h1, ih ys h1r h2r]

theorem stringKey_injective (a b : String) (h : stringKey a = stringKey b) : a = b := by
  unfold stringKey at h
  have hinj : Function.Injective Char.toNat := by
    intro c d hcd
    apply Char.ext
    apply UInt32.ext
    exact hcd
  exact String.ext (List.map_injective_iff.2 hinj h)

/-- Two lists of strings with the same elements have the same sorted list of distinct
elements. -/
theorem sorted_dedup_congr (l1 l2 : List String) (h : ∀ ip, ip ∈ l1 ↔ ip ∈ l2) :
    l1.dedup.insertionSort stringLe = l2.dedup.insertionSort stringLe := by
  have hperm : l1.dedup.Perm l2.dedup :=
    (List.perm_ext_iff_of_nodup (List.nodup_dedup l1) (List.nodup_dedup l2)).2
      (fun a => by rw [List.mem_dedup, List.mem_dedup]; exact h a)
  have htotal : IsTotal String stringLe := ⟨fun a b => lexLe_total _ _⟩
  have htrans : IsTrans String stringLe := ⟨fun a b c h1 h2 => lexLe_trans _ _ _ h1 h2⟩
  have hanti : IsAntisymm String stringLe :=
    ⟨fun a b h1 h2 => stringKey_injective a b (lexLe_antisymm _ _ h1 h2)⟩
  exact List.eq_of_perm_of_sorted
    (((List.perm_insertionSort stringLe l1.dedup).trans hperm).trans
      (List.perm_insertionSort stringLe l2.dedup).symm)
    (List.sorted_insertionSort stringLe l1.dedup)
    (List.sorted_insertionSort stringLe l2.dedup)

/-- The modelled `ValidIPs` depends on the set of the addresses of the status only. -/
theorem ValidIPs_congr (s1 s2 : PodStatus) (h : ∀ ip, ip ∈ podIPAddrs s1 ↔ ip ∈ podIPAddrs s2) :
    ValidIPs s1 = ValidIPs s2 := by
  unfold ValidIPs
  rw [sorted_dedup_congr _ _ h]

/-- C23. IP-set comparison is order-insignificant.  With the valid IPs of a status as
the specification has them (`ValidIPs`: the set of its addresses, as a sorted list), for
every update whose old and new pod list the same set of addresses, in any order, and
whose spec and host IP are equal: the IP lists `updatePodHostData` receives are equal,
it treats them as unchanged and returns without a call when there is a valid IP (the
update handler does not call it otherwise), and the update handler makes no write to
the ipcache or to the service table and leaves both as they are. -/
theorem updatePodHostData_ip_set_order {C S : Type} (k : K8sPodWatcher C S) (old new : Pod)
    (w : World C S) (hv : k.ValidIPs = ValidIPs) (hspec : new.Spec = old.Spec)
    (hhost : new.Status.HostIP = old.Status.HostIP)
    (hset : ∀ ip, ip ∈ podIPAddrs old.Status ↔ ip ∈ podIPAddrs new.Status) :
    k.ValidIPs old.Status = k.ValidIPs new.Status ∧
    ((k.ValidIPs old.Status).len ≠ 0 →
      ipSliceEqual (k.ValidIPs old.Status) (k.ValidIPs new.Status) = true ∧
      updatePodHostData k (some old) new (k.ValidIPs old.Status) (k.ValidIPs new.Status) w =
        ⟨none, w, []⟩) ∧
    (IsPodRunning new.Status = true →
      (∀ e ∈ (updateK8sPodV1 k (some old) (some new) w).evs,
        e.isCacheWrite = false ∧ e.isServiceWrite = false) ∧
      (updateK8sPodV1 k (some old) (some new) w).st = w) := by
  have heq : k.ValidIPs old.Status = k.ValidIPs new.Status := by
    rw [hv]
    exact ValidIPs_congr _ _ hset
  refine ⟨heq, ?_, ?_⟩
  · intro hlen
    refine ⟨?_, updatePodHostData_unchanged k old new _ _ w hspec hhost (by rw [heq])
      (Or.inl hlen)⟩
    rw [← heq]
    cases hval : k.ValidIPs old.Status with
    | none => rw [hval] at hlen; simp [IPSlice.len, IPSlice.elems] at hlen
    | some l => simp [ipSliceEqual, IPSlice.DeepEqual]
  · intro hrun
    refine ⟨fun e he => ?_, updateK8sPodV1_unchanged_st k old new w hrun hspec hhost
      (by rw [heq])⟩
    have h3 := updateK8sPodV1_unchanged_evs k old new w hrun hspec hhost (by rw [heq]) e he
    exact ⟨h3.1, h3.2.1⟩

/-- Witness for C23: pod `ns/podA` lists the pod IPs 10.0.0.5 and 10.0.0.6 before the
update and 10.0.0.6 and 10.0.0.5 after it; both statuses have the valid IPs 10.0.0.5,
10.0.0.6, and the update makes no call but that of the cgroup manager. -/
theorem updatePodHostData_ip_set_order_witness :
    refKValid.ValidIPs = ValidIPs ∧ refPodTwoSwapped.Spec = refPodTwo.Spec ∧
    refPodTwoSwapped.Status.HostIP = refPodTwo.Status.HostIP ∧
    refPodTwoSwapped.Status.PodIPs ≠ refPodTwo.Status.PodIPs ∧
    (∀ ip, ip ∈ podIPAddrs refPodTwo.Status ↔ ip ∈ podIPAddrs refPodTwoSwapped.Status) ∧
    ValidIPs refPodTwo.Status = some ["10.0.0.5", "10.0.0.6"] ∧
    ValidIPs refPodTwoSwapped.Status = some ["10.0.0.5", "10.0.0.6"] ∧
    (updateK8sPodV1 refKValid (some refPodTwo) (some refPodTwoSwapped)
      ⟨[("10.0.0.5", refEntry .Kubernetes "ns" "podA"),
        ("10.0.0.6", refEntry .Kubernetes "ns" "podA")], ⟨[], []⟩⟩).evs =
      [.cgroupOnUpdatePod refPodTwo refPodTwoSwapped] ∧
    (updateK8sPodV1 refKValid (some refPodTwo) (some refPodTwoSwapped)
      ⟨[("10.0.0.5", refEntry .Kubernetes "ns" "podA"),
        ("10.0.0.6", refEntry .Kubernetes "ns" "podA")], ⟨[], []⟩⟩).st =
      ⟨[("10.0.0.5", refEntry .Kubernetes "ns" "podA"),
        ("10.0.0.6", refEntry .Kubernetes "ns" "podA")], ⟨[], []⟩⟩ :=
  ⟨rfl, by decide, by decide, by decide,
    by
      intro ip
      have h1 : podIPAddrs refPodTwo.Status = ["10.0.0.5", "10.0.0.5", "10.0.0.6"] := by decide
      have h2 : podIPAddrs refPodTwoSwapped.Status = ["10.0.0.6", "10.0.0.6", "10.0.0.5"] := by
        decide
      rw [h1, h2]
      simp only [List.mem_cons, List.mem_singleton, List.not_mem_nil, or_false]
      tauto,
    by decide, by decide, by decide,
    ((updatePodHostData_ip_set_order refKValid refPodTwo refPodTwoSwapped
      ⟨[("10.0.0.5", refEntry .Kubernetes "ns" "podA"),
        ("10.0.0.6", refEntry .Kubernetes "ns" "podA")], ⟨[], []⟩⟩ rfl (by decide) (by decide)
      (by
        intro ip
        have h1 : podIPAddrs refPodTwo.Status = ["10.0.0.5", "10.0.0.5", "10.0.0.6"] := by decide
        have h2 : podIPAddrs refPodTwoSwapped.Status = ["10.0.0.6", "10.0.0.6", "10.0.0.5"] := by
          decide
        rw [h1, h2]
        simp only [List.mem_cons, List.mem_singleton, List.not_mem_nil, or_false]
        tauto)).2.2 (by decide)).2⟩

/-! ## Service names and the incarnations of a pod -/

/-- The names of the host-port services of two pods with the same name and different
UIDs differ, for every port. -/
theorem hostPortServiceName_ne (older newer : Pod) (port : Nat) (c1 c2 : String)
    (hname : older.ObjectMeta.Name = newer.ObjectMeta.Name)
    (huid : older.ObjectMeta.UID ≠ newer.ObjectMeta.UID) :
    hostPortServiceName older port c1 ≠ hostPortServiceName newer port c2 := by
  intro h
  have h1 : (hostPortServiceName older port c1).Name = (hostPortServiceName newer port c2).Name :=
    congrArg ServiceName.Name h
  simp only [hostPortServiceName, hname] at h1
  have h2 := congrArg String.data h1
  simp only [String.data_append] at h2
  have h3 := List.append_cancel_right (List.append_cancel_right h2)
  have h4 := List.append_cancel_left h3
  exact huid (String.ext h4)

/-- A service stored under the name of another incarnation of the pod makes the guard of
`deleteHostPortMapping` skip the frontend. -/
theorem hostPortNotOwned_of_incarnation {C S : Type} (k : K8sPodWatcher C S) (older newer : Pod)
    (svc : LegacySVC) (d : LegacySVC)
    (hname : older.ObjectMeta.Name = newer.ObjectMeta.Name)
    (huid : older.ObjectMeta.UID ≠ newer.ObjectMeta.UID)
    (hsvc : svc.Name = hostPortServiceName newer d.Frontend.L3n4Addr.L4Addr.Port "") :
    hostPortNotOwned k older (some svc) d = true := by
  have hne : (svc.Name == hostPortServiceName older d.Frontend.L3n4Addr.L4Addr.Port "") = false := by
    rw [hsvc, beq_eq_false_iff_ne]
    exact (hostPortServiceName_ne older newer _ "" "" hname huid).symm
  simp [hostPortNotOwned, hne]

/-- A `DeleteService` call of the loop of `deleteHostPortMapping` directly follows the
lookup of its frontend, and the guard did not skip what the lookup found. -/
theorem deleteHostPortLoop_delete_after_get {C S : Type} (k : K8sPodWatcher C S) (pod : Pod)
    (l : List LegacySVC) (s : S) (pre tl : List Effect) (fe fe2 : L3n4Addr)
    (found : Option LegacySVC) (err : Option (GoError Source))
    (h : (deleteHostPortLoop k pod l s).evs =
      pre ++ .GetDeepCopyServiceByFrontend fe found :: .DeleteService fe2 err :: tl) :
    ∃ d ∈ l, d.Frontend.L3n4Addr = fe ∧ hostPortNotOwned k pod found d = false := by
  induction l generalizing s pre with
  | nil =>
    simp [deleteHostPortLoop] at h
  | cons d rest ih =>
    unfold deleteHostPortLoop at h
    by_cases hno : hostPortNotOwned k pod
        (k.svcGetDeepCopyServiceByFrontend s d.Frontend.L3n4Addr) d = true
    · simp only [hno, if_true] at h
      cases pre with
      | nil =>
        simp only [List.nil_append, List.cons.injEq] at h
        exact absurd h.2 (deleteHostPortLoop_head k pod rest s fe2 err tl)
      | cons x pre1 =>
        simp only [List.cons_append, List.cons.injEq] at h
        obtain ⟨d1, hd1, hfe, hg⟩ := ih s pre1 h.2
        exact ⟨d1, List.mem_cons_of_mem _ hd1, hfe, hg⟩
    · have hno2 : hostPortNotOwned k pod
          (k.svcGetDeepCopyServiceByFrontend s d.Frontend.L3n4Addr) d = false := by
        simpa using hno
      simp only [hno2, Bool.false_eq_true, if_false] at h
      cases hd : (k.svcDeleteService s d.Frontend.L3n4Addr).2 with
      | some e =>
        simp only [hd] at h
        cases pre with
        | nil =>
          simp only [List.nil_append, List.cons.injEq, Effect.GetDeepCopyServiceByFrontend.injEq]
            at h
          exact ⟨d, List.mem_cons_self _ _, h.1.1, by rw [← h.1.2]; exact hno2⟩
        | cons x pre1 =>
          simp only [List.cons_append, List.cons.injEq] at h
          cases pre1 with
          | nil => simp at h
          | cons y pre2 => simp at h
      | none =>
        simp only [hd] at h
        cases pre with
        | nil =>
          simp only [List.nil_append, List.cons.injEq, Effect.GetDeepCopyServiceByFrontend.injEq]
            at h
          exact ⟨d, List.mem_cons_self _ _, h.1.1, by rw [← h.1.2]; exact hno2⟩
        | cons x pre1 =>
          simp only [List.cons_append, List.cons.injEq] at h
          cases pre1 with
          | nil => simp at h
          | cons y pre2 =>
            simp only [List.cons_append, List.cons.injEq] at h
            obtain ⟨d1, hd1, hfe, hg⟩ := ih _ pre2 h.2.2
            exact ⟨d1, List.mem_cons_of_mem _ hd1, hfe, hg⟩

/-- The loop of `deleteHostPortMapping` for a pod leaves a service in place that is
stored under the name of another incarnation of the pod. -/
theorem deleteHostPortLoop_keeps_incarnation {C S : Type} (k : K8sPodWatcher C S)
    (hcontract : DeleteServiceContract k) (older newer : Pod)
    (hname : older.ObjectMeta.Name = newer.ObjectMeta.Name)
    (huid : older.ObjectMeta.UID ≠ newer.ObjectMeta.UID) (l : List LegacySVC) (s : S)
    (fe : L3n4Addr) (svc : LegacySVC) (hget : k.svcGetDeepCopyServiceByFrontend s fe = some svc)
    (hsvc : svc.Name = hostPortServiceName newer fe.L4Addr.Port "") :
    k.svcGetDeepCopyServiceByFrontend (deleteHostPortLoop k older l s).st fe = some svc := by
  induction l generalizing s with
  | nil => simpa [deleteHostPortLoop] using hget
  | cons d rest ih =>
    rw [deleteHostPortLoop_cons_st]
    by_cases hno : hostPortNotOwned k older
        (k.svcGetDeepCopyServiceByFrontend s d.Frontend.L3n4Addr) d = true
    · rw [if_pos hno]
      exact ih s hget
    · rw [if_neg hno]
      have hfe : fe ≠ d.Frontend.L3n4Addr := by
        intro heq
        apply hno
        rw [← heq, hget]
        exact hostPortNotOwned_of_incarnation k older newer svc d hname huid (by rw [← heq]; exact hsvc)
      by_cases hd : (k.svcDeleteService s d.Frontend.L3n4Addr).2 = none
      · rw [if_pos hd]
        apply ih
        rw [((hcontract s d.Frontend.L3n4Addr).2.1 hd).2 fe hfe]
        exact hget
      · rw [if_neg hd, (hcontract s d.Frontend.L3n4Addr).1 hd]
        exact hget

/-- C29. Service names separate pod incarnations.  For two pods in the same namespace
with the same name and different UIDs, and every port, `hostPortServiceName` yields
different names, the name being the pod name, `/pod-id/`, the UID, `/host-port/` and the
port in decimal.  Hence in `deleteHostPortMapping` for the older incarnation a service
stored under the name of the newer one is skipped by the guard, no `DeleteService` call
follows its lookup, and (with a service table whose `DeleteService` meets its contract)
the service is still in the table afterwards. -/
theorem hostPortServiceName_separates_incarnations {C S : Type} (k : K8sPodWatcher C S)
    (older newer : Pod) (hns : older.ObjectMeta.Namespace = newer.ObjectMeta.Namespace)
    (hname : older.ObjectMeta.Name = newer.ObjectMeta.Name)
    (huid : older.ObjectMeta.UID ≠ newer.ObjectMeta.UID) (hcontract : DeleteServiceContract k) :
    (∀ port cluster, hostPortServiceName older port cluster ≠
      hostPortServiceName newer port cluster) ∧
    (∀ port cluster, hostPortServiceName older port cluster =
      ⟨older.ObjectMeta.Name ++ "/pod-id/" ++ older.ObjectMeta.UID ++ "/host-port/" ++
        toString port, newer.ObjectMeta.Namespace, cluster⟩) ∧
    (∀ svc d, svc.Name = hostPortServiceName newer d.Frontend.L3n4Addr.L4Addr.Port "" →
      hostPortNotOwned k older (some svc) d = true) ∧
    (∀ podIPs s pre tl fe fe2 svc err,
      (deleteHostPortMapping k older podIPs s).evs =
        pre ++ .GetDeepCopyServiceByFrontend fe (some svc) :: .DeleteService fe2 err :: tl →
      svc.Name ≠ hostPortServiceName newer fe.L4Addr.Port "") ∧
    (∀ podIPs s fe svc, k.svcGetDeepCopyServiceByFrontend s fe = some svc →
      svc.Name = hostPortServiceName newer fe.L4Addr.Port "" →
      k.svcGetDeepCopyServiceByFrontend (deleteHostPortMapping k older podIPs s).st fe =
        some svc) := by
  refine ⟨fun port cluster => hostPortServiceName_ne older newer port cluster cluster hname huid,
    fun port cluster => by simp [hostPortServiceName, hns],
    fun svc d h => hostPortNotOwned_of_incarnation k older newer svc d hname huid h, ?_, ?_⟩
  · intro podIPs s pre tl fe fe2 svc err hevs hsvc
    unfold deleteHostPortMapping at hevs
    split at hevs
    · simp at hevs
    · dsimp only at hevs
      split at hevs
      · simp at hevs
      · obtain ⟨d, _, hfe, hg⟩ := deleteHostPortLoop_delete_after_get k older _ s pre tl fe fe2
          (some svc) err hevs
        rw [hostPortNotOwned_of_incarnation k older newer svc d hname huid
          (by rw [hfe]; exact hsvc)] at hg
        cases hg
  · intro podIPs s fe svc hget hsvc
    unfold deleteHostPortMapping
    split
    · exact hget
    · dsimp only
      split
      · exact hget
      · exact deleteHostPortLoop_keeps_incarnation k hcontract older newer hname huid _ s fe svc
          hget hsvc

/-- Witness for C29: pod `ns/podA` with host port 8080 was deleted and created again
with a new UID and the same pod IP; the delete of the older incarnation arrives when
the table holds the service of the newer one at 0.0.0.0:8080, looks it up and leaves it
in place. -/
theorem hostPortServiceName_separates_incarnations_witness :
    refPodHostPort.ObjectMeta.Namespace = refPodHostPortNew.ObjectMeta.Namespace ∧
    refPodHostPort.ObjectMeta.Name = refPodHostPortNew.ObjectMeta.Name ∧
    refPodHostPort.ObjectMeta.UID ≠ refPodHostPortNew.ObjectMeta.UID ∧
    hostPortServiceName refPodHostPort 8080 "" = ⟨"podA/pod-id/uid-a/host-port/8080", "ns", ""⟩ ∧
    hostPortServiceName refPodHostPortNew 8080 "" =
      ⟨"podA/pod-id/uid-a2/host-port/8080", "ns", ""⟩ ∧
    (deleteHostPortMapping refK refPodHostPort ["10.0.0.5"] refTableNew).evs =
      [.GetDeepCopyServiceByFrontend (refFrontend (.v4 0 0 0 0))
        (some (hostPortUpsertArg refPodHostPortNew (refHostPortSvc (.v4 0 0 0 0))))] ∧
    refK.svcGetDeepCopyServiceByFrontend
      (deleteHostPortMapping refK refPodHostPort ["10.0.0.5"] refTableNew).st
      (refFrontend (.v4 0 0 0 0)) =
      some (hostPortUpsertArg refPodHostPortNew (refHostPortSvc (.v4 0 0 0 0))) :=
  ⟨by decide, by decide, by decide, by decide, by decide, by decide,
    (hostPortServiceName_separates_incarnations refK refPodHostPort refPodHostPortNew (by decide)
      (by decide) (by decide) (refWatcher_deleteServiceContract _ _ _)).2.2.2.2 ["10.0.0.5"]
      refTableNew (refFrontend (.v4 0 0 0 0))
      (hostPortUpsertArg refPodHostPortNew (refHostPortSvc (.v4 0 0 0 0))) (by decide)
      (by decide)⟩

/-! ## The annotation updates of the endpoints -/

/-- Counterexample for C30: pod `ns/podA` gets the label `app=web` and the egress
bandwidth annotation in one update, and `UpdateLabelsFrom` fails on its endpoint 7.  The
loop over the endpoints is reached and the bandwidth annotation changed, but
`UpdateBandwidthPolicy` is not called: the handler returns at the error. -/
theorem updateK8sPodV1_label_error_skips_bandwidth :
    annoChangedBandwidth refKLabelFail refPodA refPodALabelledBandwidth = true ∧
    refKLabelFail.GetEndpointsByPodName
      (refKLabelFail.GetObjNamespaceName refPodALabelledBandwidth.ObjectMeta) = [7] ∧
    (updateK8sPodV1 refKLabelFail (some refPodA) (some refPodALabelledBandwidth)
      ⟨[("10.0.0.5", refEntry .Kubernetes "ns" "podA")], ⟨[], []⟩⟩).evs =
      [.cgroupOnUpdatePod refPodA refPodALabelledBandwidth,
        .UpdateLabelsFrom 7 [] [("app", "web")] (some (errorsNew "endpoint is being deleted"))] ∧
    (updateK8sPodV1 refKLabelFail (some refPodA) (some refPodALabelledBandwidth)
      ⟨[("10.0.0.5", refEntry .Kubernetes "ns" "podA")], ⟨[], []⟩⟩).evs.filterMap
        Effect.bandwidthEndpoint = [] := by
  decide

/-- The annotation calls of one pass of the loop of `updateK8sPodV1`: none when
`UpdateLabelsFrom` was called and failed, and otherwise one for each category that
changed. -/
theorem updatePodEndpoint_dispatch {C S : Type} (k : K8sPodWatcher C S) (newK8sPod : Pod)
    (ol nl : GoMap) (lc uc ac bw nt : Bool) (ep : Nat) :
    (((lc || uc) && (k.epUpdateLabelsFrom ep ol nl).isSome) = true →
      (updatePodEndpoint k newK8sPod ol nl lc uc ac bw nt ep).1.isSome = true ∧
      (updatePodEndpoint k newK8sPod ol nl lc uc ac bw nt ep).2.filterMap
        Effect.bandwidthEndpoint = [] ∧
      (updatePodEndpoint k newK8sPod ol nl lc uc ac bw nt ep).2.filterMap
        Effect.noTrackEndpoint = []) ∧
    (((lc || uc) && (k.epUpdateLabelsFrom ep ol nl).isSome) = false →
      (updatePodEndpoint k newK8sPod ol nl lc uc ac bw nt ep).1 = none ∧
      (updatePodEndpoint k newK8sPod ol nl lc uc ac bw nt ep).2.filterMap
        Effect.bandwidthEndpoint = (if (ac && bw) = true then [ep] else []) ∧
      (updatePodEndpoint k newK8sPod ol nl lc uc ac bw nt ep).2.filterMap
        Effect.noTrackEndpoint = (if (ac && nt) = true then [ep] else [])) := by
  unfold updatePodEndpoint
  cases lc <;> cases uc <;> cases ac <;> cases bw <;> cases nt <;>
    cases k.cfg.DisableCiliumEndpointCRD <;>
    cases k.epUpdateLabelsFrom ep ol nl <;>
    simp [Effect.bandwidthEndpoint, Effect.noTrackEndpoint]

/-- The annotation calls of the loop of `updateK8sPodV1`: for each category that
changed, one on every endpoint before the first whose `UpdateLabelsFrom` failed. -/
theorem updatePodEndpoints_dispatch {C S : Type} (k : K8sPodWatcher C S) (newK8sPod : Pod)
    (ol nl : GoMap) (lc uc ac bw nt : Bool) (err : Option (GoError Source)) (eps : List Nat) :
    (updatePodEndpoints k newK8sPod ol nl lc uc ac bw nt err eps).2.filterMap
        Effect.bandwidthEndpoint =
      (if (ac && bw) = true then
        eps.takeWhile (fun ep => !((lc || uc) && (k.epUpdateLabelsFrom ep ol nl).isSome))
        else []) ∧
    (updatePodEndpoints k newK8sPod ol nl lc uc ac bw nt err eps).2.filterMap
        Effect.noTrackEndpoint =
      (if (ac && nt) = true then
        eps.takeWhile (fun ep => !((lc || uc) && (k.epUpdateLabelsFrom ep ol nl).isSome))
        else []) := by
  induction eps with
  | nil => simp [updatePodEndpoints]
  | cons ep rest ih =>
    have hd := updatePodEndpoint_dispatch k newK8sPod ol nl lc uc ac bw nt ep
    unfold updatePodEndpoints
    by_cases hf : ((lc || uc) && (k.epUpdateLabelsFrom ep ol nl).isSome) = true
    · obtain ⟨h1, h2, h3⟩ := hd.1 hf
      obtain ⟨e, he⟩ := Option.isSome_iff_exists.1 h1
      simp only [he, h2, h3, List.takeWhile_cons, hf, Bool.not_true, Bool.false_eq_true, if_false]
      constructor <;> split <;> rfl
    · have hf2 : ((lc || uc) && (k.epUpdateLabelsFrom ep ol nl).isSome) = false := by
        simpa using hf
      obtain ⟨h1, h2, h3⟩ := hd.2 hf2
      simp only [h1, List.filterMap_append, h2, h3, ih.1, ih.2, List.takeWhile_cons, hf2,
        Bool.not_false, if_true]
      constructor <;> split <;> simp

/-- An update in which neither the labels nor the UID nor the bandwidth or no-track
annotations changed, while the annotations did, asks every endpoint for a regeneration
and nothing else. -/
theorem updatePodEndpoints_priority_only {C S : Type} (k : K8sPodWatcher C S) (newK8sPod : Pod)
    (ol nl : GoMap) (err : Option (GoError Source)) (eps : List Nat) :
    (updatePodEndpoints k newK8sPod ol nl false false true false false err eps).2 =
      eps.map (fun ep => Effect.realizePodAnnotationUpdate ep) := by
  induction eps with
  | nil => simp [updatePodEndpoints]
  | cons ep rest ih =>
    unfold updatePodEndpoints
    simp [updatePodEndpoint, ih]

/-- The calls of `updatePodHostData` are no calls on an endpoint. -/
theorem updatePodHostData_no_endpointCall {C S : Type} (k : K8sPodWatcher C S)
    (oldPod : Option Pod) (newPod : Pod) (o n : IPSlice) (w : World C S) :
    ∀ e ∈ (updatePodHostData k oldPod newPod o n w).evs, e.isEndpointCall = false := by
  intro e he
  rcases updatePodHostData_evs_kinds k oldPod newPod o n w e he with h | h | ⟨ip, npc, rfl⟩ | h
  · cases e <;> first | rfl | cases h
  · cases e <;> first | rfl | cases h
  · rfl
  · cases e <;> first | rfl | cases h

/-- A call that is no call on an endpoint is no annotation call. -/
theorem endpointCall_projections (e : Effect) (h : e.isEndpointCall = false) :
    e.bandwidthEndpoint = none ∧ e.noTrackEndpoint = none := by
  cases e <;> first | exact ⟨rfl, rfl⟩ | cases h

/-- The calls of the loop over the endpoints are calls on an endpoint. -/
theorem updatePodEndpoints_endpointCalls {C S : Type} (k : K8sPodWatcher C S) (newK8sPod : Pod)
    (ol nl : GoMap) (lc uc ac bw nt : Bool) (err : Option (GoError Source)) (eps : List Nat) :
    ∀ e ∈ (updatePodEndpoints k newK8sPod ol nl lc uc ac bw nt err eps).2,
      e.isEndpointCall = true := by
  have hone : ∀ ep, ∀ e ∈ (updatePodEndpoint k newK8sPod ol nl lc uc ac bw nt ep).2,
      e.isEndpointCall = true := by
    intro ep e
    simp only [updatePodEndpoint]
    cases lc <;> cases uc <;> cases ac <;> cases bw <;> cases nt <;>
      cases k.cfg.DisableCiliumEndpointCRD <;>
      cases k.epUpdateLabelsFrom ep ol nl <;>
      simp <;> intro he <;> (try rcases he with rfl | rfl | rfl | rfl | rfl) <;>
      simp [Effect.isEndpointCall]
  induction eps with
  | nil => simp [updatePodEndpoints]
  | cons ep rest ih =>
    intro e he
    simp only [updatePodEndpoints] at he
    split at he
    · exact hone ep e he
    · rcases List.mem_append.1 he with h | h
      · exact hone ep e h
      · exact ih e h

/-- The calls of an update that reaches the loop over the endpoints: calls that are not
on an endpoint, then the calls of the loop. -/
theorem updateK8sPodV1_loop_evs {C S : Type} (k : K8sPodWatcher C S) (old new : Pod)
    (w : World C S) (hrun : IsPodRunning new.Status = true)
    (hskip : (new.Spec.HostNetwork && !k.cfg.EnableLocalRedirectPolicy &&
      !k.cfg.EnableSocketLBTracing) = false)
    (hchg : (annotationsChanged k old new || labelsChanged k old new) = true)
    (heps : k.GetEndpointsByPodName (k.GetObjNamespaceName new.ObjectMeta) ≠ []) :
    ∃ (evs0 : List Effect) (err : Option (GoError Source)),
      (∀ e ∈ evs0, e.isEndpointCall = false) ∧
      (updateK8sPodV1 k (some old) (some new) w).evs =
        evs0 ++ (updatePodEndpoints k new (oldPodLabels k old) (newPodLabels k new)
          (labelsChanged k old new) (uidChanged old new) (annotationsChanged k old new)
          (annoChangedBandwidth k old new) (annoChangedNoTrack k old new) err
          (k.GetEndpointsByPodName (k.GetObjNamespaceName new.ObjectMeta))).2 := by
  have hlen : ((k.GetEndpointsByPodName (k.GetObjNamespaceName new.ObjectMeta)).length == 0)
      = false := by
    simpa using heps
  have hchg2 : (!annotationsChanged k old new && !labelsChanged k old new) = false := by
    cases ha : annotationsChanged k old new <;> cases hl : labelsChanged k old new <;>
      simp [ha, hl] at hchg ⊢
  have hchg3 : (!(!k.AnnotationsEqual [k.EgressBandwidth] old.ObjectMeta.Annotations
        new.ObjectMeta.Annotations ||
      !k.AnnotationsEqual [k.IngressBandwidth] old.ObjectMeta.Annotations
        new.ObjectMeta.Annotations ||
      !k.AnnotationsEqual [k.Priority] old.ObjectMeta.Annotations new.ObjectMeta.Annotations ||
      !k.AnnotationsEqual [k.NoTrack, k.NoTrackAlias] old.ObjectMeta.Annotations
        new.ObjectMeta.Annotations) &&
      !(!mapsEqual (k.StripPodSpecialLabels (k.filterLabels old.ObjectMeta.Labels))
        (k.filterLabels (k.StripPodSpecialLabels new.ObjectMeta.Labels)))) = false := hchg2
  refine ⟨[Effect.cgroupOnUpdatePod old new] ++
      (if ((k.ValidIPs old.Status).len != 0 || (k.ValidIPs new.Status).len != 0) = true then
        updatePodHostData k (some old) new (k.ValidIPs old.Status) (k.ValidIPs new.Status) w
      else (⟨none, w, []⟩ : Ret (Option (GoError Source)) (World C S))).evs ++
      (if (k.cfg.EnableLocalRedirectPolicy &&
          ((!mapsEqual (k.StripPodSpecialLabels (k.filterLabels old.ObjectMeta.Labels))
              (k.filterLabels (k.StripPodSpecialLabels new.ObjectMeta.Labels)) ||
            !(k.ValidIPs old.Status).DeepEqual (k.ValidIPs new.Status) ||
            old.ObjectMeta.UID != new.ObjectMeta.UID) ||
            k.GetLatestPodReadiness old.Status != k.GetLatestPodReadiness new.Status)) = true
        then [Effect.lrpOnUpdatePod new
          (!mapsEqual (k.StripPodSpecialLabels (k.filterLabels old.ObjectMeta.Labels))
              (k.filterLabels (k.StripPodSpecialLabels new.ObjectMeta.Labels)) ||
            !(k.ValidIPs old.Status).DeepEqual (k.ValidIPs new.Status) ||
            old.ObjectMeta.UID != new.ObjectMeta.UID)
          (k.GetLatestPodReadiness new.Status == "True")] else []),
    (if ((k.ValidIPs old.Status).len != 0 || (k.ValidIPs new.Status).len != 0) = true then
        updatePodHostData k (some old) new (k.ValidIPs old.Status) (k.ValidIPs new.Status) w
      else (⟨none, w, []⟩ : Ret (Option (GoError Source)) (World C S))).val, ?_, ?_⟩
  · intro e he
    simp only [List.mem_append, List.mem_singleton] at he
    rcases he with (he | he) | he
    · subst he; rfl
    · split at he
      · exact updatePodHostData_no_endpointCall k _ _ _ _ w e he
      · simp at he
    · split at he
      · rw [List.mem_singleton] at he
        subst he; rfl
      · simp at he
  · simp only [updateK8sPodV1, hrun, hskip, Bool.not_true, Bool.false_eq_true, if_false, hchg3,
      hlen]
    rfl

/-- A list of calls none of which is a call on an endpoint. -/
theorem filter_isEndpointCall_nil (evs : List Effect)
    (h : ∀ e ∈ evs, e.isEndpointCall = false) :
    evs.filter (fun e => e.isEndpointCall) = [] ∧
    evs.filterMap Effect.bandwidthEndpoint = [] ∧ evs.filterMap Effect.noTrackEndpoint = [] := by
  refine ⟨?_, ?_, ?_⟩
  · rw [List.filter_eq_nil_iff]
    intro e he
    simp [h e he]
  · rw [List.filterMap_eq_nil_iff]
    intro e he
    exact (endpointCall_projections e (h e he)).1
  · rw [List.filterMap_eq_nil_iff]
    intro e he
    exact (endpointCall_projections e (h e he)).2

/-- C30 (amended). Per-category annotation dispatch.  For every update of
`updateK8sPodV1` that reaches the loop over the endpoints, `UpdateBandwidthPolicy` is
called on exactly the endpoints the loop gets through if the ingress or egress bandwidth
annotation changed, and on none otherwise, and likewise `UpdateNoTrackRules` for the
no-track annotation or its alias; the loop gets through the endpoints before the first
one whose `UpdateLabelsFrom`, called when the labels or the UID changed, fails, which is
all of them when none fails.  An update in which only the priority annotation changed
calls neither of them and asks every endpoint for a regeneration, nothing else. -/
theorem updateK8sPodV1_annotation_dispatch {C S : Type} (k : K8sPodWatcher C S) (old new : Pod)
    (w : World C S) (hrun : IsPodRunning new.Status = true)
    (hskip : (new.Spec.HostNetwork && !k.cfg.EnableLocalRedirectPolicy &&
      !k.cfg.EnableSocketLBTracing) = false)
    (hchg : (annotationsChanged k old new || labelsChanged k old new) = true)
    (heps : k.GetEndpointsByPodName (k.GetObjNamespaceName new.ObjectMeta) ≠ []) :
    (updateK8sPodV1 k (some old) (some new) w).evs.filterMap Effect.bandwidthEndpoint =
      (if annoChangedBandwidth k old new = true then
        endpointsUpdated k old new (k.GetEndpointsByPodName (k.GetObjNamespaceName new.ObjectMeta))
        else []) ∧
    (updateK8sPodV1 k (some old) (some new) w).evs.filterMap Effect.noTrackEndpoint =
      (if annoChangedNoTrack k old new = true then
        endpointsUpdated k old new (k.GetEndpointsByPodName (k.GetObjNamespaceName new.ObjectMeta))
        else []) ∧
    ((∀ ep ∈ k.GetEndpointsByPodName (k.GetObjNamespaceName new.ObjectMeta),
        k.epUpdateLabelsFrom ep (oldPodLabels k old) (newPodLabels k new) = none) →
      endpointsUpdated k old new (k.GetEndpointsByPodName (k.GetObjNamespaceName new.ObjectMeta)) =
        k.GetEndpointsByPodName (k.GetObjNamespaceName new.ObjectMeta)) ∧
    (annoChangedBandwidth k old new = false → annoChangedNoTrack k old new = false →
      labelsChanged k old new = false → uidChanged old new = false →
      annoChangedPriority k old new = true ∧
      (updateK8sPodV1 k (some old) (some new) w).evs.filter (fun e => e.isEndpointCall) =
        (k.GetEndpointsByPodName (k.GetObjNamespaceName new.ObjectMeta)).map
          (fun ep => Effect.realizePodAnnotationUpdate ep)) := by
  obtain ⟨evs0, err, h0, hevs⟩ := updateK8sPodV1_loop_evs k old new w hrun hskip hchg heps
  have hnil := filter_isEndpointCall_nil evs0 h0
  have hd := updatePodEndpoints_dispatch k new (oldPodLabels k old) (newPodLabels k new)
    (labelsChanged k old new) (uidChanged old new) (annotationsChanged k old new)
    (annoChangedBandwidth k old new) (annoChangedNoTrack k old new) err
    (k.GetEndpointsByPodName (k.GetObjNamespaceName new.ObjectMeta))
  have hbw : (annotationsChanged k old new && annoChangedBandwidth k old new) =
      annoChangedBandwidth k old new := by
    unfold annotationsChanged
    cases annoChangedBandwidth k old new <;> simp
  have hnt : (annotationsChanged k old new && annoChangedNoTrack k old new) =
      annoChangedNoTrack k old new := by
    unfold annotationsChanged
    cases annoChangedNoTrack k old new <;> simp
  rw [hbw] at hd
  rw [hnt] at hd
  refine ⟨?_, ?_, ?_, ?_⟩
  · rw [hevs, List.filterMap_append, hnil.2.1, List.nil_append, hd.1]
    rfl
  · rw [hevs, List.filterMap_append, hnil.2.2, List.nil_append, hd.2]
    rfl
  · intro hok
    unfold endpointsUpdated
    rw [List.takeWhile_eq_self_iff]
    intro ep hep
    simp [hok ep hep]
  · intro hb hn hl hu
    have hp : annoChangedPriority k old new = true := by
      unfold annotationsChanged at hchg
      rw [hb, hn, hl] at hchg
      simpa using hchg
    have hac : annotationsChanged k old new = true := by
      unfold annotationsChanged
      rw [hp]; simp
    refine ⟨hp, ?_⟩
    rw [hevs, List.filter_append, hnil.1, List.nil_append, hl, hu, hac, hb, hn,
      updatePodEndpoints_priority_only]
    rw [List.filter_eq_self]
    intro e he
    rcases List.mem_map.1 he with ⟨ep, _, rfl⟩
    rfl

/-- Witness for C30 (amended): pod `ns/podA` gets the egress bandwidth annotation;
`UpdateBandwidthPolicy` is called on its endpoint 7 and `UpdateNoTrackRules` is not.
When it gets the priority annotation instead, the call on endpoint 7 is the request for
a regeneration alone. -/
theorem updateK8sPodV1_annotation_dispatch_witness :
    IsPodRunning refPodABandwidth.Status = true ∧
    annoChangedBandwidth refK refPodA refPodABandwidth = true ∧
    annoChangedNoTrack refK refPodA refPodABandwidth = false ∧
    refK.GetEndpointsByPodName (refK.GetObjNamespaceName refPodABandwidth.ObjectMeta) = [7] ∧
    (updateK8sPodV1 refK (some refPodA) (some refPodABandwidth)
      ⟨[("10.0.0.5", refEntry .Kubernetes "ns" "podA")], ⟨[], []⟩⟩).evs =
      [.cgroupOnUpdatePod refPodA refPodABandwidth, .UpdateBandwidthPolicy 7 "10M" "" "",
        .realizePodAnnotationUpdate 7] ∧
    (updateK8sPodV1 refK (some refPodA) (some refPodAPriority)
      ⟨[("10.0.0.5", refEntry .Kubernetes "ns" "podA")], ⟨[], []⟩⟩).evs =
      [.cgroupOnUpdatePod refPodA refPodAPriority, .realizePodAnnotationUpdate 7] ∧
    (updateK8sPodV1 refK (some refPodA) (some refPodABandwidth)
      ⟨[("10.0.0.5", refEntry .Kubernetes "ns" "podA")], ⟨[], []⟩⟩).evs.filterMap
        Effect.bandwidthEndpoint =
      (if annoChangedBandwidth refK refPodA refPodABandwidth = true then
        endpointsUpdated refK refPodA refPodABandwidth
          (refK.GetEndpointsByPodName (refK.GetObjNamespaceName refPodABandwidth.ObjectMeta))
        else []) :=
  ⟨by decide, by decide, by decide, by decide, by decide, by decide,
    (updateK8sPodV1_annotation_dispatch refK refPodA refPodABandwidth
      ⟨[("10.0.0.5", refEntry .Kubernetes "ns" "podA")], ⟨[], []⟩⟩ (by decide) (by decide)
      (by decide) (by decide)).1⟩

/-! # Theorems on package `pkg/ipam/metadata` -/

namespace Metadata

/-- The pool `determinePoolByAnnotations` finds for a valid family is the annotated
pool. -/
theorem determinePoolByAnnotations_eq (env : Env) (annotations : GoMap) (family : String)
    (hfam : family = env.IPv4 ∨ family = env.IPv6) :
    determinePoolByAnnotations env annotations family =
      match annotatedPool env annotations family with
      | some pool => (pool, true)
      | none => ("", false) := by
  unfold determinePoolByAnnotations annotatedPool familyPoolKey
  by_cases h4 : family = env.IPv4
  · subst h4
    by_cases h1 : annotations.get env.IPAMIPv4PoolKey = ""
    · by_cases h2 : annotations.get env.IPAMPoolKey = ""
      · simp [h1, h2]
      · simp [h1, h2]
    · simp [h1]
  · have h6 : family = env.IPv6 := by
      rcases hfam with h | h
      · exact absurd h h4
      · exact h
    have h4b : (family == env.IPv4) = false := by simpa using h4
    have h6b : (family == env.IPv6) = true := by simpa using h6
    simp only [h4b, h6b, Bool.false_eq_true, if_false, if_true]
    by_cases h1 : annotations.get env.IPAMIPv6PoolKey = ""
    · by_cases h2 : annotations.get env.IPAMPoolKey = ""
      · simp [h1, h2]
      · simp [h1, h2]
    · simp [h1]

/-- C25. IP pool precedence.  For a valid family and an owner `namespace/name` that
`splitK8sPodName` accepts: when the pod does not exist, `GetIPPoolForPod` fails with
`ResourceNotFound` for the pod; otherwise it returns the family annotation of the pod if
that is not empty, else the generic pool annotation of the pod if that is not empty,
else it fails with `ResourceNotFound` for the namespace when the namespace does not
exist, else it returns the family annotation of the namespace if that is not empty,
else the generic one if that is not empty, else the default pool. -/
theorem GetIPPoolForPod_precedence (m : manager) (owner family ns name : String)
    (hfam : family = m.env.IPv4 ∨ family = m.env.IPv6)
    (hsplit : splitK8sPodName m.env owner = (ns, name, true)) :
    ((GetIPPoolForPod m owner family).1, (GetIPPoolForPod m owner family).2.1) =
      match m.pods ns name with
      | none => ("", some (.ResourceNotFound "Pod" name ns))
      | some podAnnotations =>
        if podAnnotations.get (familyPoolKey m.env family) ≠ "" then
          (podAnnotations.get (familyPoolKey m.env family), none)
        else if podAnnotations.get m.env.IPAMPoolKey ≠ "" then
          (podAnnotations.get m.env.IPAMPoolKey, none)
        else
          match m.namespaces ns with
          | none => ("", some (.ResourceNotFound "Namespace" ns ""))
          | some nsAnnotations =>
            if nsAnnotations.get (familyPoolKey m.env family) ≠ "" then
              (nsAnnotations.get (familyPoolKey m.env family), none)
            else if nsAnnotations.get m.env.IPAMPoolKey ≠ "" then
              (nsAnnotations.get m.env.IPAMPoolKey, none)
            else (m.env.PoolDefault, none) := by
  have hf : (family != m.env.IPv6 && family != m.env.IPv4) = false := by
    rcases hfam with h | h <;> simp [h]
  unfold GetIPPoolForPod
  simp only [hf, Bool.false_eq_true, if_false, hsplit, Bool.not_true]
  cases hp : m.pods ns name with
  | none => rfl
  | some podAnnotations =>
    simp only [determinePoolByAnnotations_eq m.env _ family hfam]
    unfold annotatedPool
    by_cases h1 : podAnnotations.get (familyPoolKey m.env family) = ""
    · by_cases h2 : podAnnotations.get m.env.IPAMPoolKey = ""
      · simp only [h1, h2, ne_eq, not_true_eq_false, if_false, Bool.false_eq_true]
        cases hn : m.namespaces ns with
        | none => rfl
        | some nsAnnotations =>
          by_cases h3 : nsAnnotations.get (familyPoolKey m.env family) = ""
          · by_cases h4 : nsAnnotations.get m.env.IPAMPoolKey = ""
            · simp [h3, h4]
            · simp [h3, h4]
          · simp [h3]
      · simp [h1, h2]
    · simp [h1]

/-- Witness for C25: for the owner `ns/poda` and IPv4 the generic pool annotation of the
pod wins over the IPv4 annotation of the namespace; for `ns/podb`, without annotations,
the IPv4 annotation of the namespace is used for IPv4 and the default pool for IPv6; and
the pod `ns/podc` does not exist. -/
theorem GetIPPoolForPod_precedence_witness :
    ("ipv4" = refManager.env.IPv4 ∨ "ipv4" = refManager.env.IPv6) ∧
    splitK8sPodName refManager.env "ns/poda" = ("ns", "poda", true) ∧
    GetIPPoolForPod refManager "ns/poda" "ipv4" = ("blue", none, [.podsGet "ns" "poda"]) ∧
    GetIPPoolForPod refManager "ns/podb" "ipv4" =
      ("green", none, [.podsGet "ns" "podb", .namespacesGet "ns"]) ∧
    GetIPPoolForPod refManager "ns/podb" "ipv6" =
      ("default", none, [.podsGet "ns" "podb", .namespacesGet "ns"]) ∧
    GetIPPoolForPod refManager "ns/podc" "ipv4" =
      ("", some (.ResourceNotFound "Pod" "podc" "ns"), [.podsGet "ns" "podc"]) ∧
    GetIPPoolForPod refManager "other/poda" "ipv4" =
      ("", some (.ResourceNotFound "Pod" "poda" "other"), [.podsGet "other" "poda"]) ∧
    ((GetIPPoolForPod refManager "ns/poda" "ipv4").1,
      (GetIPPoolForPod refManager "ns/poda" "ipv4").2.1) = ("blue", none) :=
  ⟨Or.inl rfl, by decide, by decide, by decide, by decide, by decide, by decide,
    (GetIPPoolForPod_precedence refManager "ns/poda" "ipv4" "ns" "poda" (Or.inl rfl)
      (by decide)).trans (by decide)⟩

/-- The call `strings.Cut(s, "/")` finds a separator exactly when the string has a `/`;
it then cuts the string at its first `/`. -/
theorem cutSlash_spec (s : String) :
    ((cutSlash s).2.2 = true ↔ '/' ∈ s.data) ∧
    ((cutSlash s).2.2 = true →
      s = (cutSlash s).1 ++ "/" ++ (cutSlash s).2.1 ∧ '/' ∉ (cutSlash s).1.data) ∧
    ((cutSlash s).2.2 = false → cutSlash s = (s, "", false)) := by
  unfold cutSlash
  rw [List.span_eq_take_drop]
  cases hd : s.data.dropWhile (fun c => c != '/') with
  | nil =>
    have hall := List.dropWhile_eq_nil_iff.1 hd
    refine ⟨?_, ?_, ?_⟩
    · simp only [Bool.false_eq_true, false_iff]
      intro hmem
      have := hall _ hmem
      simp at this
    · intro h; cases h
    · intro _; rfl
  | cons c after =>
    have hc : c = '/' := by
      have h1 := List.head_dropWhile_not (fun c => c != '/') s.data (by rw [hd]; simp)
      simp [hd] at h1
      exact h1
    have happ := List.takeWhile_append_dropWhile (fun c => c != '/') s.data
    rw [hd, hc] at happ
    refine ⟨?_, ?_, ?_⟩
    · simp only [true_iff]
      rw [← happ]
      simp
    · intro _
      refine ⟨?_, ?_⟩
      · apply String.ext
        simp only [String.data_append]
        rw [List.append_assoc, List.singleton_append]
        exact happ.symm
      · intro hmem
        have := List.mem_takeWhile_imp hmem
        simp at this
    · intro h; cases h

/-- C26. Invalid owner names are not fatal.  For a valid family and an owner that
`splitK8sPodName` rejects, `GetIPPoolForPod` returns the default pool and a nil error
and reads neither the pod table nor the namespace table; `splitK8sPodName` rejects an
owner exactly when it has no `/` or when the part before its first `/` or the part after
it is no valid DNS-1123 subdomain.  For a family that is neither IPv4 nor IPv6 it
returns an error, for every owner. -/
theorem GetIPPoolForPod_invalid_owner (m : manager) (owner family : String) :
    ((family = m.env.IPv4 ∨ family = m.env.IPv6) →
      (splitK8sPodName m.env owner).2.2 = false →
      GetIPPoolForPod m owner family = (m.env.PoolDefault, none, [])) ∧
    ((splitK8sPodName m.env owner).2.2 = false ↔
      ('/' ∉ owner.data ∨ (m.env.IsDNS1123Subdomain (cutSlash owner).1).isSome = true ∨
        (m.env.IsDNS1123Subdomain (cutSlash owner).2.1).isSome = true)) ∧
    ('/' ∈ owner.data →
      owner = (cutSlash owner).1 ++ "/" ++ (cutSlash owner).2.1 ∧
      '/' ∉ (cutSlash owner).1.data) ∧
    (family ≠ m.env.IPv4 → family ≠ m.env.IPv6 →
      GetIPPoolForPod m owner family =
        ("", some (.invalidFamily ("invalid IP family: " ++ family)), [])) := by
  have hcut := cutSlash_spec owner
  refine ⟨?_, ?_, ?_, ?_⟩
  · intro hfam hbad
    have hf : (family != m.env.IPv6 && family != m.env.IPv4) = false := by
      rcases hfam with h | h <;> simp [h]
    unfold GetIPPoolForPod
    simp [hf, hbad]
  · unfold splitK8sPodName
    by_cases hok : (cutSlash owner).2.2 = true
    · have hmem := hcut.1.1 hok
      by_cases hv : ((m.env.IsDNS1123Subdomain (cutSlash owner).1).isSome ||
          (m.env.IsDNS1123Subdomain (cutSlash owner).2.1).isSome) = true
      · simp only [hok, Bool.not_true, Bool.false_eq_true, if_false, hv, if_true, true_iff]
        right
        simpa using hv
      · have hv2 : ((m.env.IsDNS1123Subdomain (cutSlash owner).1).isSome ||
            (m.env.IsDNS1123Subdomain (cutSlash owner).2.1).isSome) = false := by
          simpa using hv
        simp only [hok, Bool.not_true, Bool.false_eq_true, if_false, hv2]
        rw [Bool.or_eq_false_iff] at hv2
        constructor
        · intro h; cases h
        · rintro (h | h | h)
          · exact absurd hmem h
          · rw [hv2.1] at h; cases h
          · rw [hv2.2] at h; cases h
    · have hok2 : (cutSlash owner).2.2 = false := by simpa using hok
      simp only [hok2, Bool.not_false, if_true, true_iff]
      left
      intro hmem
      exact hok (hcut.1.2 hmem)
  · intro hmem
    exact hcut.2.1 (hcut.1.2 hmem)
  · intro h4 h6
    have hf : (family != m.env.IPv6 && family != m.env.IPv4) = true := by
      simp [h4, h6]
    unfold GetIPPoolForPod
    simp [hf]

/-- Witness for C26: the owners `poda` (no `/`), `ns/Pod_A` (an invalid name) and
`ns/a/b` (a name with a `/`) get the default pool without a read of a table; the family
`ipv5` gets an error. -/
theorem GetIPPoolForPod_invalid_owner_witness :
    GetIPPoolForPod refManager "poda" "ipv4" = ("default", none, []) ∧
    GetIPPoolForPod refManager "ns/Pod_A" "ipv6" = ("default", none, []) ∧
    GetIPPoolForPod refManager "ns/a/b" "ipv4" = ("default", none, []) ∧
    GetIPPoolForPod refManager "ns/poda" "ipv5" =
      ("", some (.invalidFamily "invalid IP family: ipv5"), []) ∧
    GetIPPoolForPod refManager "poda" "ipv4" = (refManager.env.PoolDefault, none, []) :=
  ⟨by decide, by decide, by decide, by decide,
    (GetIPPoolForPod_invalid_owner refManager "poda" "ipv4").1 (Or.inl rfl) (by decide)⟩

end Metadata

/-! # Theorems on package `pkg/datapath/tunnel` -/

namespace Tunnel

/-- The loop over enablers none of which is enabled calls no validator and leaves
`enabled` and `shouldAdaptMTU` as they are. -/
theorem runEnablers_none_enabled (protocol : EncapProtocol) (l : List enabler)
    (enabled shouldAdaptMTU : Bool) (h : ∀ e ∈ l, e.enable = false) :
    runEnablers protocol l enabled shouldAdaptMTU = (.ok (enabled, shouldAdaptMTU), []) := by
  induction l with
  | nil => rfl
  | cons e rest ih =>
    unfold runEnablers
    rw [h e (List.mem_cons_self _ _)]
    simp only [Bool.false_eq_true, if_false]
    exact ih (fun e1 he1 => h e1 (List.mem_cons_of_mem _ he1))

/-- C27. Tunnel disabled configuration.  For every user configuration with the tunnel
protocol vxlan or geneve, the underlay ipv4 or ipv6 and a source port range that scans,
if no enabler has `enable` set then `newConfig` returns a nil error and the
configuration `configDisabled`, whose protocol is `Disabled`, whose port and source
ports are 0, whose device name is empty and whose MTU adaptation is off, whatever the
port of the user and the validators and MTU options of the enablers; no validator is
called. -/
theorem newConfig_disabled (d : Defaults) (input : newConfigIn) (low high : Nat)
    (hproto : input.Cfg.TunnelProtocol = VXLAN ∨ input.Cfg.TunnelProtocol = Geneve)
    (hunder : input.Cfg.UnderlayProtocol = IPv4 ∨ input.Cfg.UnderlayProtocol = IPv6)
    (hscan : d.Sscanf input.Cfg.TunnelSourcePortRange = some (low, high))
    (hnone : ∀ e ∈ input.Enablers, e.enable = false) :
    newConfig d input = (configDisabled, none, []) ∧
    (newConfig d input).2.1 = none ∧
    (newConfig d input).1.EncapProtocol = Disabled ∧
    (newConfig d input).1.Port = 0 ∧
    (newConfig d input).1.SrcPortLow = 0 ∧
    (newConfig d input).1.SrcPortHigh = 0 ∧
    (newConfig d input).1.DeviceName = "" ∧
    (newConfig d input).1.ShouldAdaptMTU = false ∧
    (newConfig d input).2.2 = [] := by
  have hp : (!(input.Cfg.TunnelProtocol == VXLAN || input.Cfg.TunnelProtocol == Geneve)) = false := by
    rcases hproto with h | h <;> simp [h]
  have hu : (!(input.Cfg.UnderlayProtocol == IPv4 || input.Cfg.UnderlayProtocol == IPv6)) = false := by
    rcases hunder with h | h <;> simp [h]
  have hmain : newConfig d input = (configDisabled, none, []) := by
    unfold newConfig
    simp only [hp, hu, Bool.false_eq_true, if_false, hscan,
      runEnablers_none_enabled _ _ _ _ hnone, Bool.not_false, if_true]
  rw [hmain]
  exact ⟨rfl, rfl, rfl, rfl, rfl, rfl, rfl, rfl, rfl⟩

/-- Witness for C27: VXLAN over IPv4 on the port 4789 of the user with the source port
range 1000-2000 and one enabler that is not enabled, with a validator that rejects every
protocol and with MTU adaptation: the result is the disabled configuration without an
error.  The same enabler, enabled, has its validator called and fails. -/
theorem newConfig_disabled_witness :
    (refUserCfg.TunnelProtocol = VXLAN ∨ refUserCfg.TunnelProtocol = Geneve) ∧
    (refUserCfg.UnderlayProtocol = IPv4 ∨ refUserCfg.UnderlayProtocol = IPv6) ∧
    refDefaults.Sscanf refUserCfg.TunnelSourcePortRange = some (1000, 2000) ∧
    newConfig refDefaults ⟨refUserCfg, [refEnabler true]⟩ =
      (configDisabled, some "unsupported tunnel protocol", ["vxlan"]) ∧
    newConfig refDefaults ⟨refUserCfg, [{ refEnabler true with validators := [] }]⟩ =
      (⟨"ipv4", "vxlan", 4789, 1000, 2000, "cilium_vxlan", true⟩, none, []) ∧
    newConfig refDefaults ⟨refUserCfg, [refEnabler false]⟩ = (configDisabled, none, []) :=
  ⟨Or.inl rfl, Or.inl rfl, by decide, by decide, by decide,
    (newConfig_disabled refDefaults ⟨refUserCfg, [refEnabler false]⟩ 1000 2000 (Or.inl rfl)
      (Or.inl rfl) (by decide) (by decide)).1⟩

end Tunnel

/-! # Theorems on package `pkg/ipam/service/allocator` -/

namespace Allocator

theorem popCount_zero : popCount 0 = 0 := by simp [popCount]

/-- The binary digits of a number are its last bit and the digits of its half. -/
theorem popCount_step (n : Nat) : popCount n = n % 2 + popCount (n / 2) := by
  rcases Nat.eq_zero_or_pos n with h | h
  · subst h; simp [popCount]
  · unfold popCount
    rw [Nat.digits_def' (by norm_num) h, List.count_cons]
    rcases Nat.mod_two_eq_zero_or_one n with h2 | h2
    · simp [h2]
    · simp [h2]; omega

theorem onesCount_eq (i w : Nat) (h : w < 2 ^ i) : onesCount i w = popCount w := by
  induction i generalizing w with
  | zero =>
    have : w = 0 := by simpa using h
    subst this
    simp [onesCount, popCount]
  | succ i ih =>
    rw [onesCount, popCount_step w, ih]
    rw [pow_succ] at h
    omega

/-- The one bits of a number are those of its `k` low bits and those of the rest. -/
theorem popCount_split (k a b : Nat) (h : a < 2 ^ k) :
    popCount (a + 2 ^ k * b) = popCount a + popCount b := by
  induction k generalizing a b with
  | zero =>
    have : a = 0 := by simpa using h
    subst this
    simp [popCount_zero]
  | succ k ih =>
    rw [popCount_step (a + 2 ^ (k + 1) * b), popCount_step a]
    have he : 2 ^ (k + 1) * b = 2 * (2 ^ k * b) := by rw [pow_succ]; ring
    have h1 : (a + 2 ^ (k + 1) * b) % 2 = a % 2 := by
      rw [he]; omega
    have h2 : (a + 2 ^ (k + 1) * b) / 2 = a / 2 + 2 ^ k * b := by
      rw [he]; omega
    rw [h1, h2, ih (a / 2) b (by rw [pow_succ] at h; omega)]
    omega

/-- With enough fuel, the one bits of the words of a number are the one bits of the
number. -/
theorem bigWordsAux_sum (fuel n : Nat) (h : n ≤ fuel) :
    ((bigWordsAux fuel n).map OnesCount64).sum = popCount n := by
  induction fuel generalizing n with
  | zero =>
    have : n = 0 := by omega
    subst this
    simp [bigWordsAux, popCount_zero]
  | succ fuel ih =>
    unfold bigWordsAux
    by_cases hn : n = 0
    · subst hn; simp [popCount_zero]
    · simp only [hn, if_false, List.map_cons, List.sum_cons]
      have hlt : n / 2 ^ 64 ≤ fuel := by
        have : n / 2 ^ 64 < n := Nat.div_lt_self (Nat.pos_of_ne_zero hn) (by norm_num)
        omega
      rw [ih _ hlt]
      have hw : OnesCount64 (n % 2 ^ 64) = popCount (n % 2 ^ 64) := by
        unfold OnesCount64
        rw [Nat.mod_mod]
        exact onesCount_eq 64 _ (Nat.mod_lt _ (by norm_num))
      rw [hw, ← popCount_split 64 _ _ (Nat.mod_lt _ (by norm_num)), Nat.mod_add_div]

/-- C28. The function `countBits` is the population count: for every big integer n that
is not negative, `countBits n` is the number of digits 1 in the binary representation
of n, also when n takes more than one machine word. -/
theorem countBits_population_count (n : Int) (h : 0 ≤ n) :
    countBits n = popCount n.toNat := by
  unfold countBits Bits
  rw [bigWordsAux_sum _ _ (Nat.le_refl _)]
  congr 1
  omega

/-- Witness for C28: the values of the test `TestCountBits`: 0 has no bit set,
0xffffffffff has 40, and 2^256, which takes five words of 64 bits, has one. -/
theorem countBits_population_count_witness :
    (0 : Int) ≤ 0xffffffffff ∧
    countBits 0 = 0 ∧
    countBits 0xffffffffff = 40 ∧
    countBits 0x10000000000000000000000000000000000000000000000000000000000000000 = 1 ∧
    (0x10000000000000000000000000000000000000000000000000000000000000000 : Int) = 2 ^ 256 ∧
    (Bits 0x10000000000000000000000000000000000000000000000000000000000000000).length = 5 ∧
    popCount (0xffffffffff : Int).toNat = 40 :=
  ⟨by decide, by decide, by decide, by decide, by norm_num, by decide,
    (countBits_population_count 0xffffffffff (by decide)).symm.trans (by decide)⟩

end Allocator

end Cilium
